import Mathlib

/-!
# A shallow embedding of the CDF virtual-table adapters (`src/cdf.c`)

The adapters sit between two external components: the relational front-end
(SQLite), which drives the cursor protocol, and the file-format engine
(the CDF library).  Both are modelled here only as far as the adapter code
observes them:

* a value handed over by the front-end is the record of what the
  `sqlite3_value_*` accessors return for it (`SqlValue`);
* the engine is a state (`Engine`) holding the variables, the attributes and
  their entries, together with a log of every mutating primitive that was
  called on it.

Integers of the C code (`long`, `sqlite_int64`) are mathematical integers;
where the code multiplies sizes the product is taken modulo 2^64 (`mulLong`).
Buffers are lists of bytes (naturals below 256) in little-endian order.

An engine getter that fails returns `none`; the C code ignores the status of
most getters, so the local variable that should have received the result keeps
its previous value (`Option.getD`).  Where that previous value does not exist
(an uninitialised local) the behaviour of the C code is undefined and the
embedded function returns `none`.
-/

namespace CdfVtab

/-! ## Constants of the two external interfaces -/

abbrev CDF_OK : Int := 0
/-- Stands for any negative (failure) status of the engine. -/
abbrev CDF_ERR : Int := -1

abbrev CDF_INT1 : Int := 1
abbrev CDF_INT2 : Int := 2
abbrev CDF_INT4 : Int := 4
abbrev CDF_INT8 : Int := 8
abbrev CDF_UINT1 : Int := 11
abbrev CDF_UINT2 : Int := 12
abbrev CDF_UINT4 : Int := 14
abbrev CDF_REAL4 : Int := 21
abbrev CDF_REAL8 : Int := 22
abbrev CDF_EPOCH : Int := 31
abbrev CDF_EPOCH16 : Int := 32
abbrev CDF_TIME_TT2000 : Int := 33
abbrev CDF_BYTE : Int := 41
abbrev CDF_FLOAT : Int := 44
abbrev CDF_DOUBLE : Int := 45
abbrev CDF_CHAR : Int := 51
abbrev CDF_UCHAR : Int := 52

abbrev GLOBAL_SCOPE : Int := 1
abbrev VARIABLE_SCOPE : Int := 2

abbrev SQLITE_OK : Int := 0
abbrev SQLITE_ERROR : Int := 1
abbrev SQLITE_NOMEM : Int := 7
abbrev SQLITE_READONLY : Int := 8

abbrev SQLITE_INTEGER : Int := 1
abbrev SQLITE_FLOAT : Int := 2
abbrev SQLITE_TEXT : Int := 3
abbrev SQLITE_BLOB : Int := 4
abbrev SQLITE_NULL : Int := 5

/-! ## C library helpers -/

/-- The C function `strchr(s, c) != NULL`: the terminating NUL of `s` counts as
part of the string, so the NUL character is always found. -/
def strchr (s : List Char) (c : Char) : Bool :=
  decide (c ∈ s) || decide (c = Char.ofNat 0)

/-- The bytes of a C string: everything before the first NUL. -/
def cstr (b : List Nat) : List Nat := b.takeWhile (fun x => x != 0)

/-- The C function `strnlen(s, maxlen)` on a NUL-terminated buffer. -/
def strnlen (b : List Nat) (maxlen : Nat) : Int := ((min (cstr b).length maxlen : Nat) : Int)

/-- The C comparison `strcmp(a, b) == 0`. -/
def strcmpEq (a b : List Nat) : Bool := decide (cstr a = cstr b)

/-- The little-endian bytes of the low `w` bytes of `n`. -/
def leBytes (w : Nat) (n : Nat) : List Nat := (List.range w).map (fun k => (n / 256 ^ k) % 256)

/-- The natural number whose little-endian bytes are `b`. -/
def ofLeBytes : List Nat → Nat
  | [] => 0
  | x :: xs => x + 256 * ofLeBytes xs

/-- The 8 bytes of a C `long` (two's complement, little-endian). -/
def longBytes (i : Int) : List Nat := leBytes 8 (i % 18446744073709551616).toNat

/-- Element of a list at a C index. -/
def getAt {α : Type} (l : List α) (i : Int) : Option α :=
  if i < 0 then none else l[i.toNat]?

/-! ## Type/Status translator -/

/-- Source: `cdf_elsize`. -/
def cdf_elsize (cdftype : Int) : Int :=
  if cdftype = CDF_REAL8 ∨ cdftype = CDF_DOUBLE ∨ cdftype = CDF_EPOCH ∨ cdftype = CDF_INT8
      ∨ cdftype = CDF_TIME_TT2000 then 8
  else if cdftype = CDF_REAL4 ∨ cdftype = CDF_FLOAT ∨ cdftype = CDF_INT4 ∨ cdftype = CDF_UINT4 then 4
  else if cdftype = CDF_INT2 ∨ cdftype = CDF_UINT2 then 2
  else if cdftype = CDF_INT1 ∨ cdftype = CDF_UINT1 ∨ cdftype = CDF_BYTE ∨ cdftype = CDF_CHAR
      ∨ cdftype = CDF_UCHAR then 1
  else if cdftype = CDF_EPOCH16 then 16
  else 0

/-- Source: `cdf_sqlitetype`. -/
def cdf_sqlitetype (cdftype : Int) : Int :=
  if cdftype = CDF_REAL8 ∨ cdftype = CDF_DOUBLE ∨ cdftype = CDF_EPOCH ∨ cdftype = CDF_TIME_TT2000 then
    SQLITE_FLOAT
  else if cdftype = CDF_INT8 ∨ cdftype = CDF_INT4 ∨ cdftype = CDF_UINT4 ∨ cdftype = CDF_INT2
      ∨ cdftype = CDF_UINT2 ∨ cdftype = CDF_INT1 ∨ cdftype = CDF_UINT1 ∨ cdftype = CDF_BYTE then
    SQLITE_INTEGER
  else if cdftype = CDF_CHAR ∨ cdftype = CDF_UCHAR then SQLITE_TEXT
  else if cdftype = CDF_REAL4 ∨ cdftype = CDF_FLOAT ∨ cdftype = CDF_EPOCH16 then SQLITE_BLOB
  else 0

/-- Source: the table `typestrs` (mnemonics as byte strings), the last one empty. -/
def typestrs : List (List Nat) :=
  [ [114,101,97,108,56], [100,111,117,98,108,101], [101,112,111,99,104],
    [116,105,109,101,95,116,116,50,48,48,48], [105,110,116,56], [105,110,116,52],
    [117,105,110,116,52], [105,110,116,50], [117,105,110,116,50], [105,110,116,49],
    [117,105,110,116,49], [98,121,116,101], [99,104,97,114], [117,99,104,97,114],
    [114,101,97,108,52], [102,108,111,97,116], [101,112,111,99,104,49,54], [] ]

/-- Source: the table `typeids`, the last one 0. -/
def typeids : List Int :=
  [ CDF_REAL8, CDF_DOUBLE, CDF_EPOCH, CDF_TIME_TT2000, CDF_INT8, CDF_INT4, CDF_UINT4,
    CDF_INT2, CDF_UINT2, CDF_INT1, CDF_UINT1, CDF_BYTE, CDF_CHAR, CDF_UCHAR, CDF_REAL4,
    CDF_FLOAT, CDF_EPOCH16, 0 ]

/-- The loop `for( k=0; k<17; k++ ) if( p k ) break;` started at `k`, with `n = 17 - k`. -/
def firstIndex (p : Nat → Bool) : Nat → Nat → Nat
  | 0, k => k
  | n + 1, k => if p k then k else firstIndex p n (k + 1)

/-- Source: `cdf_typestr`. -/
def cdf_typestr (cdftype : Int) : List Nat :=
  typestrs.getD (firstIndex (fun k => decide (typeids.getD k 0 = cdftype)) 17 0) []

/-- The C comparison `strncmp(a, b, n) == 0`. -/
def strncmpEq (a b : List Nat) (n : Nat) : Bool := decide ((cstr a).take n = (cstr b).take n)

/-- Source: `cdf_typeid`. -/
def cdf_typeid (typestr : List Nat) : Int :=
  typeids.getD (firstIndex (fun k => strncmpEq (typestrs.getD k []) typestr 11) 17 0) 0

/-- Source: `cdf_typesql`. -/
def cdf_typesql (sqltype : Int) : Int :=
  if sqltype = SQLITE_INTEGER then CDF_INT8
  else if sqltype = SQLITE_FLOAT then CDF_REAL8
  else if sqltype = SQLITE_TEXT then CDF_CHAR
  else 0

/-- Source: `cdf_valfuncid`. -/
def cdf_valfuncid (cdftype : Int) : Int :=
  if cdftype ≤ CDF_UINT4 ∨ cdftype = CDF_BYTE ∨ cdftype = CDF_TIME_TT2000 then 0
  else if cdftype = CDF_REAL8 ∨ cdftype = CDF_DOUBLE ∨ cdftype = CDF_EPOCH then 1
  else if cdftype = CDF_CHAR ∨ cdftype = CDF_UCHAR then 2
  else if cdftype = CDF_REAL4 ∨ cdftype = CDF_FLOAT then 3
  else if cdftype = CDF_EPOCH16 then 4
  else -1

/-! ## The relational front-end: values and results -/

/-- A value handed over by the front-end, described by what the accessors
`sqlite3_value_type`, `sqlite3_value_int64`, `sqlite3_value_double`,
`sqlite3_value_blob`/`sqlite3_value_text` (whose length is `sqlite3_value_bytes`) and
`sqlite3_value_nochange` return for it.  `float32` is the C conversion
`(float) sqlite3_value_double(v)` and `dtrunc` the C conversion
`(long) sqlite3_value_double(v)`.  Floating-point numbers are bit patterns. -/
structure SqlValue where
  vtype : Int
  int64 : Int
  double : Nat
  float32 : Nat
  dtrunc : Int
  bytes : List Nat
  nochange : Bool
deriving DecidableEq

/-- The SQL NULL value. -/
def sqlNull : SqlValue := ⟨SQLITE_NULL, 0, 0, 0, 0, [], false⟩

/-- The argument `argv[i]` of an `xUpdate` call (the front-end passes 1 argument for a
DELETE and the column count plus 2 otherwise). -/
def arg (argv : List SqlValue) (i : Int) : SqlValue := (getAt argv i).getD sqlNull

/-- What a column callback hands back through `sqlite3_result_*`. -/
inductive SqlResult
  | null
  | int64 (i : Int)
  | double (bits : Nat)
  | text (bytes : List Nat)
  | blob (bytes : List Nat)
deriving DecidableEq

/-! ## The file-format engine -/

/-- One zVariable of the container.  `recs` are the records that were written
(record index, bytes); a record that was never written reads as `padValue`. -/
structure ZVar where
  name : List Nat
  dataType : Int
  numElems : Int
  dimSizes : List Int
  padValue : List Nat
  recs : List (Int × List Nat)
deriving DecidableEq

/-- One attribute entry. -/
structure AttrEntry where
  dataType : Int
  numElems : Int
  value : List Nat
deriving DecidableEq

/-- One attribute.  `entries` are its gEntries when the scope is global and its
zEntries when the scope is variable, keyed by entry index, each index at most once. -/
structure Attr where
  name : List Nat
  scope : Int
  entries : List (Int × AttrEntry)
deriving DecidableEq

/-- The mutating primitives of the engine that the adapters call. -/
inductive EngineCall
  | closeCDF
  | putzVarRecordData (varNum recNum : Int) (data : List Nat)
  | deletezVarRecords (varNum first last : Int)
  | createAttr (name : List Nat) (scope : Int)
  | deleteAttr (attrNum : Int)
  | putAttrgEntry (attrNum entryNum dataType numElems : Int) (data : List Nat)
  | putAttrzEntry (attrNum entryNum dataType numElems : Int) (data : List Nat)
  | deleteAttrgEntry (attrNum entryNum : Int)
  | deleteAttrzEntry (attrNum entryNum : Int)
  | createzVar (name : List Nat) (dataType numElems numDims : Int) (dimSizes : List Int)
      (recVary : Int) (dimVarys : List Int)
  | deletezVar (varNum : Int)
  | renamezVar (varNum : Int) (name : List Nat)
  | setzVarAllocRecords (varNum numRecs : Int)
  | setzVarPadValue (varNum : Int) (data : List Nat)
deriving DecidableEq

/-- The state of one open container.  `closeStatus` is the status the engine will
return from its close primitive; `log` lists the mutating calls made so far. -/
structure Engine where
  zvars : List ZVar
  attrs : List Attr
  closeStatus : Int
  log : List EngineCall
deriving DecidableEq

/-- Records a call in the log. -/
def Engine.logCall (st : Engine) (c : EngineCall) : Engine := { st with log := st.log ++ [c] }

/-- Engine primitive `CDFcloseCDF`. -/
def CDFcloseCDF (st : Engine) : Int × Engine := (st.closeStatus, st.logCall .closeCDF)

/-- Engine primitive `CDFgetNumzVars`. -/
def CDFgetNumzVars (st : Engine) : Int := (st.zvars.length : Int)

/-- Largest written record index of one variable, -1 when nothing was written. -/
def ZVar.maxWritten (v : ZVar) : Int := v.recs.foldl (fun m r => max m r.1) (-1)

/-- Engine primitive `CDFgetzVarsMaxWrittenRecNum`: the largest written record index
over all zVariables, -1 when nothing was written. -/
def CDFgetzVarsMaxWrittenRecNum (st : Engine) : Int :=
  st.zvars.foldl (fun m v => max m v.maxWritten) (-1)

/-! ## Container handle adapter -/

/-- The table object `CdfVTab`: the access mode (the handle is the engine state). -/
structure CdfVTab where
  mode : Char
deriving DecidableEq

/-- Source: `cdf_close`.  Returns the result code and the engine afterwards. -/
def cdf_close (pv : CdfVTab) (st : Engine) : Int × Engine :=
  if strchr [ 's', 't' ] pv.mode = false then
    let r := CDFcloseCDF st
    if r.1 ≠ CDF_OK then (SQLITE_ERROR, r.2) else (SQLITE_OK, r.2)
  else (SQLITE_OK, st)

/-- Source: `cdfVTabDisconnect`. -/
def cdfVTabDisconnect (pv : CdfVTab) (st : Engine) : Int × Engine := cdf_close pv st

/-- Source: the copying loop of `cdf_dequote`, on the characters after the opening quote
(the last one is the closing quote, which the loop does not visit unless it is skipped to
as the second of a doubled quote). -/
def dequoteLoop (q : Char) : List Char → List Char
  | [] => []
  | [_] => []
  | a :: b :: rest =>
    if a = q ∧ b = q then b :: dequoteLoop q rest else a :: dequoteLoop q (b :: rest)

/-- Source: `cdf_dequote`, on a C string given by its characters. -/
def cdf_dequote (z : List Char) : List Char :=
  match z with
  | [] => z
  | c :: rest =>
    if c ≠ Char.ofNat 39 ∧ c ≠ Char.ofNat 34 then z
    else if z.length < 2 ∨ z.getLast? ≠ some c then z
    else dequoteLoop c rest

/-- Source: the mode argument handling of `cdfFileConnect` when a fifth argument is given:
`none` is one of the two error returns, `some mode` the accepted mode character
(`mstr[0]`, the NUL terminator when the dequoted string is empty). -/
def cdfFileMode (argv4 : List Char) : Option Char :=
  if argv4.length > 3 then none
  else
    let mode := (cdf_dequote argv4).headD (Char.ofNat 0)
    if strchr [ 'c', 'd', 'r', 'w' ] mode = false then none else some mode

/-! ## Record adapter: cursor -/

/-- The cursor `CdfzVarsRecCursor`.  `cdfVTabNext` reaches `recid` through a cast to
`CdfVTabCursor`, whose `rowid` field is at the same place. -/
structure CdfzVarsRecCursor where
  recid : Int
deriving DecidableEq

/-- Source: `cdfzRecsOpen`. -/
def cdfzRecsOpen : CdfzVarsRecCursor := ⟨1⟩

/-- Source: `cdfzRecsFilter`. -/
def cdfzRecsFilter (_cp : CdfzVarsRecCursor) : CdfzVarsRecCursor := ⟨1⟩

/-- Source: `cdfVTabNext` applied to a record cursor. -/
def cdfVTabNext (cp : CdfzVarsRecCursor) : CdfzVarsRecCursor := ⟨cp.recid + 1⟩

/-- Source: `cdfzRecsEof`. -/
def cdfzRecsEof (st : Engine) (cp : CdfzVarsRecCursor) : Bool :=
  decide (cp.recid > CDFgetzVarsMaxWrittenRecNum st + 1)

/-- Source: `cdfVTabRowid` applied to a record cursor. -/
def cdfVTabRowid (cp : CdfzVarsRecCursor) : Int := cp.recid

/-- The front-end loop: test `xEof`, visit the row, call `xNext`.  `fuel` bounds the number
of `xEof` tests; `none` means the scan had not ended when the fuel ran out. -/
def zRecsScanFrom (st : Engine) : Nat → CdfzVarsRecCursor → Option (List Int)
  | 0, _ => none
  | fuel + 1, cp =>
    if cdfzRecsEof st cp then some []
    else (zRecsScanFrom st fuel (cdfVTabNext cp)).map (fun l => cp.recid :: l)

/-- A full scan of the record adapter: `xFilter`, then the front-end loop. -/
def zRecsScan (st : Engine) (fuel : Nat) : Option (List Int) :=
  zRecsScanFrom st fuel (cdfzRecsFilter cdfzRecsOpen)

/-! ## Engine primitives on zVariables -/

/-- Engine primitive `CDFgetzVarDataType`. -/
def CDFgetzVarDataType (st : Engine) (k : Int) : Option Int :=
  (getAt st.zvars k).map (fun v => v.dataType)

/-- Engine primitive `CDFgetzVarNumDims`. -/
def CDFgetzVarNumDims (st : Engine) (k : Int) : Option Int :=
  (getAt st.zvars k).map (fun v => (v.dimSizes.length : Int))

/-- Engine primitive `CDFgetzVarDimSizes`. -/
def CDFgetzVarDimSizes (st : Engine) (k : Int) : Option (List Int) :=
  (getAt st.zvars k).map (fun v => v.dimSizes)

/-- Engine primitive `CDFgetzVarNumElements`. -/
def CDFgetzVarNumElements (st : Engine) (k : Int) : Option Int :=
  (getAt st.zvars k).map (fun v => v.numElems)

/-- Number of bytes of one record of a variable, as the engine copies them. -/
def ZVar.recordBytes (v : ZVar) : Int :=
  cdf_elsize v.dataType * v.numElems * v.dimSizes.foldl (fun a b => a * b) 1

/-- The first `n` bytes of a caller buffer; `none` when the buffer is shorter, that is
when the engine would read past its end. -/
def takeBytes (n : Int) (buf : List Nat) : Option (List Nat) :=
  if n ≤ (buf.length : Int) then some (buf.take n.toNat) else none

/-- The written record `recNum` of a variable, if any (the latest write wins). -/
def ZVar.written (v : ZVar) (recNum : Int) : Option (List Nat) :=
  (v.recs.find? (fun r => decide (r.1 = recNum))).map (fun r => r.2)

/-- Engine primitive `CDFgetzVarRecordData`: the bytes copied into the caller's buffer,
the pad value for a record that was never written; `none` when the call fails
(no such variable, negative record index) and the buffer is left untouched. -/
def CDFgetzVarRecordData (st : Engine) (k recNum : Int) : Option (List Nat) :=
  match getAt st.zvars k with
  | none => none
  | some v => if recNum < 0 then none else some ((v.written recNum).getD v.padValue)

/-- Engine primitive `CDFputzVarRecordData`: status and engine afterwards; `none` when
the caller's buffer is shorter than one record. -/
def CDFputzVarRecordData (st : Engine) (k recNum : Int) (buf : List Nat) :
    Option (Int × Engine) :=
  match getAt st.zvars k with
  | none => some (CDF_ERR, st.logCall (.putzVarRecordData k recNum []))
  | some v =>
    if recNum < 0 then some (CDF_ERR, st.logCall (.putzVarRecordData k recNum []))
    else
      match takeBytes v.recordBytes buf with
      | none => none
      | some data =>
        some (CDF_OK,
          { st with
            zvars := st.zvars.set k.toNat { v with recs := (recNum, data) :: v.recs },
            log := st.log ++ [.putzVarRecordData k recNum data] })

/-- Engine primitive `CDFdeletezVarRecords` (records of the range are removed, the
others keep their numbers). -/
def CDFdeletezVarRecords (st : Engine) (k first last : Int) : Int × Engine :=
  match getAt st.zvars k with
  | none => (CDF_ERR, st.logCall (.deletezVarRecords k first last))
  | some v =>
    if first < 0 ∨ last < first then (CDF_ERR, st.logCall (.deletezVarRecords k first last))
    else
      (CDF_OK,
        { st with
          zvars := st.zvars.set k.toNat
            { v with recs := v.recs.filter (fun r => decide (r.1 < first ∨ last < r.1)) },
          log := st.log ++ [.deletezVarRecords k first last] })

/-! ## Record adapter: table, column reads, mutation -/

/-- The table object `CdfzVarsRecords`. -/
structure CdfzVarsRecords where
  mode : Char
  nzvars : Int
  nbytes : List Int
  sqltypes : List Int
  valtypes : List Int
deriving DecidableEq

/-- The value that a 64-bit two's-complement `long` holds after an arithmetic result `x`. -/
def wrapLong (x : Int) : Int :=
  if x % 18446744073709551616 < 9223372036854775808 then x % 18446744073709551616
  else x % 18446744073709551616 - 18446744073709551616

/-- The product of two `long` values as the machine computes it: modulo 2^64. -/
def mulLong (a b : Int) : Int := wrapLong (a * b)

/-- Source: the loop `nelem = 1; for( kdim=0; kdim<numdims; kdim++ ) nelem *= dimsizes[kdim];`
of `cdfzRecsConnect` and `cdfzRecsUpdate`, in `long` arithmetic. -/
def nelemLong (dimsizes : List Int) : Int := dimsizes.foldl mulLong 1

/-- Source: the per-variable part of `cdfzRecsConnect`: (nbytes, sqltype, valtype). -/
def zRecsColumnInfo (v : ZVar) : Int × Int × Int :=
  if v.dimSizes.length = 0 then
    (cdf_elsize v.dataType, cdf_sqlitetype v.dataType, cdf_valfuncid v.dataType)
  else
    (mulLong (cdf_elsize v.dataType) (nelemLong v.dimSizes), SQLITE_BLOB,
      cdf_valfuncid v.dataType)

/-- Source: `cdfzRecsConnect` (the schema text is not modelled). -/
def cdfzRecsConnect (st : Engine) (mode : Char) : CdfzVarsRecords :=
  { mode := mode,
    nzvars := CDFgetNumzVars st,
    nbytes := st.zvars.map (fun v => (zRecsColumnInfo v).1),
    sqltypes := st.zvars.map (fun v => (zRecsColumnInfo v).2.1),
    valtypes := st.zvars.map (fun v => (zRecsColumnInfo v).2.2) }

/-- What a column callback hands back; `indeterminate` is a result computed from
memory that was never initialised. -/
inductive ColValue
  | val (r : SqlResult)
  | indeterminate
deriving DecidableEq

/-- An 8-byte uninitialised local after the engine copied `data` into it, read as a number. -/
def read8 (data : Option (List Nat)) (mk : Nat → SqlResult) : Option ColValue :=
  match data with
  | none => some .indeterminate
  | some d =>
    if d.length = 8 then some (.val (mk (ofLeBytes d)))
    else if d.length < 8 then some .indeterminate
    else none

/-- Status of a getter whose data is `data`. -/
def statusOf {α : Type} (data : Option α) : Int := if data.isSome then CDF_OK else CDF_ERR

/-- The signed value of a 64-bit pattern. -/
def toInt64 (n : Nat) : Int :=
  if n < 9223372036854775808 then (n : Int) else (n : Int) - 18446744073709551616

/-- Source: `result_cdfint`. -/
def result_cdfint (st : Engine) (lCol recid : Int) : Option (Int × ColValue) :=
  let data := CDFgetzVarRecordData st (lCol - 1) (recid - 1)
  (read8 data (fun n => .int64 (toInt64 n))).map (fun r => (statusOf data, r))

/-- Source: `result_cdfdouble`. -/
def result_cdfdouble (st : Engine) (lCol recid : Int) : Option (Int × ColValue) :=
  let data := CDFgetzVarRecordData st (lCol - 1) (recid - 1)
  (read8 data (fun n => .double n)).map (fun r => (statusOf data, r))

/-- Source: `result_cdftext`: a zero-filled buffer of `n+1` bytes, filled by the engine and
read as a C string (`none` when the engine writes past the buffer or leaves no NUL in it). -/
def result_cdftext (st : Engine) (lCol recid : Int) : Option (Int × ColValue) :=
  let n := (CDFgetzVarNumElements st (lCol - 1)).getD 0
  let data := CDFgetzVarRecordData st (lCol - 1) (recid - 1)
  match data with
  | none => some (CDF_ERR, .val (.text []))
  | some d =>
    if (d.length : Int) ≤ n + 1 then
      let buf := d ++ List.replicate ((n + 1).toNat - d.length) 0
      if buf.contains 0 then some (CDF_OK, .val (.text (cstr buf))) else none
    else none

/-- Source: `result_cdfblob`. -/
def result_cdfblob (st : Engine) (lCol recid nbytes : Int) : Option (Int × ColValue) :=
  let data := CDFgetzVarRecordData st (lCol - 1) (recid - 1)
  if nbytes ≤ 8 then
    match data with
    | none => some (CDF_ERR, .val (.blob ((List.replicate 8 0).take nbytes.toNat)))
    | some d =>
      if d.length ≤ 8 then
        some (CDF_OK, .val (.blob ((d ++ List.replicate (8 - d.length) 0).take nbytes.toNat)))
      else none
  else
    match data with
    | none => some (CDF_ERR, .indeterminate)
    | some d =>
      if (d.length : Int) = nbytes then some (CDF_OK, .val (.blob d))
      else if (d.length : Int) < nbytes then some (CDF_OK, .indeterminate)
      else none

/-- Source: `cdfzRecsColumn`; `nochange` is `sqlite3_vtab_nochange(ctx)`.  Without a
result the column is SQL NULL. -/
def cdfzRecsColumn (vp : CdfzVarsRecords) (st : Engine) (cp : CdfzVarsRecCursor)
    (nochange : Bool) (iCol : Int) : Option (Int × ColValue) :=
  if nochange then some (SQLITE_OK, .val .null)
  else if iCol = 0 then some (SQLITE_OK, .val (.int64 cp.recid))
  else if iCol > 0 ∧ iCol ≤ vp.nzvars then
    match getAt vp.sqltypes (iCol - 1), getAt vp.nbytes (iCol - 1) with
    | some sqltype, some nb =>
      let r :=
        if sqltype = 1 then result_cdfint st iCol cp.recid
        else if sqltype = 2 then result_cdfdouble st iCol cp.recid
        else if sqltype = 3 then result_cdftext st iCol cp.recid
        else if sqltype = 4 then result_cdfblob st iCol cp.recid nb
        else none
      r.map (fun x => if x.1 < CDF_OK then (SQLITE_ERROR, x.2) else (SQLITE_OK, x.2))
    | _, _ => none
  else some (SQLITE_ERROR, .val .null)

/-- Source: `value_int64_2cdf`. -/
def value_int64_2cdf (val : SqlValue) (st : Engine) (kz kr : Int) : Option (Int × Engine) :=
  CDFputzVarRecordData st kz kr (longBytes val.int64)

/-- Source: `value_double_2cdf`. -/
def value_double_2cdf (val : SqlValue) (st : Engine) (kz kr : Int) : Option (Int × Engine) :=
  CDFputzVarRecordData st kz kr (leBytes 8 val.double)

/-- Source: `value_text_2cdf`. -/
def value_text_2cdf (val : SqlValue) (st : Engine) (kz kr : Int) : Option (Int × Engine) :=
  CDFputzVarRecordData st kz kr (val.bytes ++ [0])

/-- Source: `value_float_2cdf`. -/
def value_float_2cdf (val : SqlValue) (st : Engine) (kz kr : Int) : Option (Int × Engine) :=
  if val.vtype = SQLITE_BLOB then
    if val.bytes.length ≠ 4 then some (SQLITE_ERROR, st)
    else CDFputzVarRecordData st kz kr val.bytes
  else CDFputzVarRecordData st kz kr (leBytes 4 val.float32)

/-- Source: `value_epoch_2cdf`. -/
def value_epoch_2cdf (val : SqlValue) (st : Engine) (kz kr : Int) : Option (Int × Engine) :=
  if val.vtype ≠ SQLITE_BLOB ∨ val.bytes.length ≠ 16 then some (SQLITE_ERROR, st)
  else CDFputzVarRecordData st kz kr val.bytes

/-- Source: the table `valfunc`, applied at index `valtype`. -/
def valfunc (valtype : Int) (val : SqlValue) (st : Engine) (kz kr : Int) :
    Option (Int × Engine) :=
  if valtype = 0 then value_int64_2cdf val st kz kr
  else if valtype = 1 then value_double_2cdf val st kz kr
  else if valtype = 2 then value_text_2cdf val st kz kr
  else if valtype = 3 then value_float_2cdf val st kz kr
  else if valtype = 4 then value_epoch_2cdf val st kz kr
  else none

/-- The result of an `xUpdate` call: the returned code (`none` when control reaches the
end of the function without a `return`), the engine afterwards, and the value stored
through the row-id pointer, if any. -/
structure Outcome where
  rc : Option Int
  eng : Engine
  rowid : Option Int
deriving DecidableEq

/-- Source: the test `if( status!=CDF_OK ) return SQLITE_ERROR;` after an engine call;
`none` stays undefined behaviour. -/
def rcOfStatus (r : Option (Int × Engine)) : Option (Int × Engine) :=
  r.map (fun x => if x.1 ≠ CDF_OK then (SQLITE_ERROR, x.2) else (SQLITE_OK, x.2))

/-- Source: the body of the loop over the variables in `cdfzRecsUpdate`, for the variable
`kzvar`: `none` is undefined behaviour, `some (rc, st)` with `rc` different from
`SQLITE_OK` is a `return rc`. -/
def zRecsPutOne (vp : CdfzVarsRecords) (argv : List SqlValue) (kcdfrec kzvar : Int)
    (st : Engine) : Option (Int × Engine) :=
  let a := arg argv (kzvar + 3)
  if a.nochange = true ∨ a.vtype = SQLITE_NULL then some (SQLITE_OK, st)
  else
    match CDFgetzVarDataType st kzvar, CDFgetzVarNumDims st kzvar with
    | some cdftype, some numdims =>
      if numdims = 0 then
        match getAt vp.valtypes kzvar with
        | none => none
        | some valtype =>
          if valtype < 0 then some (SQLITE_ERROR, st)
          else rcOfStatus (valfunc valtype a st kzvar kcdfrec)
      else
        match CDFgetzVarDimSizes st kzvar with
        | none => none
        | some dimsizes =>
          let nelem := nelemLong dimsizes
          if a.vtype = SQLITE_NULL then
            rcOfStatus (CDFputzVarRecordData st kzvar kcdfrec (List.replicate nelem.toNat 0))
          else if mulLong (cdf_elsize cdftype) nelem ≠ (a.bytes.length : Int) then
            some (SQLITE_ERROR, st)
          else rcOfStatus (CDFputzVarRecordData st kzvar kcdfrec a.bytes)
    | _, _ => none

/-- Source: the loop `for( kzvar=0; kzvar<nzvars; kzvar++ )` of the insert/update branch
of `cdfzRecsUpdate`, started at `kzvar` with `n = nzvars - kzvar` iterations left. -/
def zRecsPutLoop (vp : CdfzVarsRecords) (argv : List SqlValue) (kcdfrec : Int) :
    Nat → Int → Engine → Option (Int × Engine)
  | 0, _, st => some (SQLITE_OK, st)
  | n + 1, kzvar, st =>
    match zRecsPutOne vp argv kcdfrec kzvar st with
    | none => none
    | some (rc, st1) =>
      if rc ≠ SQLITE_OK then some (rc, st1) else zRecsPutLoop vp argv kcdfrec n (kzvar + 1) st1

/-- Source: the loop of the delete branch of `cdfzRecsUpdate`. -/
def zRecsDeleteLoop (kcdfrec : Int) : Nat → Int → Engine → Int × Engine
  | 0, _, st => (SQLITE_OK, st)
  | n + 1, kzvar, st =>
    let r := CDFdeletezVarRecords st kzvar kcdfrec kcdfrec
    if r.1 ≠ CDF_OK then (SQLITE_ERROR, r.2) else zRecsDeleteLoop kcdfrec n (kzvar + 1) r.2

/-- Source: `cdfzRecsUpdate`. -/
def cdfzRecsUpdate (vp : CdfzVarsRecords) (st : Engine) (argv : List SqlValue) :
    Option Outcome :=
  if strchr [ 'r', 's' ] vp.mode then some ⟨some SQLITE_READONLY, st, none⟩
  else
    let nzvars := CDFgetNumzVars st
    let argc : Int := argv.length
    if argc = 1 then
      let r := zRecsDeleteLoop ((arg argv 0).int64 - 1) nzvars.toNat 0 st
      some ⟨some r.1, r.2, none⟩
    else if argc - 2 ≠ nzvars + 1 then some ⟨some SQLITE_ERROR, st, none⟩
    else if (arg argv 0).vtype ≠ SQLITE_NULL then
      (zRecsPutLoop vp argv ((arg argv 0).int64 - 1) nzvars.toNat 0 st).map
        (fun r => ⟨some r.1, r.2, none⟩)
    else
      let maxcdfrec := CDFgetzVarsMaxWrittenRecNum st
      let kcdfrec := if (arg argv 2).vtype ≠ SQLITE_NULL then (arg argv 2).int64 else maxcdfrec + 1
      (zRecsPutLoop vp argv kcdfrec nzvars.toNat 0 st).map
        (fun r => ⟨some r.1, r.2, some kcdfrec⟩)

/-- The columns 0..nzvars of the row under the cursor, as the front-end reads them. -/
def zRecsRow (vp : CdfzVarsRecords) (st : Engine) (cp : CdfzVarsRecCursor) :
    List (Option (Int × ColValue)) :=
  (List.range (vp.nzvars.toNat + 1)).map (fun i => cdfzRecsColumn vp st cp false (i : Int))

/-- A full scan of the record adapter with the columns of every row. -/
def zRecsScanRows (vp : CdfzVarsRecords) (st : Engine) (fuel : Nat) :
    Option (List (List (Option (Int × ColValue)))) :=
  (zRecsScan st fuel).map (fun l => l.map (fun r => zRecsRow vp st ⟨r⟩))


/-! ## Engine primitives on attributes and their entries

The primitives for gEntries and for zEntries differ only in the scope they require
of the attribute; `sc` is that scope. -/

/-- Engine primitive `CDFgetNumAttributes`. -/
def CDFgetNumAttributes (st : Engine) : Int := (st.attrs.length : Int)

/-- Engine primitive `CDFgetAttrScope`. -/
def CDFgetAttrScope (st : Engine) (a : Int) : Option Int :=
  (getAt st.attrs a).map (fun x => x.scope)

/-- Engine primitive `CDFgetAttrName`. -/
def CDFgetAttrName (st : Engine) (a : Int) : Option (List Nat) :=
  (getAt st.attrs a).map (fun x => x.name)

/-- Engine primitive `CDFgetAttrNum`: the attribute number, or a negative status. -/
def CDFgetAttrNum (st : Engine) (name : List Nat) : Int :=
  match st.attrs.findIdx? (fun x => decide (x.name = cstr name)) with
  | some i => (i : Int)
  | none => CDF_ERR

/-- The entries of attribute `a` when it exists and has scope `sc`. -/
def attrEntries (sc : Int) (st : Engine) (a : Int) : Option (List (Int × AttrEntry)) :=
  match getAt st.attrs a with
  | none => none
  | some x => if x.scope = sc then some x.entries else none

/-- The entry `e` of attribute `a`, when the attribute has scope `sc` and the entry exists. -/
def attrEntry (sc : Int) (st : Engine) (a e : Int) : Option AttrEntry :=
  match attrEntries sc st a with
  | none => none
  | some es => (es.find? (fun p => decide (p.1 = e))).map (fun p => p.2)

/-- Engine primitives `CDFgetNumAttrgEntries` / `CDFgetNumAttrzEntries`. -/
def getNumAttrEntries (sc : Int) (st : Engine) (a : Int) : Option Int :=
  (attrEntries sc st a).map (fun es => (es.length : Int))

/-- Engine primitives `CDFgetAttrMaxgEntry` / `CDFgetAttrMaxzEntry`: the largest entry
index, -1 without entries. -/
def getAttrMaxEntry (sc : Int) (st : Engine) (a : Int) : Option Int :=
  (attrEntries sc st a).map (fun es => es.foldl (fun m p => max m p.1) (-1))

/-- Engine primitives `CDFgetAttrgEntryNumElements` / `CDFgetAttrzEntryNumElements`. -/
def getAttrEntryNumElements (sc : Int) (st : Engine) (a e : Int) : Option Int :=
  (attrEntry sc st a e).map (fun x => x.numElems)

/-- Engine primitives `CDFgetAttrgEntryDataType` / `CDFgetAttrzEntryDataType`. -/
def getAttrEntryDataType (sc : Int) (st : Engine) (a e : Int) : Option Int :=
  (attrEntry sc st a e).map (fun x => x.dataType)

/-- Engine primitives `CDFgetAttrgEntry` / `CDFgetAttrzEntry`: the bytes copied into the
caller's buffer. -/
def getAttrEntryValue (sc : Int) (st : Engine) (a e : Int) : Option (List Nat) :=
  (attrEntry sc st a e).map (fun x => x.value)

/-- The log item of a put-entry call for scope `sc`. -/
def putEntryCall (sc : Int) (a e t n : Int) (data : List Nat) : EngineCall :=
  if sc = GLOBAL_SCOPE then .putAttrgEntry a e t n data else .putAttrzEntry a e t n data

/-- The log item of a delete-entry call for scope `sc`. -/
def deleteEntryCall (sc : Int) (a e : Int) : EngineCall :=
  if sc = GLOBAL_SCOPE then .deleteAttrgEntry a e else .deleteAttrzEntry a e

/-- Engine primitives `CDFputAttrgEntry` / `CDFputAttrzEntry`: creates or replaces the
entry.  Fails on a missing attribute, a wrong scope, a negative entry index, an undefined
data type or a non-positive element count; `none` when the caller's buffer is shorter
than the entry. -/
def putAttrEntry (sc : Int) (st : Engine) (a e t n : Int) (buf : List Nat) :
    Option (Int × Engine) :=
  match getAt st.attrs a with
  | none => some (CDF_ERR, st.logCall (putEntryCall sc a e t n []))
  | some x =>
    if x.scope ≠ sc ∨ e < 0 ∨ cdf_elsize t = 0 ∨ n ≤ 0 then
      some (CDF_ERR, st.logCall (putEntryCall sc a e t n []))
    else
      match takeBytes (cdf_elsize t * n) buf with
      | none => none
      | some data =>
        some (CDF_OK,
          { st with
            attrs := st.attrs.set a.toNat
              { x with entries :=
                  (e, ⟨t, n, data⟩) :: x.entries.filter (fun p => decide (p.1 ≠ e)) },
            log := st.log ++ [putEntryCall sc a e t n data] })

/-- Engine primitives `CDFdeleteAttrgEntry` / `CDFdeleteAttrzEntry`. -/
def deleteAttrEntry (sc : Int) (st : Engine) (a e : Int) : Int × Engine :=
  match getAt st.attrs a with
  | none => (CDF_ERR, st.logCall (deleteEntryCall sc a e))
  | some x =>
    if x.scope ≠ sc ∨ (x.entries.find? (fun p => decide (p.1 = e))).isNone then
      (CDF_ERR, st.logCall (deleteEntryCall sc a e))
    else
      (CDF_OK,
        { st with
          attrs := st.attrs.set a.toNat
            { x with entries := x.entries.filter (fun p => decide (p.1 ≠ e)) },
          log := st.log ++ [deleteEntryCall sc a e] })

/-- Engine primitive `CDFcreateAttr`: fails when the name is taken or the scope is
neither global nor variable. -/
def CDFcreateAttr (st : Engine) (name : List Nat) (scope : Int) : Int × Engine :=
  if st.attrs.any (fun x => decide (x.name = cstr name)) = true
      ∨ (scope ≠ GLOBAL_SCOPE ∧ scope ≠ VARIABLE_SCOPE) then
    (CDF_ERR, st.logCall (.createAttr name scope))
  else
    (CDF_OK,
      { st with attrs := st.attrs ++ [⟨cstr name, scope, []⟩],
                log := st.log ++ [.createAttr name scope] })

/-- Engine primitive `CDFdeleteAttr`: the attributes after the deleted one move down. -/
def CDFdeleteAttr (st : Engine) (a : Int) : Int × Engine :=
  match getAt st.attrs a with
  | none => (CDF_ERR, st.logCall (.deleteAttr a))
  | some _ =>
    (CDF_OK, { st with attrs := st.attrs.eraseIdx a.toNat, log := st.log ++ [.deleteAttr a] })

/-! ## Attribute catalog adapter: mutation -/

/-- Source: `cdfAttrsUpdate`.  The function has no `return` on its successful paths. -/
def cdfAttrsUpdate (vp : CdfVTab) (st : Engine) (argv : List SqlValue) : Option Outcome :=
  if vp.mode = 'r' then some ⟨some SQLITE_ERROR, st, none⟩
  else if argv.length = 1 then
    if (arg argv 0).vtype ≠ SQLITE_NULL then
      let r := CDFdeleteAttr st ((arg argv 0).int64 - 1)
      if r.1 ≠ CDF_OK then some ⟨some SQLITE_ERROR, r.2, none⟩ else some ⟨none, r.2, none⟩
    else some ⟨none, st, none⟩
  else if (arg argv 0).vtype = SQLITE_NULL then
    if (arg argv 1).vtype ≠ SQLITE_NULL then some ⟨some SQLITE_ERROR, st, none⟩
    else
      let cscope : Nat :=
        if (arg argv 4).vtype = SQLITE_INTEGER then
          (if (arg argv 4).int64 ≠ 0 then 118 else 103)
        else if (arg argv 4).vtype = SQLITE_TEXT then ((arg argv 4).bytes ++ [0]).headD 0
        else 120
      let r := CDFcreateAttr st (arg argv 3).bytes ((if cscope = 118 then 1 else 0) + 1)
      if r.1 ≠ CDF_OK then some ⟨some SQLITE_ERROR, r.2, none⟩ else some ⟨none, r.2, none⟩
  else some ⟨some SQLITE_ERROR, st, none⟩

/-! ## Attribute entry adapters: the two-level walk -/

/-- The cursor `CdfAttrEntriesCursor` (ids are 1-based). -/
structure CdfAttrEntriesCursor where
  rowid : Int
  attrid : Int
  entryid : Int
deriving DecidableEq

/-- Source: `cdfAttrEntriesOpen`. -/
def cdfAttrEntriesOpen : CdfAttrEntriesCursor := ⟨1, 1, 1⟩

/-- The loop `while( cond entryid ) { get nelems of entry entryid-1; if( nelems>0 ) break;
entryid++; }` with `fuel` iterations at most; returns `(entryid, nelems)`. -/
def skipEmpty (numElems : Int → Option Int) (cond : Int → Bool) :
    Nat → Int → Int → Int × Int
  | 0, entryid, nelems => (entryid, nelems)
  | n + 1, entryid, nelems =>
    if cond entryid then
      let nelems1 := (numElems (entryid - 1)).getD nelems
      if nelems1 > 0 then (entryid, nelems1)
      else skipEmpty numElems cond n (entryid + 1) nelems1
    else (entryid, nelems)

/-- The locals `scope`, `nentries`, `maxentry`, `nelems` of the filter functions. -/
structure WalkLocals where
  scope : Int
  nentries : Int
  maxentry : Int
  nelems : Int

/-- Source: the loop `while( cp->attrid<=nattrs )` of `cdfAttrgEntriesFilter` and
`cdfAttrzEntriesFilter`, with `n` iterations at most; returns the result code and the
cursor's `(attrid, entryid)`. -/
def attrFilterLoop (sc : Int) (st : Engine) (nattrs : Int) :
    Nat → Int → Int → WalkLocals → Int × Int × Int
  | 0, attrid, entryid, _ => (SQLITE_OK, attrid, entryid)
  | n + 1, attrid, entryid, l =>
    if attrid ≤ nattrs then
      let scope := (CDFgetAttrScope st (attrid - 1)).getD l.scope
      let nentries := (getNumAttrEntries sc st (attrid - 1)).getD l.nentries
      let maxentry := (getAttrMaxEntry sc st (attrid - 1)).getD l.maxentry
      if scope = sc ∧ nentries > 0 then
        let r := skipEmpty (fun i => getAttrEntryNumElements sc st (attrid - 1) i)
          (fun e => decide (e - 1 ≤ maxentry)) (maxentry + 2 - entryid).toNat entryid l.nelems
        if r.1 - 1 > maxentry then (SQLITE_ERROR, attrid, r.1) else (SQLITE_OK, attrid, r.1)
      else attrFilterLoop sc st nattrs n (attrid + 1) 1 ⟨scope, nentries, maxentry, l.nelems⟩
    else (SQLITE_OK, attrid, entryid)

/-- Source: `cdfAttrgEntriesFilter` (`sc = GLOBAL_SCOPE`) and `cdfAttrzEntriesFilter`
(`sc = VARIABLE_SCOPE`). -/
def attrEntriesFilter (sc : Int) (st : Engine) : Int × CdfAttrEntriesCursor :=
  let nattrs := CDFgetNumAttributes st
  let r := attrFilterLoop sc st nattrs nattrs.toNat 1 1 ⟨0, 0, -1, 0⟩
  (r.1, ⟨1, r.2.1, r.2.2⟩)

/-- Source: the loop `while( cp->attrid<=nattrs )` of the two next functions, which looks
for the next attribute of the scope with a positive number of entries. -/
def nextAttrLoop (sc : Int) (st : Engine) (nattrs : Int) : Nat → Int → Int → Int → Int
  | 0, attrid, _, _ => attrid
  | n + 1, attrid, scope, nentries =>
    if attrid ≤ nattrs then
      let scope1 := (CDFgetAttrScope st (attrid - 1)).getD scope
      if scope1 = sc then
        let nentries1 := (getNumAttrEntries sc st (attrid - 1)).getD nentries
        if nentries1 > 0 then attrid
        else nextAttrLoop sc st nattrs n (attrid + 1) scope1 nentries1
      else nextAttrLoop sc st nattrs n (attrid + 1) scope1 nentries
    else attrid

/-- Source: `cdfAttrgEntriesNext` (`sc = GLOBAL_SCOPE`) and `cdfAttrzEntriesNext`
(`sc = VARIABLE_SCOPE`). -/
def attrEntriesNext (sc : Int) (st : Engine) (cp : CdfAttrEntriesCursor) :
    Int × CdfAttrEntriesCursor :=
  let rowid := cp.rowid + 1
  let entryid := cp.entryid + 1
  let nentries := (getNumAttrEntries sc st (cp.attrid - 1)).getD 0
  let maxentry := (getAttrMaxEntry sc st (cp.attrid - 1)).getD (-1)
  let r1 := skipEmpty (fun i => getAttrEntryNumElements sc st (cp.attrid - 1) i)
    (fun e => decide (e ≤ nentries)) (nentries + 1 - entryid).toNat entryid 0
  if r1.1 - 1 > maxentry then
    let nattrs := CDFgetNumAttributes st
    let attrid :=
      nextAttrLoop sc st nattrs (nattrs - cp.attrid).toNat (cp.attrid + 1) 0 nentries
    if attrid > nattrs then (SQLITE_OK, ⟨rowid, attrid, 1⟩)
    else
      let maxentry2 := (getAttrMaxEntry sc st (attrid - 1)).getD maxentry
      let r3 := skipEmpty (fun i => getAttrEntryNumElements sc st (attrid - 1) i)
        (fun e => decide (e - 1 ≤ maxentry2)) (maxentry2 + 1).toNat 1 r1.2
      if r3.1 - 1 > maxentry2 then (SQLITE_ERROR, ⟨rowid, attrid, r3.1⟩)
      else (SQLITE_OK, ⟨rowid, attrid, r3.1⟩)
  else (SQLITE_OK, ⟨rowid, cp.attrid, r1.1⟩)

/-- Source: `cdfAttrgEntriesFilter`. -/
def cdfAttrgEntriesFilter (st : Engine) : Int × CdfAttrEntriesCursor :=
  attrEntriesFilter GLOBAL_SCOPE st

/-- Source: `cdfAttrzEntriesFilter`. -/
def cdfAttrzEntriesFilter (st : Engine) : Int × CdfAttrEntriesCursor :=
  attrEntriesFilter VARIABLE_SCOPE st

/-- Source: `cdfAttrgEntriesNext`. -/
def cdfAttrgEntriesNext (st : Engine) (cp : CdfAttrEntriesCursor) :
    Int × CdfAttrEntriesCursor :=
  attrEntriesNext GLOBAL_SCOPE st cp

/-- Source: `cdfAttrzEntriesNext`. -/
def cdfAttrzEntriesNext (st : Engine) (cp : CdfAttrEntriesCursor) :
    Int × CdfAttrEntriesCursor :=
  attrEntriesNext VARIABLE_SCOPE st cp

/-- Source: `cdfAttrEntriesEof`. -/
def cdfAttrEntriesEof (st : Engine) (cp : CdfAttrEntriesCursor) : Bool :=
  decide (cp.attrid > CDFgetNumAttributes st)

/-- Source: `cdfAttrEntriesRowid`. -/
def cdfAttrEntriesRowid (cp : CdfAttrEntriesCursor) : Int := cp.rowid

/-- The front-end loop over an entry adapter: test `xEof`, visit the row, call `xNext`;
the scan stops with the code of a failing `xNext`.  `none`: the fuel ran out. -/
def attrScanFrom (sc : Int) (st : Engine) :
    Nat → CdfAttrEntriesCursor → Option (List CdfAttrEntriesCursor × Int)
  | 0, _ => none
  | fuel + 1, cp =>
    if cdfAttrEntriesEof st cp then some ([], SQLITE_OK)
    else
      let r := attrEntriesNext sc st cp
      if r.1 ≠ SQLITE_OK then some ([cp], r.1)
      else (attrScanFrom sc st fuel r.2).map (fun x => (cp :: x.1, x.2))

/-- A full scan of an entry adapter: the cursor positions visited (row id, attribute id,
entry id) and the final result code. -/
def attrScan (sc : Int) (st : Engine) (fuel : Nat) :
    Option (List CdfAttrEntriesCursor × Int) :=
  let f := attrEntriesFilter sc st
  if f.1 ≠ SQLITE_OK then some ([], f.1) else attrScanFrom sc st fuel f.2


/-! ## Attribute entry adapters: column reads of the global adapter -/

/-- Source: `result_gattrint`. -/
def result_gattrint (st : Engine) (attrid entryid : Int) : Option (Int × ColValue) :=
  let data := getAttrEntryValue GLOBAL_SCOPE st (attrid - 1) (entryid - 1)
  (read8 data (fun n => .int64 (toInt64 n))).map (fun r => (statusOf data, r))

/-- Source: `result_gattrdouble`. -/
def result_gattrdouble (st : Engine) (attrid entryid : Int) : Option (Int × ColValue) :=
  let data := getAttrEntryValue GLOBAL_SCOPE st (attrid - 1) (entryid - 1)
  (read8 data (fun n => .double n)).map (fun r => (statusOf data, r))

/-- Source: `result_gattrtext`: a buffer of `n+1` bytes whose last byte is set to NUL,
filled by the engine, handed to `sqlite3_result_text64` with length `n+1`. -/
def result_gattrtext (st : Engine) (attrid entryid : Int) : Option (Int × ColValue) :=
  let n := (getAttrEntryNumElements GLOBAL_SCOPE st (attrid - 1) (entryid - 1)).getD 0
  match getAttrEntryValue GLOBAL_SCOPE st (attrid - 1) (entryid - 1) with
  | none => some (CDF_ERR, .indeterminate)
  | some d =>
    if (d.length : Int) = n then some (CDF_OK, .val (.text (d ++ [0])))
    else if (d.length : Int) < n then some (CDF_OK, .indeterminate)
    else none

/-- Source: `result_gattrblob`. -/
def result_gattrblob (st : Engine) (attrid entryid nbytes : Int) : Option (Int × ColValue) :=
  let data := getAttrEntryValue GLOBAL_SCOPE st (attrid - 1) (entryid - 1)
  if nbytes ≤ 8 then
    match data with
    | none => some (CDF_ERR, .val (.blob ((List.replicate 8 0).take nbytes.toNat)))
    | some d =>
      if d.length ≤ 8 then
        some (CDF_OK, .val (.blob ((d ++ List.replicate (8 - d.length) 0).take nbytes.toNat)))
      else none
  else
    match data with
    | none => some (CDF_ERR, .indeterminate)
    | some d =>
      if (d.length : Int) = nbytes then some (CDF_OK, .val (.blob d))
      else if (d.length : Int) < nbytes then some (CDF_OK, .indeterminate)
      else none

/-- Source: `cdfAttrgEntriesColumn`. -/
def cdfAttrgEntriesColumn (st : Engine) (cp : CdfAttrEntriesCursor) (iCol : Int) :
    Option (Int × ColValue) :=
  if iCol = 0 then some (SQLITE_OK, .val (.int64 cp.attrid))
  else if iCol = 1 then
    some (SQLITE_OK, .val (.text (cstr ((CDFgetAttrName st (cp.attrid - 1)).getD []))))
  else if iCol = 2 then some (SQLITE_OK, .val (.int64 cp.entryid))
  else if iCol = 3 then
    let cdftype := (getAttrEntryDataType GLOBAL_SCOPE st (cp.attrid - 1) (cp.entryid - 1)).getD 0
    some (SQLITE_OK, .val (.text (cdf_typestr cdftype)))
  else if iCol = 4 then
    let numelems :=
      (getAttrEntryNumElements GLOBAL_SCOPE st (cp.attrid - 1) (cp.entryid - 1)).getD 0
    some (SQLITE_OK, .val (.int64 numelems))
  else if iCol = 5 then
    let numelems :=
      (getAttrEntryNumElements GLOBAL_SCOPE st (cp.attrid - 1) (cp.entryid - 1)).getD 0
    if numelems ≤ 0 then some (SQLITE_OK, .val .null)
    else
      match getAttrEntryDataType GLOBAL_SCOPE st (cp.attrid - 1) (cp.entryid - 1) with
      | none => some (SQLITE_ERROR, .val .null)
      | some cdftype =>
        let sqlitetype := cdf_sqlitetype cdftype
        let r :=
          if sqlitetype = SQLITE_TEXT
              ∨ ((sqlitetype = SQLITE_FLOAT ∨ sqlitetype = SQLITE_INTEGER) ∧ numelems = 1) then
            (if sqlitetype = 1 then result_gattrint st cp.attrid cp.entryid
             else if sqlitetype = 2 then result_gattrdouble st cp.attrid cp.entryid
             else result_gattrtext st cp.attrid cp.entryid)
          else
            result_gattrblob st (cp.attrid - 1) (cp.entryid - 1) (cdf_elsize cdftype * numelems)
        r.map (fun x => if x.1 < CDF_OK then (SQLITE_ERROR, x.2) else (SQLITE_OK, x.2))
  else some (SQLITE_ERROR, .val .null)

/-! ## Attribute entry adapters: mutation -/

/-- Source: `attrgentry_next` and `attrzentry_next`.  The statements `*entryid++;` and
`*attrid++;` advance the local pointers and leave the caller's two variables as they
are; the later accesses through the advanced pointers fall outside these variables.
Returns the status and the caller's `(attrid, entryid)` afterwards. -/
def attrentry_next (sc : Int) (st : Engine) (attrid entryid : Int) : Int × Int × Int :=
  (statusOf (getNumAttrEntries sc st attrid), attrid, entryid)

/-- Source: the loop `for( k=1; k<rowid; k++ ) attr?entry_next(id, &attrid, &entryid);`
of the delete branches, with `n` iterations left. -/
def deleteWalk (sc : Int) (st : Engine) : Nat → Int → Int → Int × Int
  | 0, attrid, entryid => (attrid, entryid)
  | n + 1, attrid, entryid =>
    let r := attrentry_next sc st attrid entryid
    deleteWalk sc st n r.2.1 r.2.2

/-- Source: the delete branch (`argc == 1`) of `cdfAttrgEntriesUpdate` and
`cdfAttrzEntriesUpdate`: the pair handed to the delete-entry primitive (0-based). -/
def deleteTarget (sc : Int) (st : Engine) (rowid : Int) : Int × Int :=
  let r := deleteWalk sc st (rowid - 1).toNat 1 1
  (r.1 - 1, r.2 - 1)

/-- Source: `attrent_upd_id`: result code and attribute id. -/
def attrent_upd_id (st : Engine) (argv : List SqlValue) : Int × Int :=
  let attrid := (arg argv 2).int64
  let nattrs := CDFgetNumAttributes st
  if attrid > nattrs then (SQLITE_ERROR, attrid)
  else if attrid ≤ 0 ∧ (arg argv 3).vtype = SQLITE_TEXT then
    let attrid1 := CDFgetAttrNum st (arg argv 3).bytes + 1
    if attrid1 < 1 then (SQLITE_ERROR, attrid1) else (SQLITE_OK, attrid1)
  else if (arg argv 3).vtype ≠ SQLITE_NULL then
    let attrnm := (CDFgetAttrName st (attrid - 1)).getD []
    if strcmpEq attrnm (arg argv 3).bytes = false then (SQLITE_ERROR, attrid)
    else (SQLITE_OK, attrid)
  else (SQLITE_OK, attrid)

/-- Source: the first half of `attrent_upd_pars`, which resolves the element type:
result code and element type. -/
def attrent_upd_type (argv : List SqlValue) : Int × Int :=
  if (arg argv 5).vtype = SQLITE_NULL then
    let cdftype := cdf_typesql (arg argv 7).vtype
    if cdftype = 0 then (SQLITE_ERROR, cdftype) else (SQLITE_OK, cdftype)
  else if (arg argv 5).vtype = SQLITE_TEXT then
    if strnlen (arg argv 5).bytes 12 > 11 then (SQLITE_ERROR, 0)
    else
      let cdftype := cdf_typeid (arg argv 5).bytes
      if cdftype = 0 then (SQLITE_ERROR, cdftype) else (SQLITE_OK, cdftype)
  else
    let cdftype := (arg argv 5).int64
    if cdftype ≤ 0 ∨ cdftype > CDF_UCHAR then (SQLITE_ERROR, cdftype) else (SQLITE_OK, cdftype)

/-- Source: `attrent_upd_pars`: result code, element type and element count. -/
def attrent_upd_pars (argv : List SqlValue) : Int × Int × Int :=
  let numelem := (arg argv 6).int64
  let ty := attrent_upd_type argv
  if ty.1 ≠ SQLITE_OK then (SQLITE_ERROR, ty.2, numelem)
  else if (arg argv 7).vtype = SQLITE_TEXT then
    if (arg argv 0).vtype = SQLITE_NULL ∧ numelem > 0
        ∧ numelem ≠ strnlen (arg argv 7).bytes 1025 then
      (SQLITE_ERROR, ty.2, numelem)
    else (SQLITE_OK, ty.2, strnlen (arg argv 7).bytes 1025)
  else if (arg argv 7).vtype = SQLITE_NULL then (SQLITE_ERROR, ty.2, numelem)
  else
    let numelem1 := if numelem ≤ 0 then 1 else numelem
    if numelem1 > 1024 then (SQLITE_ERROR, ty.2, numelem1) else (SQLITE_OK, ty.2, numelem1)

/-- Source: `attrent_int64_2cdf` / `attrzent_int64_2cdf`. -/
def attrent_int64_2cdf (sc : Int) (val : SqlValue) (st : Engine) (attrid entryid : Int) :
    Option (Int × Engine) :=
  putAttrEntry sc st (attrid - 1) (entryid - 1) CDF_INT8 1 (longBytes val.int64)

/-- Source: `attrent_double_2cdf` / `attrzent_double_2cdf`
(`long dcolval = sqlite3_value_double(val);`). -/
def attrent_double_2cdf (sc : Int) (val : SqlValue) (st : Engine) (attrid entryid : Int) :
    Option (Int × Engine) :=
  putAttrEntry sc st (attrid - 1) (entryid - 1) CDF_DOUBLE 1 (longBytes val.dtrunc)

/-- Source: `attrent_text_2cdf` / `attrzent_text_2cdf`. -/
def attrent_text_2cdf (sc : Int) (val : SqlValue) (st : Engine) (attrid entryid numelems : Int) :
    Option (Int × Engine) :=
  putAttrEntry sc st (attrid - 1) (entryid - 1) CDF_CHAR numelems (val.bytes ++ [0])

/-- Source: `attrent_float_2cdf` / `attrzent_float_2cdf`. -/
def attrent_float_2cdf (sc : Int) (val : SqlValue) (st : Engine) (attrid entryid : Int) :
    Option (Int × Engine) :=
  if val.vtype = SQLITE_BLOB then
    if val.bytes.length ≠ 4 then some (SQLITE_ERROR, st)
    else putAttrEntry sc st (attrid - 1) (entryid - 1) CDF_FLOAT 1 val.bytes
  else putAttrEntry sc st (attrid - 1) (entryid - 1) CDF_FLOAT 1 (leBytes 4 val.float32)

/-- Source: `attrent_epoch_2cdf` / `attrzent_epoch_2cdf`. -/
def attrent_epoch_2cdf (sc : Int) (val : SqlValue) (st : Engine) (attrid entryid : Int) :
    Option (Int × Engine) :=
  if val.vtype ≠ SQLITE_BLOB ∨ val.bytes.length ≠ 16 then some (SQLITE_ERROR, st)
  else putAttrEntry sc st (attrid - 1) (entryid - 1) CDF_EPOCH16 1 val.bytes

/-- Source: the tables `attrentfunc` / `attrzentfunc`, applied at index `f`. -/
def attrentfunc (sc : Int) (f : Int) (val : SqlValue) (st : Engine)
    (attrid entryid numelems : Int) : Option (Int × Engine) :=
  if f = 0 then attrent_int64_2cdf sc val st attrid entryid
  else if f = 1 then attrent_double_2cdf sc val st attrid entryid
  else if f = 2 then attrent_text_2cdf sc val st attrid entryid numelems
  else if f = 3 then attrent_float_2cdf sc val st attrid entryid
  else if f = 4 then attrent_epoch_2cdf sc val st attrid entryid
  else none

/-- Source: the common tail of the insert/update branches of `cdfAttrgEntriesUpdate` and
`cdfAttrzEntriesUpdate`, from the dispatch on the relational type to the final return. -/
def attrEntryWrite (sc : Int) (st : Engine) (argv : List SqlValue)
    (attrid entryid cdftype numelems : Int) : Option Outcome :=
  let sqltype := cdf_sqlitetype cdftype
  let r : Option (Int × Engine) :=
    if sqltype = SQLITE_TEXT
        ∨ ((sqltype = SQLITE_FLOAT ∨ sqltype = SQLITE_INTEGER ∨ sqltype = SQLITE_BLOB)
            ∧ numelems = 1) then
      attrentfunc sc (cdf_valfuncid cdftype) (arg argv 7) st attrid entryid numelems
    else if cdf_elsize cdftype * numelems ≠ ((arg argv 7).bytes.length : Int) then
      some (SQLITE_ERROR, st)
    else putAttrEntry sc st (attrid - 1) (entryid - 1) cdftype numelems (arg argv 7).bytes
  r.map (fun x => if x.1 ≠ CDF_OK then ⟨some SQLITE_ERROR, x.2, none⟩
                  else ⟨some SQLITE_OK, x.2, none⟩)

/-- Source: `cdfAttrgEntriesUpdate`. -/
def cdfAttrgEntriesUpdate (mode : Char) (st : Engine) (argv : List SqlValue) :
    Option Outcome :=
  if strchr [ 'r', 's' ] mode then some ⟨some SQLITE_READONLY, st, none⟩
  else if argv.length = 1 then
    let t := deleteTarget GLOBAL_SCOPE st (arg argv 0).int64
    some ⟨none, (deleteAttrEntry GLOBAL_SCOPE st t.1 t.2).2, none⟩
  else
    let ri := attrent_upd_id st argv
    if ri.1 ≠ SQLITE_OK then some ⟨some ri.1, st, none⟩
    else
      let attrid := ri.2
      match CDFgetAttrScope st (attrid - 1) with
      | none => none
      | some scope =>
        if scope ≠ GLOBAL_SCOPE then some ⟨some SQLITE_ERROR, st, none⟩
        else
          match getAttrMaxEntry GLOBAL_SCOPE st (attrid - 1) with
          | none => none
          | some maxentry =>
            let entryid0 := (arg argv 4).int64
            if ¬ (entryid0 ≤ 0) ∧ entryid0 > maxentry + 64 then
              some ⟨some SQLITE_ERROR, st, none⟩
            else
              let entryid := if entryid0 ≤ 0 then maxentry + 2 else entryid0
              let rp := attrent_upd_pars argv
              if rp.1 ≠ SQLITE_OK then some ⟨some rp.1, st, none⟩
              else attrEntryWrite GLOBAL_SCOPE st argv attrid entryid rp.2.1 rp.2.2

/-- Source: the loop over the zVariable names in `cdfAttrzEntriesUpdate`
(`for( k=0; k<nzvars; k++ ) ... strncmp(zvarName, zvarnm, CDF_VAR_NAME_LEN256)==0`). -/
def findzVarByName (st : Engine) (name : List Nat) : Int :=
  match st.zvars.findIdx? (fun v => strncmpEq name v.name 256) with
  | some k => (k : Int)
  | none => CDFgetNumzVars st

/-- Source: `cdfAttrzEntriesUpdate`. -/
def cdfAttrzEntriesUpdate (mode : Char) (st : Engine) (argv : List SqlValue) :
    Option Outcome :=
  if strchr [ 'r', 's' ] mode then some ⟨some SQLITE_READONLY, st, none⟩
  else if argv.length = 1 then
    let t := deleteTarget VARIABLE_SCOPE st (arg argv 0).int64
    some ⟨none, (deleteAttrEntry VARIABLE_SCOPE st t.1 t.2).2, none⟩
  else
    let ri := attrent_upd_id st argv
    if ri.1 ≠ SQLITE_OK then some ⟨some ri.1, st, none⟩
    else
      let attrid := ri.2
      match CDFgetAttrScope st (attrid - 1) with
      | none => none
      | some scope =>
        if scope ≠ VARIABLE_SCOPE then some ⟨some SQLITE_ERROR, st, none⟩
        else
          let nzvars := CDFgetNumzVars st
          if nzvars ≤ 0 then some ⟨some SQLITE_ERROR, st, none⟩
          else
            let a4 := arg argv 4
            let re : Option (Int × Int) :=
              if a4.vtype = SQLITE_INTEGER ∨ a4.vtype = SQLITE_FLOAT then
                if a4.int64 > nzvars then some (SQLITE_ERROR, a4.int64)
                else some (SQLITE_OK, a4.int64)
              else if a4.vtype = SQLITE_TEXT then
                let k := findzVarByName st a4.bytes
                if k ≥ nzvars then some (SQLITE_ERROR, 0) else some (SQLITE_OK, k + 1)
              else if a4.vtype = SQLITE_NULL then
                match getAttrMaxEntry VARIABLE_SCOPE st (attrid - 1) with
                | none => none
                | some maxentry =>
                  if maxentry < nzvars - 1 then some (SQLITE_OK, maxentry + 2)
                  else some (SQLITE_ERROR, 0)
              else some (SQLITE_ERROR, 0)
            match re with
            | none => none
            | some (rc, entryid) =>
              if rc ≠ SQLITE_OK then some ⟨some SQLITE_ERROR, st, none⟩
              else
                let rp := attrent_upd_pars argv
                if rp.1 ≠ SQLITE_OK then some ⟨some rp.1, st, none⟩
                else if cdf_sqlitetype rp.2.1 = 0 then some ⟨some SQLITE_ERROR, st, none⟩
                else attrEntryWrite VARIABLE_SCOPE st argv attrid entryid rp.2.1 rp.2.2


/-! ## Concrete containers and arguments used in the evaluations -/

/-- The text "temp". -/
def txtTemp : List Nat := [116, 101, 109, 112]

/-- The text "Title". -/
def txtTitle : List Nat := [84, 105, 116, 108, 101]

/-- The text "Mission X". -/
def txtMissionX : List Nat := [77, 105, 115, 115, 105, 111, 110, 32, 88]

/-- The text "Mission Y". -/
def txtMissionY : List Nat := [77, 105, 115, 115, 105, 111, 110, 32, 89]

/-- The text "char". -/
def txtChar : List Nat := [99, 104, 97, 114]

/-- A TEXT value (its numeric readings are those of a text without digits). -/
def sqlText (s : List Nat) : SqlValue := ⟨SQLITE_TEXT, 0, 0, 0, 0, s, false⟩

/-- The INTEGER value 1. -/
def sqlInt1 : SqlValue := ⟨SQLITE_INTEGER, 1, 4607182418800017408, 1065353216, 1, [49], false⟩

/-- The INTEGER value 2. -/
def sqlInt2 : SqlValue := ⟨SQLITE_INTEGER, 2, 4611686018427387904, 1073741824, 2, [50], false⟩

/-- The INTEGER value 9. -/
def sqlInt9 : SqlValue := ⟨SQLITE_INTEGER, 9, 4621256167635550208, 1091567616, 9, [57], false⟩

/-- The REAL value 21.5 (binary64 pattern 0x4035800000000000). -/
def sqlReal21_5 : SqlValue :=
  ⟨SQLITE_FLOAT, 21, 4626744929681408000, 1101791232, 21, [50, 49, 46, 53], false⟩

/-- A container with the single scalar REAL8 zVariable "temp" (pad value -1.0e30) and no
record. -/
def stTemp : Engine :=
  ⟨[⟨txtTemp, CDF_REAL8, 1, [], [234, 140, 160, 57, 89, 62, 41, 198], []⟩], [], CDF_OK, []⟩

/-- A container with the single global attribute "Title" and no entry. -/
def stTitle : Engine := ⟨[], [⟨txtTitle, GLOBAL_SCOPE, []⟩], CDF_OK, []⟩

/-- An INT8 entry holding the number `k`, at entry index `k`. -/
def entryAt (k : Int) : Int × AttrEntry := (k, ⟨CDF_INT8, 1, longBytes k⟩)

/-- A container with eight scalar INT8 zVariables and one attribute "A" of scope `sc`
whose only entries are at the indices 0, 3 and 7. -/
def stSparse (sc : Int) : Engine :=
  ⟨(List.range 8).map (fun n => ⟨[118, 48 + n], CDF_INT8, 1, [], longBytes 0, []⟩),
   [⟨[65], sc, [entryAt 0, entryAt 3, entryAt 7]⟩], CDF_OK, []⟩

/-- A container whose attribute 0 has variable scope and whose attribute 1 is global with
one entry at index 0. -/
def stTwoAttrs : Engine :=
  ⟨[], [⟨[86], VARIABLE_SCOPE, []⟩, ⟨[71], GLOBAL_SCOPE, [entryAt 0]⟩], CDF_OK, []⟩

/-- The arguments of `INSERT INTO zrecs(Id, temp) VALUES (id, temp)`. -/
def argsInsertRec (id temp : SqlValue) : List SqlValue := [sqlNull, sqlNull, id, temp]

/-- The arguments of an insert into an entry adapter: attribute by name, no entry number,
no type, no element count, the value `v`. -/
def argsInsertEntry (name : List Nat) (v : SqlValue) : List SqlValue :=
  [sqlNull, sqlNull, sqlNull, sqlText name, sqlNull, sqlNull, sqlNull, v]

/-- The arguments of an update of row 1, attribute 1 "Title", entry 1, type "char",
9 elements, to the value `v`. -/
def argsUpdateEntry (v : SqlValue) : List SqlValue :=
  [sqlInt1, sqlInt1, sqlInt1, sqlText txtTitle, sqlInt1, sqlText txtChar, sqlInt9, v]

/-- The rows of a scan of an entry adapter as (row id, attribute id, entry id). -/
def scanTriples (r : Option (List CdfAttrEntriesCursor × Int)) : Option (List (Int × Int × Int) × Int) :=
  r.map (fun x => (x.1.map (fun c => (c.rowid, c.attrid, c.entryid)), x.2))

/-- The entry indices present under each attribute. -/
def entryIndices (st : Engine) : List (List Int) :=
  st.attrs.map (fun a => a.entries.map (fun p => p.1))


/-! ## Notions used to state the properties of record writes -/

/-- Column `kzvar` of an `xUpdate` call carries a value: it is neither flagged as
unchanged nor NULL. -/
def supplied (argv : List SqlValue) (kzvar : Int) : Prop :=
  (arg argv (kzvar + 3)).nochange = false ∧ (arg argv (kzvar + 3)).vtype ≠ SQLITE_NULL

/-- The engine `st1` is `st` after put-record calls that all aimed at the record index
`recNum`: same variables apart from records added at `recNum`, same attributes, and a
log extended by such calls only. -/
def ExtendsAt (recNum : Int) (st st1 : Engine) : Prop :=
  st1.attrs = st.attrs ∧ st1.closeStatus = st.closeStatus
  ∧ st1.zvars.length = st.zvars.length
  ∧ (∀ (i : Nat) (v : ZVar), st.zvars[i]? = some v →
      ∃ extra, st1.zvars[i]? = some { v with recs := extra ++ v.recs }
        ∧ ∀ p ∈ extra, p.1 = recNum)
  ∧ (∃ puts, st1.log = st.log ++ puts
      ∧ ∀ c ∈ puts, ∃ k d, c = EngineCall.putzVarRecordData k recNum d)

/-- Variable `k` of the engine has a written record at index `recNum`. -/
def hasRec (st : Engine) (k recNum : Int) : Prop :=
  ∃ v d, getAt st.zvars k = some v ∧ (recNum, d) ∈ v.recs


/-- A container with attribute 0 "G" of global scope and attribute 1 "V" of variable
scope, and one zVariable. -/
def stScopes : Engine :=
  ⟨[⟨txtTemp, CDF_REAL8, 1, [], [234, 140, 160, 57, 89, 62, 41, 198], []⟩],
   [⟨[71], GLOBAL_SCOPE, []⟩, ⟨[86], VARIABLE_SCOPE, []⟩], CDF_OK, []⟩

/-- The outcome of inserting "Mission X" under "Title" in `stTitle`. -/
def outMissionX : Outcome :=
  ⟨some SQLITE_OK,
   ⟨[], [⟨txtTitle, GLOBAL_SCOPE, [(0, ⟨CDF_CHAR, 9, txtMissionX⟩)]⟩], CDF_OK,
    [EngineCall.putAttrgEntry 0 0 CDF_CHAR 9 txtMissionX]⟩,
   none⟩

/-- The outcome of inserting temp = 21.5 without a record number in `stTemp`. -/
def outTempAppend : Outcome :=
  ⟨some SQLITE_OK,
   ⟨[⟨txtTemp, CDF_REAL8, 1, [], [234, 140, 160, 57, 89, 62, 41, 198],
       [(0, [0, 0, 0, 0, 0, 128, 53, 64])]⟩], [], CDF_OK,
    [EngineCall.putzVarRecordData 0 0 [0, 0, 0, 0, 0, 128, 53, 64]]⟩,
   some 0⟩


/-! ## The defined element types -/

/-- The 17 defined element type ids: the table `typeids` without its closing 0. -/
def definedTypeIds : List Int := typeids.take 17

/-- The 17 mnemonics: the table `typestrs` without its closing empty string. -/
def mnemonics : List (List Nat) := typestrs.take 17

/-- The text "time_tt2000x". -/
def txtTimeTT2000x : List Nat := [116, 105, 109, 101, 95, 116, 116, 50, 48, 48, 48, 120]


/-! ## C library helpers for the variable catalog: `strtol` and `%d` -/

abbrev VARY : Int := -1
abbrev NOVARY : Int := 0
abbrev CDF_MAX_DIMS : Int := 10
abbrev LONG_MAX : Int := 9223372036854775807
abbrev LONG_MIN : Int := -9223372036854775808

/-- The C function `isspace` in the "C" locale. -/
def isSpace (c : Nat) : Bool := decide (c = 32 ∨ (9 ≤ c ∧ c ≤ 13))

/-- The value of a character as a digit of `strtol` (0-9, a-z, A-Z). -/
def digitVal (c : Nat) : Option Nat :=
  if 48 ≤ c ∧ c ≤ 57 then some (c - 48)
  else if 97 ≤ c ∧ c ≤ 122 then some (c - 87)
  else if 65 ≤ c ∧ c ≤ 90 then some (c - 55)
  else none

/-- The digit loop of `strtol` in base `b`: the accumulated value and the characters left. -/
def strtolDigits (b : Nat) : List Nat → Nat → Nat × List Nat
  | [], acc => (acc, [])
  | c :: cs, acc =>
    match digitVal c with
    | some d => if d < b then strtolDigits b cs (acc * b + d) else (acc, c :: cs)
    | none => (acc, c :: cs)

/-- The C function `strtol(s, &end, 0)` on the characters of a C string (without its
terminator): the value and the characters from `end` on.  White space is skipped, a sign is
read, the base is 16 after "0x", 8 after "0" and 10 otherwise; a value out of range is
clamped; without digits the value is 0 and `end` is `s`. -/
def strtol0 (s : List Nat) : Int × List Nat :=
  let t := s.dropWhile isSpace
  let neg := decide (t.head? = some 45)
  let u := if t.head? = some 45 ∨ t.head? = some 43 then t.tail else t
  let r : Option (Nat × List Nat) :=
    match u with
    | 48 :: x :: h :: rest =>
      if (x = 120 ∨ x = 88) ∧ ((digitVal h).getD 16 < 16) then
        some (strtolDigits 16 (h :: rest) 0)
      else some (strtolDigits 8 u 0)
    | 48 :: _ => some (strtolDigits 8 u 0)
    | c :: _ => if (digitVal c).getD 10 < 10 then some (strtolDigits 10 u 0) else none
    | [] => none
  match r with
  | none => (0, s)
  | some (n, rest) =>
    if neg then (max (-(n : Int)) LONG_MIN, rest) else (min (n : Int) LONG_MAX, rest)

/-- Source: the parsing of a comma-joined list in `cdfzVarsUpdate`:
`a[0] = strtol(str, &p, 0); for( k=1; k<numdims; k++ ) a[k] = strtol(p+1, &p, 0);`
with `n` numbers still to read after the first.  `none`: `p+1` points past the terminator
of the string. -/
def parseMore : Nat → List Nat → Option (List Int)
  | 0, _ => some []
  | n + 1, rest =>
    match rest with
    | [] => none
    | _ :: t =>
      let r := strtol0 t
      (parseMore n r.2).map (fun l => r.1 :: l)

/-- Source: the `strtol` sequence of the dimension sizes or variances text in
`cdfzVarsUpdate`: `a[0] = strtol(str, &p, 0)`, then `numdims - 1` times
`strtol(p+1, &p, 0)`, on the string that the text holds up to its first NUL. -/
def parseNumbers (text : List Nat) (numdims : Int) : Option (List Int) :=
  let r := strtol0 (cstr text)
  (parseMore (numdims - 1).toNat r.2).map (fun l => r.1 :: l)

/-- Source: the parsing of the dimension sizes or variances text in `cdfzVarsUpdate`, for
`numdims > 1`:
`dimparstr = sqlite3_malloc(sqlite3_value_bytes(argv[7])); strcpy(dimparstr, text);`
followed by the `strtol` sequence on the copy.  The block has as many bytes as the text,
and `strcpy` writes the string and its terminator: the copy stays inside the block only
when the text holds a NUL of its own.  `none`: the copy writes past the block (for the empty
text the block is the null pointer). -/
def parseLongs (text : List Nat) (numdims : Int) : Option (List Int) :=
  if (cstr text).length + 1 ≤ text.length then parseNumbers text numdims else none

/-- Decimal digits of `n`, most significant first, with `fuel` digits at most. -/
def decDigits : Nat → Nat → List Nat
  | 0, _ => []
  | fuel + 1, n => if n < 10 then [48 + n] else decDigits fuel (n / 10) ++ [48 + n % 10]

/-- The signed value of a 32-bit pattern. -/
def toInt32 (n : Nat) : Int :=
  if n % 4294967296 < 2147483648 then ((n % 4294967296 : Nat) : Int)
  else ((n % 4294967296 : Nat) : Int) - 4294967296

/-- The C conversion `(int) x` of a 64-bit integer, also `sqlite3_value_int`. -/
def intOfLong (x : Int) : Int := toInt32 (x % 4294967296).toNat

/-- The text that `sprintf("%d", x)` produces when `x` is a `long`: the conversion reads
an `int`, the low 32 bits. -/
def fmtD (x : Int) : List Nat :=
  let i := intOfLong x
  if i < 0 then 45 :: decDigits 10 (-i).toNat else decDigits 10 i.toNat

/-- Source: the text built by `result_dimsizes` for more than one dimension: each size with
`sprintf("%d,", ...)`, the last comma replaced by the terminator. -/
def renderDims (dimsizes : List Int) : List Nat :=
  (dimsizes.foldl (fun acc d => acc ++ fmtD d ++ [44]) []).dropLast

/-! ## Engine primitives of the variable catalog -/

/-- Engine primitive `CDFgetzVarName`. -/
def CDFgetzVarName (st : Engine) (k : Int) : Option (List Nat) :=
  (getAt st.zvars k).map (fun v => v.name)

/-- Engine primitive `CDFgetVarNum`: the variable number, or a negative status. -/
def CDFgetVarNum (st : Engine) (name : List Nat) : Int :=
  match st.zvars.findIdx? (fun v => decide (v.name = cstr name)) with
  | some i => (i : Int)
  | none => CDF_ERR

/-- The pad value a new variable starts with.  The engine has a default per element type;
it is modelled as zero bytes, and no property depends on its content. -/
def defaultPad (dataType numElems : Int) : List Nat :=
  List.replicate (cdf_elsize dataType * numElems).toNat 0

/-- Engine primitive `CDFcreatezVar`: status, engine afterwards and the number of the new
variable.  Fails on an empty or taken name, an undefined element type, an element count
below 1 (or other than 1 for a non-character type), a dimension count outside 0..10, a
non-positive dimension size or an illegal variance.  `none`: an array argument is shorter
than `numDims`. -/
def CDFcreatezVar (st : Engine) (name : List Nat) (dataType numElems numDims : Int)
    (dimSizes : List Int) (recVary : Int) (dimVarys : List Int) :
    Option (Int × Engine × Int) :=
  let call := EngineCall.createzVar name dataType numElems numDims dimSizes recVary dimVarys
  if numDims < 0 ∨ numDims > CDF_MAX_DIMS then some (CDF_ERR, st.logCall call, 0)
  else if (dimSizes.length : Int) < numDims ∨ (dimVarys.length : Int) < numDims then none
  else
    let sizes := dimSizes.take numDims.toNat
    let varys := dimVarys.take numDims.toNat
    if cstr name = [] ∨ st.zvars.any (fun v => decide (v.name = cstr name)) = true
        ∨ cdf_elsize dataType = 0 ∨ numElems < 1
        ∨ (dataType ≠ CDF_CHAR ∧ dataType ≠ CDF_UCHAR ∧ numElems ≠ 1)
        ∨ sizes.any (fun d => decide (d ≤ 0)) = true
        ∨ (recVary ≠ VARY ∧ recVary ≠ NOVARY)
        ∨ varys.any (fun d => decide (d ≠ VARY ∧ d ≠ NOVARY)) = true then
      some (CDF_ERR, st.logCall call, 0)
    else
      some (CDF_OK,
        { st with
          zvars := st.zvars ++ [⟨cstr name, dataType, numElems, sizes,
            defaultPad dataType numElems, []⟩],
          log := st.log ++ [call] },
        CDFgetNumzVars st)

/-- The zEntries of one attribute after the deletion of variable `k`: the entry of `k` is
removed and the entries of the variables after it move down. -/
def dropzEntry (k : Int) (a : Attr) : Attr :=
  if a.scope = VARIABLE_SCOPE then
    let kept := a.entries.filter (fun p => decide (p.1 ≠ k))
    { a with entries := kept.map (fun p => if p.1 > k then (p.1 - 1, p.2) else p) }
  else a

/-- Engine primitive `CDFdeletezVar`: the variables after the deleted one move down, and so
do their zEntries. -/
def CDFdeletezVar (st : Engine) (k : Int) : Int × Engine :=
  match getAt st.zvars k with
  | none => (CDF_ERR, st.logCall (.deletezVar k))
  | some _ =>
    (CDF_OK,
      { st with zvars := st.zvars.eraseIdx k.toNat, attrs := st.attrs.map (dropzEntry k),
                log := st.log ++ [.deletezVar k] })

/-- Engine primitive `CDFrenamezVar`. -/
def CDFrenamezVar (st : Engine) (k : Int) (name : List Nat) : Int × Engine :=
  match getAt st.zvars k with
  | none => (CDF_ERR, st.logCall (.renamezVar k name))
  | some v =>
    if cstr name = [] ∨ st.zvars.any (fun w => decide (w.name = cstr name)) = true then
      (CDF_ERR, st.logCall (.renamezVar k name))
    else
      (CDF_OK,
        { st with zvars := st.zvars.set k.toNat { v with name := cstr name },
                  log := st.log ++ [.renamezVar k name] })

/-- Engine primitive `CDFsetzVarAllocRecords` (the allocation itself is not part of the
state). -/
def CDFsetzVarAllocRecords (st : Engine) (k n : Int) : Int × Engine :=
  match getAt st.zvars k with
  | none => (CDF_ERR, st.logCall (.setzVarAllocRecords k n))
  | some _ =>
    if n < 0 then (CDF_ERR, st.logCall (.setzVarAllocRecords k n))
    else (CDF_OK, st.logCall (.setzVarAllocRecords k n))

/-- Engine primitive `CDFsetzVarPadValue`: reads one element (`numElems` characters for a
character type) from the caller's buffer; `none` when the buffer is shorter. -/
def CDFsetzVarPadValue (st : Engine) (k : Int) (buf : List Nat) : Option (Int × Engine) :=
  match getAt st.zvars k with
  | none => some (CDF_ERR, st.logCall (.setzVarPadValue k []))
  | some v =>
    match takeBytes (cdf_elsize v.dataType * v.numElems) buf with
    | none => none
    | some data =>
      some (CDF_OK,
        { st with zvars := st.zvars.set k.toNat { v with padValue := data },
                  log := st.log ++ [.setzVarPadValue k data] })

/-- Engine primitive `CDFreadzVarPadValue`: element type, element count and a buffer with
the pad value. -/
def CDFreadzVarPadValue (st : Engine) (k : Int) : Option (Int × Int × List Nat) :=
  (getAt st.zvars k).map (fun v => (v.dataType, v.numElems, v.padValue))


/-! ## Variable catalog adapter: mutation -/

/-- The result of a validation step: a value, the return of `SQLITE_ERROR`, or undefined
behaviour. -/
inductive Parsed (α : Type)
  | ok (a : α)
  | error
  | undefined

/-- The arguments that `cdfzVarsUpdate` hands to `CDFcreatezVar`. -/
structure ZVarSpec where
  datatype : Int
  numelem : Int
  numdims : Int
  dimsizes : List Int
  recvariance : Int
  dimvars : List Int
deriving DecidableEq

/-- Source: the condition of the numeric type check of `cdfzVarsUpdate` (true: the id is
rejected). -/
def zvarsTypeRejected (datatype : Int) : Bool :=
  decide (datatype > CDF_UCHAR ∨ datatype < CDF_INT1 ∨ datatype = 3 ∨ datatype = 13
    ∨ (datatype > 4 ∧ datatype < 8) ∨ (datatype > 8 ∧ datatype < 11)
    ∨ (datatype > 14 ∧ datatype < 21) ∨ (datatype > 22 ∧ datatype < 31)
    ∨ (datatype > 33 ∧ datatype < 41) ∨ (datatype > 41 ∧ datatype < 44)
    ∨ (datatype > 45 ∧ datatype < 51))

/-- Source: the resolution of the element type from `argv[4]` in the insert branch of
`cdfzVarsUpdate`; `none` is the return of `SQLITE_ERROR`. -/
def zvarsDatatype (argv : List SqlValue) : Option Int :=
  let a := arg argv 4
  if a.vtype = SQLITE_INTEGER ∨ a.vtype = SQLITE_FLOAT then
    if zvarsTypeRejected a.int64 then none else some a.int64
  else if a.vtype = SQLITE_TEXT then
    if cdf_typeid a.bytes = 0 then none else some (cdf_typeid a.bytes)
  else if a.vtype = SQLITE_NULL then some 45
  else none

/-- Source: the dimension sizes from `argv[7]` in the insert branch of `cdfzVarsUpdate`. -/
def zvarsDimsizes (argv : List SqlValue) (numdims : Int) : Parsed (List Int) :=
  if numdims = 0 then .ok [0]
  else if numdims = 1 then
    if (arg argv 7).int64 ≤ 0 then .error else .ok [(arg argv 7).int64]
  else if numdims > 1 then
    if (arg argv 7).vtype = SQLITE_TEXT then
      match parseLongs (arg argv 7).bytes numdims with
      | none => .undefined
      | some l => .ok l
    else .error
  else .error

/-- Source: the record variance from `argv[8]` in the insert branch of `cdfzVarsUpdate`;
`none` is the return of `SQLITE_ERROR`. -/
def zvarsRecvariance (argv : List SqlValue) : Option Int :=
  if (arg argv 8).vtype ≠ SQLITE_NULL then
    if (arg argv 8).int64 ≠ VARY ∧ (arg argv 8).int64 ≠ NOVARY then none
    else some (arg argv 8).int64
  else some VARY

/-- Source: the dimension variances from `argv[9]` in the insert branch of `cdfzVarsUpdate`,
with the loop that checks each of them.  For more than one dimension and a value that is
neither TEXT nor NULL the array stays uninitialised and the check reads it. -/
def zvarsDimvars (argv : List SqlValue) (numdims : Int) : Parsed (List Int) :=
  let bad := fun (l : List Int) => l.any (fun d => decide (d ≠ VARY ∧ d ≠ NOVARY))
  if numdims = 0 then .ok [VARY]
  else if numdims = 1 then
    let dimvar := if (arg argv 9).vtype = SQLITE_NULL then VARY else (arg argv 9).int64
    if bad [dimvar] then .error else .ok [dimvar]
  else if numdims > 1 then
    if (arg argv 9).vtype = SQLITE_TEXT then
      match parseLongs (arg argv 9).bytes numdims with
      | none => .undefined
      | some l => if bad l then .error else .ok l
    else if (arg argv 9).vtype = SQLITE_NULL then .ok (List.replicate numdims.toNat VARY)
    else .undefined
  else .error

/-- Source: the insert branch of `cdfzVarsUpdate` up to the first engine call: every
argument check, in the order of the code. -/
def zvarsInsertSpec (argv : List SqlValue) : Parsed ZVarSpec :=
  match zvarsDatatype argv with
  | none => .error
  | some datatype =>
    let numelem :=
      if datatype = 51 ∨ datatype = 52 then
        (if (arg argv 5).vtype = SQLITE_NULL then 64 else (arg argv 5).int64)
      else 1
    let numdims := (arg argv 6).int64
    match zvarsDimsizes argv numdims with
    | .error => .error
    | .undefined => .undefined
    | .ok dimsizes =>
      match zvarsRecvariance argv with
      | none => .error
      | some recvariance =>
        match zvarsDimvars argv numdims with
        | .error => .error
        | .undefined => .undefined
        | .ok dimvars =>
          if (arg argv 10).vtype ≠ SQLITE_NULL then .error
          else .ok ⟨datatype, numelem, numdims, dimsizes, recvariance, dimvars⟩

/-- The 4 bytes of a C `int`. -/
def intBytes (i : Int) : List Nat := leBytes 4 (i % 4294967296).toNat

/-- Source: `zvars_upd_padval`: result code and engine afterwards.  For the 8-byte types
the status of `CDFsetzVarPadValue` is not assigned and the earlier `CDF_OK` stands. -/
def zvars_upd_padval (argv : List SqlValue) (st : Engine) (varnum : Int) :
    Option (Int × Engine) :=
  let a := arg argv 12
  if a.vtype ≠ SQLITE_NULL then
    match CDFgetzVarDataType st varnum with
    | none => none
    | some datatype =>
      if datatype = CDF_REAL8 ∨ datatype = CDF_DOUBLE ∨ datatype = CDF_EPOCH then
        (CDFsetzVarPadValue st varnum (leBytes 8 a.double)).map (fun r => (SQLITE_OK, r.2))
      else if datatype = CDF_INT8 then
        (CDFsetzVarPadValue st varnum (longBytes a.int64)).map (fun r => (SQLITE_OK, r.2))
      else if datatype = CDF_INT4 ∨ datatype = CDF_UINT4 ∨ datatype = CDF_INT2
          ∨ datatype = CDF_UINT2 ∨ datatype = CDF_INT1 ∨ datatype = CDF_UINT1
          ∨ datatype = CDF_BYTE then
        rcOfStatus (CDFsetzVarPadValue st varnum (intBytes (intOfLong a.int64)))
      else if datatype = CDF_CHAR ∨ datatype = CDF_UCHAR then
        rcOfStatus (CDFsetzVarPadValue st varnum (a.bytes ++ [0]))
      else if datatype = CDF_REAL4 ∨ datatype = CDF_FLOAT then
        rcOfStatus (CDFsetzVarPadValue st varnum (leBytes 4 a.float32))
      else if datatype = CDF_EPOCH16 then
        if a.bytes.length ≠ 16 then some (SQLITE_ERROR, st)
        else rcOfStatus (CDFsetzVarPadValue st varnum a.bytes)
      else some (SQLITE_ERROR, st)
  else some (SQLITE_OK, st)

/-- Source: the insert branch of `cdfzVarsUpdate` from `CDFcreatezVar` on.  `rcRecreate`
is the result of `cdf_recreate_zrecs` (the front-end drops and re-creates the record
table). -/
def zvarsCreate (rcRecreate : Int) (st : Engine) (argv : List SqlValue) (sp : ZVarSpec) :
    Option Outcome :=
  let nzvars := CDFgetNumzVars st
  match CDFcreatezVar st (arg argv 3).bytes sp.datatype sp.numelem sp.numdims sp.dimsizes
      sp.recvariance sp.dimvars with
  | none => none
  | some (status, st1, varnum) =>
    if status < CDF_OK then some ⟨some SQLITE_ERROR, st1, none⟩
    else if nzvars ≠ varnum then some ⟨some SQLITE_ERROR, st1, none⟩
    else
      let r2 : Int × Engine :=
        if (arg argv 11).vtype ≠ SQLITE_NULL then
          CDFsetzVarAllocRecords st1 varnum (arg argv 11).int64
        else (CDF_OK, st1)
      if r2.1 < CDF_OK then some ⟨some SQLITE_ERROR, r2.2, none⟩
      else
        match zvars_upd_padval argv r2.2 varnum with
        | none => none
        | some (rc, st3) =>
          if rc ≠ SQLITE_OK then some ⟨some SQLITE_ERROR, st3, none⟩
          else if rcRecreate ≠ SQLITE_OK then some ⟨some rcRecreate, st3, none⟩
          else some ⟨some SQLITE_OK, st3, none⟩

/-- The number of the columns `argv[4]` .. `argv[10]` that are not flagged as unchanged
(`change` in the update branch of `cdfzVarsUpdate`). -/
def zvarsChange (argv : List SqlValue) : Int :=
  ((List.range 7).map (fun (k : Nat) =>
    if (arg argv ((k : Int) + 4)).nochange then (0 : Int) else 1)).sum

/-- Source: the update branch of `cdfzVarsUpdate`. -/
def zvarsModify (rcRecreate : Int) (st : Engine) (argv : List SqlValue) : Option Outcome :=
  if zvarsChange argv ≠ 0 then some ⟨some SQLITE_ERROR, st, none⟩
  else
    let varnum := (arg argv 0).int64 - 1
    let r1 : Int × Engine :=
      if (arg argv 3).nochange = false then CDFrenamezVar st varnum (arg argv 3).bytes
      else (CDF_OK, st)
    if r1.1 < CDF_OK then some ⟨some SQLITE_ERROR, r1.2, none⟩
    else if (arg argv 3).nochange = false ∧ rcRecreate ≠ SQLITE_OK then
      some ⟨some rcRecreate, r1.2, none⟩
    else
      let r2 : Int × Engine :=
        if (arg argv 11).nochange = false then
          CDFsetzVarAllocRecords r1.2 varnum (arg argv 11).int64
        else (CDF_OK, r1.2)
      if r2.1 < CDF_OK then some ⟨some SQLITE_ERROR, r2.2, none⟩
      else if (arg argv 12).nochange = false then
        match zvars_upd_padval argv r2.2 varnum with
        | none => none
        | some (rc, st3) =>
          if rc ≠ SQLITE_OK then some ⟨some SQLITE_ERROR, st3, none⟩
          else some ⟨some SQLITE_OK, st3, none⟩
      else some ⟨some SQLITE_OK, r2.2, none⟩

/-- Source: `cdfzVarsUpdate`. -/
def cdfzVarsUpdate (vp : CdfVTab) (rcRecreate : Int) (st : Engine) (argv : List SqlValue) :
    Option Outcome :=
  if vp.mode = 'r' ∨ vp.mode = 's' then some ⟨some SQLITE_READONLY, st, none⟩
  else if argv.length = 1 then
    let r : Int × Engine :=
      if (arg argv 0).vtype ≠ SQLITE_NULL then CDFdeletezVar st ((arg argv 0).int64 - 1)
      else (CDF_OK, st)
    if r.1 ≠ CDF_OK then some ⟨some SQLITE_ERROR, r.2, none⟩
    else if rcRecreate ≠ SQLITE_OK then some ⟨some rcRecreate, r.2, none⟩
    else some ⟨some SQLITE_OK, r.2, none⟩
  else if (arg argv 0).vtype = SQLITE_NULL then
    match zvarsInsertSpec argv with
    | .error => some ⟨some SQLITE_ERROR, st, none⟩
    | .undefined => none
    | .ok sp => zvarsCreate rcRecreate st argv sp
  else zvarsModify rcRecreate st argv

/-! ## Variable catalog adapter: the readers of dimension sizes and pad value -/

/-- Source: `result_dimsizes`. -/
def result_dimsizes (st : Engine) (kzvar : Int) : Int × ColValue :=
  match CDFgetzVarNumDims st (kzvar - 1) with
  | none => (CDF_ERR, .val .null)
  | some n =>
    if n ≤ 0 then (CDF_OK, .val .null)
    else
      match CDFgetzVarDimSizes st (kzvar - 1) with
      | none => (CDF_ERR, .indeterminate)
      | some dimsizes =>
        if n = 1 then (CDF_OK, .val (.int64 (dimsizes.headD 0)))
        else (CDF_OK, .val (.text (cstr (renderDims dimsizes))))

/-- The signed value of a 16-bit pattern. -/
def toInt16 (n : Nat) : Int :=
  if n % 65536 < 32768 then ((n % 65536 : Nat) : Int) else ((n % 65536 : Nat) : Int) - 65536

/-- The signed value of an 8-bit pattern (`char` is signed on the little-endian platforms
the byte layout of this model follows). -/
def toInt8 (n : Nat) : Int :=
  if n % 256 < 128 then ((n % 256 : Nat) : Int) else ((n % 256 : Nat) : Int) - 256

/-- The C conversion `(double) f` of a binary32 pattern to a binary64 pattern. -/
def floatToDouble (f : Nat) : Nat :=
  let s := (f / 2147483648) % 2
  let e := (f / 8388608) % 256
  let m := f % 8388608
  if e = 255 then s * 9223372036854775808 + 2047 * 4503599627370496 + m * 536870912
  else if e = 0 then
    if m = 0 then s * 9223372036854775808
    else
      let p := Nat.log2 m
      s * 9223372036854775808 + (p + 874) * 4503599627370496 + (m - 2 ^ p) * 2 ^ (52 - p)
  else s * 9223372036854775808 + (e + 896) * 4503599627370496 + m * 536870912

/-- Reads the first `w` bytes of the engine's buffer as a number; a shorter buffer makes
the result indeterminate. -/
def readLE (w : Nat) (value : List Nat) (mk : Nat → SqlResult) : ColValue :=
  if w ≤ value.length then .val (mk (ofLeBytes (value.take w))) else .indeterminate

/-- Source: `result_padvalue`.  The function returns `SQLITE_OK` at its end whatever the
type. -/
def result_padvalue (st : Engine) (kzvar : Int) : Int × ColValue :=
  match CDFreadzVarPadValue st (kzvar - 1) with
  | none => (CDF_ERR, .val .null)
  | some (datatype, _, value) =>
    let t := cdf_sqlitetype datatype
    if t = SQLITE_FLOAT then (SQLITE_OK, readLE 8 value (fun n => .double n))
    else if t = SQLITE_INTEGER then
      if datatype = CDF_INT8 then (SQLITE_OK, readLE 8 value (fun n => .int64 (toInt64 n)))
      else if datatype = CDF_INT2 ∨ datatype = CDF_UINT2 then
        (SQLITE_OK, readLE 2 value (fun n => .int64 (toInt16 n)))
      else if datatype = CDF_INT1 ∨ datatype = CDF_UINT1 then
        (SQLITE_OK, readLE 1 value (fun n => .int64 (toInt8 n)))
      else (SQLITE_OK, readLE 4 value (fun n => .int64 (toInt32 n)))
    else if t = SQLITE_TEXT then
      (SQLITE_OK, if value.contains 0 then .val (.text (cstr value)) else .indeterminate)
    else if t = SQLITE_BLOB then
      if datatype = CDF_REAL4 ∨ datatype = CDF_FLOAT then
        (SQLITE_OK, readLE 4 value (fun n => .double (floatToDouble n)))
      else (SQLITE_OK, readLE 16 value (fun n => .blob (leBytes 16 n)))
    else (SQLITE_OK, .val .null)


/-! ## Concrete arguments of the variable catalog used in the evaluations -/

/-- The INTEGER value 3. -/
def sqlInt3 : SqlValue := ⟨SQLITE_INTEGER, 3, 4613937818241073152, 1077936128, 3, [51], false⟩

/-- The INTEGER value 5. -/
def sqlInt5 : SqlValue := ⟨SQLITE_INTEGER, 5, 4617315517961601024, 1084227584, 5, [53], false⟩

/-- The INTEGER value 12 (the id of `CDF_UINT2`). -/
def sqlInt12 : SqlValue :=
  ⟨SQLITE_INTEGER, 12, 4622945017495814144, 1094713344, 12, [49, 50], false⟩

/-- The INTEGER value 32 (the id of `CDF_EPOCH16`). -/
def sqlInt32 : SqlValue :=
  ⟨SQLITE_INTEGER, 32, 4629700416936869888, 1107296256, 32, [51, 50], false⟩

/-- The INTEGER value 33 (the id of `CDF_TIME_TT2000`). -/
def sqlInt33 : SqlValue :=
  ⟨SQLITE_INTEGER, 33, 4629841154425225216, 1107558400, 33, [51, 51], false⟩

/-- The INTEGER value 65535. -/
def sqlInt65535 : SqlValue :=
  ⟨SQLITE_INTEGER, 65535, 4679239875398991872, 1199570688, 65535, [54, 53, 53, 51, 53], false⟩

/-- A BLOB value. -/
def sqlBlob (b : List Nat) : SqlValue := ⟨SQLITE_BLOB, 0, 0, 0, 0, b, false⟩

/-- A column of an UPDATE that the statement does not set (`sqlite3_value_nochange`). -/
def sqlNoChange : SqlValue := ⟨SQLITE_NULL, 0, 0, 0, 0, [], true⟩

/-- The text "t2". -/
def txtT2 : List Nat := [116, 50]

/-- The arguments of an INSERT into the variable catalog: name, type-spec, dimension count,
dimension sizes and pad value; the other columns are NULL. -/
def argsCreateVar (name : List Nat) (dataspec numdims dimsizes pad : SqlValue) :
    List SqlValue :=
  [sqlNull, sqlNull, sqlNull, sqlText name, dataspec, sqlNull, numdims, dimsizes, sqlNull,
   sqlNull, sqlNull, sqlNull, pad]

/-- The arguments of `UPDATE zvars SET id = 5, name = 't2' WHERE id = 1`: the old row id 1,
the new row id 5, the id and name columns set, every other column unchanged. -/
def argsUpdateVarId : List SqlValue :=
  [sqlInt1, sqlInt5, sqlInt5, sqlText txtT2, sqlNoChange, sqlNoChange, sqlNoChange,
   sqlNoChange, sqlNoChange, sqlNoChange, sqlNoChange, sqlNoChange, sqlNoChange]

/-- A container with the single scalar zVariable "temp" of element type `t` and pad value
`pad`, and no record. -/
def stOneVar (t : Int) (pad : List Nat) : Engine :=
  ⟨[⟨txtTemp, t, 1, [], pad, []⟩], [], CDF_OK, []⟩


/-- Source: the record index `kcdfrec` that the insert/update branch of `cdfzRecsUpdate`
computes before its loop over the variables. -/
def zRecsTarget (st : Engine) (argv : List SqlValue) : Int :=
  if (arg argv 0).vtype ≠ SQLITE_NULL then (arg argv 0).int64 - 1
  else if (arg argv 2).vtype ≠ SQLITE_NULL then (arg argv 2).int64
  else CDFgetzVarsMaxWrittenRecNum st + 1

/-- The text "vec". -/
def txtVec : List Nat := [118, 101, 99]

/-- A container with the scalar REAL8 zVariable "temp" and the INT4 zVariable "vec" of one
dimension with 2 elements (8 bytes per record), and no record. -/
def stTempVec : Engine :=
  ⟨[⟨txtTemp, CDF_REAL8, 1, [], [234, 140, 160, 57, 89, 62, 41, 198], []⟩,
    ⟨txtVec, CDF_INT4, 1, [2], [0, 0, 0, 0, 0, 0, 0, 0], []⟩], [], CDF_OK, []⟩

/-- The arguments of `INSERT INTO zrecs(temp, vec) VALUES (temp, vec)`. -/
def argsInsertTempVec (temp vec : SqlValue) : List SqlValue :=
  [sqlNull, sqlNull, sqlNull, temp, vec]


/-- A container with three scalar INT8 zVariables and the variable-scope attribute "A"
whose only entry, at index `e`, holds the number `e`. -/
def stThreeVars (e : Int) : Engine :=
  ⟨(List.range 3).map (fun n => ⟨[118, 48 + n], CDF_INT8, 1, [], longBytes 0, []⟩),
   [⟨[65], VARIABLE_SCOPE, [entryAt e]⟩], CDF_OK, []⟩

/-- The outcome of inserting the value 5 under "A" with a NULL owner in `stThreeVars 0`. -/
def outThreeVars : Outcome :=
  ⟨some SQLITE_OK,
   ⟨(List.range 3).map (fun n => ⟨[118, 48 + n], CDF_INT8, 1, [], longBytes 0, []⟩),
    [⟨[65], VARIABLE_SCOPE, [(1, ⟨CDF_INT8, 1, longBytes 5⟩), entryAt 0]⟩], CDF_OK,
    [EngineCall.putAttrzEntry 0 1 CDF_INT8 1 (longBytes 5)]⟩,
   none⟩


/-! ## Concrete arguments of the entry adapters used in the evaluations -/

/-- The text "int4". -/
def txtInt4 : List Nat := [105, 110, 116, 52]

/-- The arguments of an insert into an entry adapter: attribute by name, no entry number or
owner, the type-spec `ty`, the element count `n` and the value `v`. -/
def argsInsertEntryTyped (name : List Nat) (ty n v : SqlValue) : List SqlValue :=
  [sqlNull, sqlNull, sqlNull, sqlText name, sqlNull, ty, n, v]

/-- The arguments of an update of row 1, attribute 1 "Title", entry 1, type "char", with the
element count `n` and the value `v`. -/
def argsUpdateEntryCount (n v : SqlValue) : List SqlValue :=
  [sqlInt1, sqlInt1, sqlInt1, sqlText txtTitle, sqlInt1, sqlText txtChar, n, v]

/-- An INT8 entry with the two elements `x` and `y` (16 bytes), at entry index `k`. -/
def entryPair (k x y : Int) : Int × AttrEntry := (k, ⟨CDF_INT8, 2, longBytes x ++ longBytes y⟩)

/-- A container with the single global attribute "A" whose one entry, at index 0, is the
vector (1, 2). -/
def stVector : Engine := ⟨[], [⟨[65], GLOBAL_SCOPE, [entryPair 0 1 2]⟩], CDF_OK, []⟩

/-- A container with the global attributes "A" and "B", each with two-element entries at the
indices 0 and 1. -/
def stVectors : Engine :=
  ⟨[], [⟨[65], GLOBAL_SCOPE, [entryPair 0 1 2, entryPair 1 3 4]⟩,
        ⟨[66], GLOBAL_SCOPE, [entryPair 0 5 6, entryPair 1 7 8]⟩], CDF_OK, []⟩


/-! ## Variable catalog adapter: cursor -/

abbrev SQLITE_INDEX_CONSTRAINT_EQ : Int := 2

/-- The cursor `CdfzVarsCursor`.  `cdfVTabNext` reaches `zvarid` through a cast to
`CdfVTabCursor`, whose `rowid` field is at the same place. -/
structure CdfzVarsCursor where
  zvarid : Int
  lastrow : Int
deriving DecidableEq

/-- Source: `cdfzVarsFilter`; `argv` are the constraint arguments of the front-end. -/
def cdfzVarsFilter (st : Engine) (idxNum : Int) (argv : List SqlValue) : CdfzVarsCursor :=
  let lastrow := CDFgetNumzVars st
  if idxNum = SQLITE_INDEX_CONSTRAINT_EQ ∧ argv.length > 0 then
    let varnum := CDFgetVarNum st (arg argv 0).bytes
    ⟨varnum + 1, varnum + 1⟩
  else ⟨1, lastrow⟩

/-- Source: `cdfzVarsEof`. -/
def cdfzVarsEof (cp : CdfzVarsCursor) : Bool := decide (cp.zvarid > cp.lastrow)

/-- Source: `cdfVTabNext` applied to a variable-catalog cursor. -/
def cdfzVarsNext (cp : CdfzVarsCursor) : CdfzVarsCursor := ⟨cp.zvarid + 1, cp.lastrow⟩

/-- Source: `cdfzVarsRowid`. -/
def cdfzVarsRowid (cp : CdfzVarsCursor) : Int := cp.zvarid

/-- The front-end loop over the variable catalog: test `xEof`, visit the row (its row id),
call `xNext`.  `none`: the fuel ran out. -/
def zVarsScanFrom : Nat → CdfzVarsCursor → Option (List Int)
  | 0, _ => none
  | fuel + 1, cp =>
    if cdfzVarsEof cp then some []
    else (zVarsScanFrom fuel (cdfzVarsNext cp)).map (fun l => cdfzVarsRowid cp :: l)

/-- The row ids of the scan that the front-end runs after `xFilter(idxNum, argv)`. -/
def zVarsScan (st : Engine) (idxNum : Int) (argv : List SqlValue) (fuel : Nat) :
    Option (List Int) :=
  zVarsScanFrom fuel (cdfzVarsFilter st idxNum argv)

/-- The specification of the name lookup: the rows of the full scan (`idxNum = 0`, no
argument) whose variable has the name `s`. -/
def zVarsRowsNamed (st : Engine) (s : List Nat) (fuel : Nat) : Option (List Int) :=
  (zVarsScan st 0 [] fuel).map
    (fun l => l.filter (fun id => decide (CDFgetzVarName st (id - 1) = some (cstr s))))


/-! ## Day of year (`src/doy.c`) -/

abbrev INT_MAX : Int := 2147483647
abbrev INT_MIN : Int := -2147483648

/-- Source: `isleap`.  The operator `%` of C truncates towards zero (`Int.tmod`). -/
def isleap (year : Int) : Int :=
  if (year.tmod 4 = 0 ∧ year.tmod 100 ≠ 0) ∨ year.tmod 400 = 0 then 1 else 0

/-- Source: the table `days` of `doy`. -/
def days : List (List Int) :=
  [ [0, 0, 31, 59, 90, 120, 151, 181, 212, 243, 273, 304, 334],
    [0, 0, 31, 60, 91, 121, 152, 182, 213, 244, 274, 305, 335] ]

/-- Source: `doy`, on arguments that are values of the type `int`.  `none`: the index
`month` lies outside the row of the table, or the sum does not fit an `int`; both are
undefined behaviour in C. -/
def doy (year month day : Int) : Option Int :=
  match getAt (days.getD (isleap year).toNat []) month with
  | none => none
  | some before =>
    if INT_MIN ≤ before + day ∧ before + day ≤ INT_MAX then some (before + day) else none

/-- The leap rule of the calendar: divisible by 4 and not by 100, or divisible by 400. -/
def leapYear (y : Int) : Bool := decide ((4 ∣ y ∧ ¬ 100 ∣ y) ∨ 400 ∣ y)

/-- The number of days of month `m` (1..12), February having 29 days in a leap year. -/
def monthLength (leap : Bool) (m : Nat) : Int :=
  [31, if leap then 29 else 28, 31, 30, 31, 30, 31, 31, 30, 31, 30, 31].getD (m - 1) 0

/-- The total number of days of the months 1..m-1. -/
def daysBefore (leap : Bool) (m : Nat) : Int :=
  ((List.range (m - 1)).map (fun k => monthLength leap (k + 1))).sum


/-- The text that follows the first number in the rendering of dimension sizes: each
further size preceded by a comma. -/
def tailText : List Int → List Nat
  | [] => []
  | s :: l => 44 :: (fmtD s ++ tailText l)

/-- The value that the digit loop of `strtol` in base 10 accumulates over a run of digits. -/
def digitsValue (acc : Nat) (ds : List Nat) : Nat := ds.foldl (fun a c => a * 10 + (c - 48)) acc

/-- The arguments of the INSERT of the variable "t2" with the default type, 2 dimensions and
the dimension sizes "2,3". -/
def argsCreateMatrix : List SqlValue :=
  argsCreateVar txtT2 sqlNull sqlInt2 (sqlText [50, 44, 51]) sqlNull


/-! ## Notions used to state the dense scan of the global entry adapter -/

/-- The entries of an attribute are dense: with k the number of entries, every entry index
lies in 0..k-1 and has a positive element count, and every index of 0..k-1 has an entry. -/
def DenseEntries (x : Attr) : Prop :=
  (∀ p ∈ x.entries, 0 ≤ p.1 ∧ p.1 < (x.entries.length : Int) ∧ 0 < p.2.numElems)
  ∧ (∀ e : Int, 0 ≤ e → e < (x.entries.length : Int) → ∃ p ∈ x.entries, p.1 = e)

/-- Every global-scope attribute of the container has dense entries. -/
def DenseGlobal (st : Engine) : Prop :=
  ∀ x ∈ st.attrs, x.scope = GLOBAL_SCOPE → DenseEntries x

/-- The rows that the attribute with the 1-based id `a` contributes to a scan of the global
adapter: the pairs (a, e+1) for the entry indices e = 0..k-1 of a global attribute with k
entries, none for an attribute of another scope. -/
def attrRows (st : Engine) (a : Int) : List (Int × Int) :=
  match getAt st.attrs (a - 1) with
  | some x =>
    if x.scope = GLOBAL_SCOPE then
      (List.range x.entries.length).map (fun (e : Nat) => (a, (e : Int) + 1))
    else []
  | none => []

/-- The rows of the attributes with the ids a, a+1, ..., a+n-1, in that order. -/
def rowsFrom (st : Engine) : Nat → Int → List (Int × Int)
  | 0, _ => []
  | n + 1, a => attrRows st a ++ rowsFrom st n (a + 1)

/-- The rows of a whole container: for each attribute index in ascending order, the rows of
that attribute in ascending entry order, as (attribute id, entry id), both 1-based. -/
def denseRows (st : Engine) : List (Int × Int) := rowsFrom st st.attrs.length 1

/-- The cursor positions of consecutive rows, numbered from the row id `r`. -/
def numberRows : Int → List (Int × Int) → List CdfAttrEntriesCursor
  | _, [] => []
  | r, p :: l => ⟨r, p.1, p.2⟩ :: numberRows (r + 1) l

/-- The first attribute id at or after `a`, among `n` ids, that contributes a row; `a + n`
when there is none. -/
def firstGood (st : Engine) : Nat → Int → Int
  | 0, a => a
  | n + 1, a => if attrRows st a ≠ [] then a else firstGood st n (a + 1)

/-- The rows (a, e), (a, e+1), ..., (a, e+m-1) of one attribute. -/
def entryRun (a : Int) : Int → Nat → List (Int × Int)
  | _, 0 => []
  | e, m + 1 => (a, e) :: entryRun a (e + 1) m

/-- A container with the variable-scope attribute "V" (one entry), the global attribute
"E" without entries, the global attribute "A" with entries at the indices 0 and 1, and the
global attribute "B" with one entry at index 0. -/
def stDense : Engine :=
  ⟨[⟨txtTemp, CDF_REAL8, 1, [], [234, 140, 160, 57, 89, 62, 41, 198], []⟩],
   [⟨[86], VARIABLE_SCOPE, [entryAt 0]⟩, ⟨[69], GLOBAL_SCOPE, []⟩,
    ⟨[65], GLOBAL_SCOPE, [entryAt 0, entryAt 1]⟩, ⟨[66], GLOBAL_SCOPE, [entryAt 0]⟩],
   CDF_OK, []⟩


/-- The outcome of the INSERT of temp = 21.5 with a NULL for "vec" into `stTempVec`. -/
def outTempVecNull : Outcome :=
  ⟨some SQLITE_OK,
    ⟨[⟨txtTemp, CDF_REAL8, 1, [], [234, 140, 160, 57, 89, 62, 41, 198],
        [(0, [0, 0, 0, 0, 0, 128, 53, 64])]⟩,
      ⟨txtVec, CDF_INT4, 1, [2], [0, 0, 0, 0, 0, 0, 0, 0], []⟩], [], CDF_OK,
     [EngineCall.putzVarRecordData 0 0 [0, 0, 0, 0, 0, 128, 53, 64]]⟩, some 0⟩


/-! ## Theorems -/

theorem foldl_max_ge {α : Type} (f : α → Int) (l : List α) (init : Int) :
    init ≤ l.foldl (fun m x => max m (f x)) init := by
  induction l generalizing init with
  | nil => simp
  | cons x xs ih =>
    simp only [List.foldl_cons]
    exact le_trans (le_max_left _ _) (ih _)

theorem maxWrittenRecNum_ge (st : Engine) : -1 ≤ CDFgetzVarsMaxWrittenRecNum st :=
  foldl_max_ge (fun v => ZVar.maxWritten v) st.zvars (-1)

theorem zRecsScanFrom_rows (st : Engine) (d k : Nat) (r : Int)
    (h : r + (d : Int) = CDFgetzVarsMaxWrittenRecNum st + 2) :
    zRecsScanFrom st (d + 1 + k) ⟨r⟩ = some ((List.range d).map (fun (i : Nat) => r + (i : Int))) := by
  induction d generalizing r with
  | zero =>
    have e : 0 + 1 + k = k + 1 := by omega
    rw [e]
    simp only [zRecsScanFrom, cdfzRecsEof]
    have : r > CDFgetzVarsMaxWrittenRecNum st + 1 := by push_cast at h; omega
    simp [this]
  | succ d ih =>
    have e : d + 1 + 1 + k = (d + 1 + k) + 1 := by omega
    rw [e]
    simp only [zRecsScanFrom, cdfzRecsEof, cdfVTabNext]
    have hn : ¬ (r > CDFgetzVarsMaxWrittenRecNum st + 1) := by push_cast at h; omega
    have h2 : (r + 1) + (d : Int) = CDFgetzVarsMaxWrittenRecNum st + 2 := by push_cast at h; omega
    rw [ih (r + 1) h2]
    simp only [hn, decide_False, Bool.false_eq_true, if_false, Option.map_some']
    rw [List.range_succ_eq_map]
    simp only [List.map_cons, List.map_map]
    have e0 : r + ((0 : Nat) : Int) = r := by simp
    rw [e0]
    congr 2
    apply List.map_congr_left
    intro i _
    simp only [Function.comp]
    push_cast
    omega

theorem zRecsScanFrom_short (st : Engine) (d : Nat) (r : Int)
    (h : r + (d : Int) = CDFgetzVarsMaxWrittenRecNum st + 2) :
    zRecsScanFrom st d ⟨r⟩ = none := by
  induction d generalizing r with
  | zero => rfl
  | succ d ih =>
    simp only [zRecsScanFrom, cdfzRecsEof, cdfVTabNext]
    have hn : ¬ (r > CDFgetzVarsMaxWrittenRecNum st + 1) := by push_cast at h; omega
    have h2 : (r + 1) + (d : Int) = CDFgetzVarsMaxWrittenRecNum st + 2 := by push_cast at h; omega
    rw [ih (r + 1) h2]
    simp [hn]

/-- C4: with M the largest written record index over all variables (M = -1 when nothing
was written), `cdfzRecsFilter` applied to any cursor, fresh or used, followed by the loop of
`cdfzRecsEof` and `cdfVTabNext`, visits the record numbers 1, 2, ..., M+1 in increasing
order, each once (no row when M = -1), and ends after exactly M+1 rows: the scan has not
ended after M+1 end-of-scan tests and has ended at the next one. -/
theorem zRecsScan_visits_one_to_max (st : Engine) (cp : CdfzVarsRecCursor) (k : Nat) :
    -1 ≤ CDFgetzVarsMaxWrittenRecNum st
    ∧ zRecsScanFrom st ((CDFgetzVarsMaxWrittenRecNum st + 1).toNat + 1 + k) (cdfzRecsFilter cp)
        = some ((List.range (CDFgetzVarsMaxWrittenRecNum st + 1).toNat).map
            (fun (i : Nat) => 1 + (i : Int)))
    ∧ ((List.range (CDFgetzVarsMaxWrittenRecNum st + 1).toNat).map
            (fun (i : Nat) => 1 + (i : Int))).length = (CDFgetzVarsMaxWrittenRecNum st + 1).toNat
    ∧ zRecsScanFrom st (CDFgetzVarsMaxWrittenRecNum st + 1).toNat (cdfzRecsFilter cp) = none
    ∧ zRecsScan st ((CDFgetzVarsMaxWrittenRecNum st + 1).toNat + 1 + k)
        = some ((List.range (CDFgetzVarsMaxWrittenRecNum st + 1).toNat).map
            (fun (i : Nat) => 1 + (i : Int)))
    ∧ zRecsScan st (CDFgetzVarsMaxWrittenRecNum st + 1).toNat = none := by
  have hM := maxWrittenRecNum_ge st
  have h : (1 : Int) + (((CDFgetzVarsMaxWrittenRecNum st + 1).toNat : Nat) : Int)
      = CDFgetzVarsMaxWrittenRecNum st + 2 := by
    rw [Int.toNat_of_nonneg (by omega)]; omega
  refine ⟨hM, ?_, by rw [List.length_map, List.length_range], ?_, ?_, ?_⟩
  · exact zRecsScanFrom_rows st _ k 1 h
  · exact zRecsScanFrom_short st _ 1 h
  · exact zRecsScanFrom_rows st _ k 1 h
  · exact zRecsScanFrom_short st _ 1 h

/-- C1 (evaluation at the failing input): on a container with one scalar REAL8 variable
and no record, the INSERT of record number 1 with the value 21.5 succeeds and reports row
id 1, but puts the value at engine record index 1, so that the next scan has two rows:
record 1 reads the pad value and record 2 reads 21.5. -/
theorem zRecs_insert_record_one_lands_on_row_two :
    (cdfzRecsUpdate (cdfzRecsConnect stTemp 'w') stTemp (argsInsertRec sqlInt1 sqlReal21_5)).map
      (fun o => (o.rc, o.rowid, o.eng.log,
        zRecsScanRows (cdfzRecsConnect o.eng 'w') o.eng 10))
    = some (some SQLITE_OK, some 1,
        [EngineCall.putzVarRecordData 0 1 [0, 0, 0, 0, 0, 128, 53, 64]],
        some [ [some (SQLITE_OK, .val (.int64 1)),
                some (SQLITE_OK, .val (.double 14279012646494702826))],
               [some (SQLITE_OK, .val (.int64 2)),
                some (SQLITE_OK, .val (.double 4626744929681408000))] ]) := by
  rfl

/-- C2 (evaluation at the failing input): for an attribute whose only entries are at the
indices 0, 3 and 7, the full scan of the global adapter and of the variable adapter yields
six rows, at the entry ids 1, 4, 5, 6, 7, 8; the rows 3, 4 and 5 stand on the absent
entries 4, 5 and 6. -/
theorem attrEntries_sparse_scan_six_rows :
    scanTriples (attrScan GLOBAL_SCOPE (stSparse GLOBAL_SCOPE) 20)
      = some ([(1, 1, 1), (2, 1, 4), (3, 1, 5), (4, 1, 6), (5, 1, 7), (6, 1, 8)], SQLITE_OK)
    ∧ scanTriples (attrScan VARIABLE_SCOPE (stSparse VARIABLE_SCOPE) 20)
      = some ([(1, 1, 1), (2, 1, 4), (3, 1, 5), (4, 1, 6), (5, 1, 7), (6, 1, 8)], SQLITE_OK)
    ∧ entryIndices (stSparse GLOBAL_SCOPE) = [[0, 3, 7]]
    ∧ (List.range 8).map (fun i =>
          getAttrEntryNumElements GLOBAL_SCOPE (stSparse GLOBAL_SCOPE) 0 (i : Int))
        = [some 1, none, none, some 1, none, none, none, some 1] := by
  refine ⟨by rfl, by rfl, by rfl, by rfl⟩

/-- C3 (evaluation at the failing input): whatever the row id, the delete branch hands the
pair (attribute 0, entry 0) to the delete-entry primitive.  For the attribute with entries
at 0, 3 and 7, deleting row id 2 (shown for entry index 3) deletes entry 0 and leaves the
entries 3 and 7; and where row 1 of the scan is (attribute 1, entry 0), deleting row id 1
calls the primitive on (attribute 0, entry 0). -/
theorem attrEntries_delete_always_targets_first_pair :
    (∀ (sc : Int) (st : Engine) (rowid : Int), deleteTarget sc st rowid = (0, 0))
    ∧ (cdfAttrgEntriesUpdate 'w' (stSparse GLOBAL_SCOPE) [sqlInt2]).map
        (fun o => (o.eng.log, entryIndices o.eng))
      = some ([EngineCall.deleteAttrgEntry 0 0], [[3, 7]])
    ∧ (cdfAttrzEntriesUpdate 'w' (stSparse VARIABLE_SCOPE) [sqlInt2]).map
        (fun o => (o.eng.log, entryIndices o.eng))
      = some ([EngineCall.deleteAttrzEntry 0 0], [[3, 7]])
    ∧ scanTriples (attrScan GLOBAL_SCOPE stTwoAttrs 20) = some ([(1, 2, 1)], SQLITE_OK)
    ∧ (cdfAttrgEntriesUpdate 'w' stTwoAttrs [sqlInt1]).map
        (fun o => (o.eng.log, entryIndices o.eng))
      = some ([EngineCall.deleteAttrgEntry 0 0], [[], [0]]) := by
  refine ⟨?_, by rfl, by rfl, by rfl, by rfl⟩
  intro sc st rowid
  have h : ∀ (n : Nat) (a e : Int), deleteWalk sc st n a e = (a, e) := by
    intro n
    induction n with
    | zero => intro a e; rfl
    | succ n ih => intro a e; simp only [deleteWalk, attrentry_next]; exact ih a e
  simp only [deleteTarget, h]
  rfl

/-- C7 (evaluation at the failing input): after the insert of "Mission X" into the global
attribute "Title" and the update of that row to "Mission Y", the element-count column
reads 9 and the value column reads a text of 10 bytes, "Mission Y" followed by a NUL
byte. -/
theorem gEntry_text_reads_back_with_trailing_nul :
    ((cdfAttrgEntriesUpdate 'w' stTitle (argsInsertEntry txtTitle (sqlText txtMissionX))).bind
      (fun o1 => (cdfAttrgEntriesUpdate 'w' o1.eng (argsUpdateEntry (sqlText txtMissionY))).map
        (fun o2 => (o1.rc, o2.rc,
          scanTriples (attrScan GLOBAL_SCOPE o2.eng 20),
          cdfAttrgEntriesColumn o2.eng ⟨1, 1, 1⟩ 4,
          cdfAttrgEntriesColumn o2.eng ⟨1, 1, 1⟩ 5))))
    = some (some SQLITE_OK, some SQLITE_OK, some ([(1, 1, 1)], SQLITE_OK),
        some (SQLITE_OK, .val (.int64 9)),
        some (SQLITE_OK, .val (.text [77, 105, 115, 115, 105, 111, 110, 32, 89, 0]))) := by
  rfl

/-- C9 (evaluation at the failing input): in the read-only-borrowed mode 's' the attribute
catalog's mutation entry point deletes the attribute, and in the read-only mode 'r' it
returns the generic error code, which is not the read-only code. -/
theorem cdfAttrsUpdate_ignores_borrowed_read_only :
    cdfAttrsUpdate ⟨'s'⟩ stTitle [sqlInt1]
      = some ⟨none, ⟨[], [], CDF_OK, [EngineCall.deleteAttr 0]⟩, none⟩
    ∧ cdfAttrsUpdate ⟨'r'⟩ stTitle [sqlInt1] = some ⟨some SQLITE_ERROR, stTitle, none⟩
    ∧ SQLITE_ERROR ≠ SQLITE_READONLY := by
  refine ⟨by rfl, by rfl, by decide⟩

/-- C10 (evaluation at the failing input): `cdfFileConnect` accepts the mode argument `''`
(two quote characters), whose dequoted text is empty, and takes the NUL character as the
mode of the table that owns the handle; for a table with that mode `cdf_close` does not
call the engine's close primitive and returns `SQLITE_OK`. -/
theorem cdf_close_skips_nul_mode :
    cdfFileMode [Char.ofNat 39, Char.ofNat 39] = some (Char.ofNat 0)
    ∧ ∀ st : Engine, cdf_close ⟨Char.ofNat 0⟩ st = (SQLITE_OK, st) := by
  refine ⟨by rfl, ?_⟩
  intro st
  rfl

theorem putAttrEntry_ok (sc : Int) (st st1 : Engine) (a e t n : Int) (buf : List Nat)
    (h : putAttrEntry sc st a e t n buf = some (CDF_OK, st1)) :
    ∃ x data, getAt st.attrs a = some x ∧ x.scope = sc ∧
      st1 = { st with
        attrs := st.attrs.set a.toNat
          { x with entries := (e, ⟨t, n, data⟩) :: x.entries.filter (fun p => decide (p.1 ≠ e)) },
        log := st.log ++ [putEntryCall sc a e t n data] } := by
  unfold putAttrEntry at h
  cases hx : getAt st.attrs a with
  | none => simp [hx] at h
  | some x =>
    simp only [hx] at h
    split at h
    · simp at h
    · rename_i hc
      cases ht : takeBytes (cdf_elsize t * n) buf with
      | none => simp [ht] at h
      | some data =>
        simp only [ht, Option.some.injEq, Prod.mk.injEq, true_and] at h
        refine ⟨x, data, rfl, ?_, h.symm⟩
        by_contra hne
        exact hc (Or.inl hne)

theorem getAt_set_self {α : Type} (l : List α) (a : Int) (x y : α) (h : getAt l a = some x) :
    getAt (l.set a.toNat y) a = some y := by
  unfold getAt at h ⊢
  split at h
  · simp at h
  · rename_i hneg
    simp only [hneg, if_false]
    have hlt : a.toNat < l.length := by
      by_contra hc
      rw [List.getElem?_eq_none (by omega)] at h
      simp at h
    simp [List.getElem?_set, hlt]

theorem attrEntry_after_put (sc : Int) (st st1 : Engine) (a e t n : Int) (buf : List Nat)
    (h : putAttrEntry sc st a e t n buf = some (CDF_OK, st1)) :
    ∃ data, st1.log = st.log ++ [putEntryCall sc a e t n data]
      ∧ attrEntry sc st1 a e = some ⟨t, n, data⟩ := by
  obtain ⟨x, data, hx, hsc, rfl⟩ := putAttrEntry_ok sc st st1 a e t n buf h
  refine ⟨data, rfl, ?_⟩
  simp only [attrEntry, attrEntries, getAt_set_self st.attrs a x _ hx, hsc, if_true]
  simp

theorem sqlitetype_text_valfuncid (c : Int) (h : cdf_sqlitetype c = SQLITE_TEXT) :
    cdf_valfuncid c = 2 := by
  unfold cdf_sqlitetype at h
  unfold cdf_valfuncid
  split at h
  · simp at h
  · split at h
    · simp at h
    · split at h
      · rename_i h3
        rcases h3 with h3 | h3 <;> subst h3 <;> decide
      · split at h <;> simp at h

theorem attrentfunc_ok (sc : Int) (f : Int) (val : SqlValue) (st st1 : Engine)
    (attrid entryid numelems : Int)
    (h : attrentfunc sc f val st attrid entryid numelems = some (CDF_OK, st1))
    (hf : f = 2 ∨ numelems = 1) :
    ∃ t buf, putAttrEntry sc st (attrid - 1) (entryid - 1) t numelems buf = some (CDF_OK, st1) := by
  unfold attrentfunc at h
  split at h
  · have hn : numelems = 1 := by rcases hf with hf | hf <;> [omega; exact hf]
    subst hn
    exact ⟨_, _, h⟩
  · split at h
    · have hn : numelems = 1 := by rcases hf with hf | hf <;> [omega; exact hf]
      subst hn
      exact ⟨_, _, h⟩
    · split at h
      · exact ⟨_, _, h⟩
      · split at h
        · have hn : numelems = 1 := by rcases hf with hf | hf <;> [omega; exact hf]
          subst hn
          unfold attrent_float_2cdf at h
          split at h
          · split at h
            · simp at h
            · exact ⟨_, _, h⟩
          · exact ⟨_, _, h⟩
        · split at h
          · have hn : numelems = 1 := by rcases hf with hf | hf <;> [omega; exact hf]
            subst hn
            unfold attrent_epoch_2cdf at h
            split at h
            · simp at h
            · exact ⟨_, _, h⟩
          · simp at h

theorem attrEntryWrite_ok (sc : Int) (st : Engine) (argv : List SqlValue)
    (attrid entryid cdftype numelems : Int) (out : Outcome)
    (h : attrEntryWrite sc st argv attrid entryid cdftype numelems = some out)
    (hok : out.rc = some SQLITE_OK) :
    ∃ t buf, putAttrEntry sc st (attrid - 1) (entryid - 1) t numelems buf
      = some (CDF_OK, out.eng) := by
  unfold attrEntryWrite at h
  simp only [Option.map_eq_some'] at h
  obtain ⟨⟨status, st1⟩, hr, hout⟩ := h
  have hst : status = CDF_OK ∧ out.eng = st1 := by
    by_cases hs : status = CDF_OK
    · simp [hs] at hout
      exact ⟨hs, by rw [← hout]⟩
    · simp [hs] at hout
      rw [← hout] at hok
      simp at hok
  obtain ⟨hs, he⟩ := hst
  subst hs
  rw [he]
  split at hr
  · rename_i hc
    apply attrentfunc_ok sc _ _ st st1 attrid entryid numelems hr
    rcases hc with hc | hc
    · exact Or.inl (sqlitetype_text_valfuncid cdftype hc)
    · exact Or.inr hc.2
  · split at hr
    · simp at hr
    · exact ⟨_, _, hr⟩

theorem attrent_upd_pars_text_count (argv : List SqlValue)
    (h : (attrent_upd_pars argv).1 = SQLITE_OK) (ht : (arg argv 7).vtype = SQLITE_TEXT) :
    (attrent_upd_pars argv).2.2 = strnlen (arg argv 7).bytes 1025 := by
  unfold attrent_upd_pars at h ⊢
  generalize attrent_upd_type argv = ty at h ⊢
  simp only [ht] at h ⊢
  split at h
  · simp at h
  · rename_i h1
    simp only [h1, if_false, if_true] at h ⊢
    split at h
    · simp at h
    · rename_i h2
      simp only [h2, if_false]

/-- When the global entry adapter writes an entry successfully for a call
whose entry number is NULL or non-positive, and m is the largest entry index of the
resolved attribute (m = -1 without entries), the one engine call made is a put-entry at
entry index m+1, that is at the 1-based entry number m+2, and the entry is there
afterwards; for a TEXT value the element count written is `strnlen(text, 1025)`, the
string length capped at 1025. -/
theorem gEntry_insert_next_free_slot (mode : Char) (st : Engine) (argv : List SqlValue)
    (out : Outcome) (hargc : argv.length ≠ 1) (hent : (arg argv 4).int64 ≤ 0)
    (h : cdfAttrgEntriesUpdate mode st argv = some out) (hok : out.rc = some SQLITE_OK) :
    ∃ m t n data,
      getAttrMaxEntry GLOBAL_SCOPE st ((attrent_upd_id st argv).2 - 1) = some m
      ∧ out.eng.log
          = st.log ++ [EngineCall.putAttrgEntry ((attrent_upd_id st argv).2 - 1) (m + 1) t n data]
      ∧ attrEntry GLOBAL_SCOPE out.eng ((attrent_upd_id st argv).2 - 1) (m + 1)
          = some ⟨t, n, data⟩
      ∧ ((arg argv 7).vtype = SQLITE_TEXT → n = strnlen (arg argv 7).bytes 1025) := by
  unfold cdfAttrgEntriesUpdate at h
  split at h
  · simp at h; rw [← h] at hok; simp at hok
  · simp only [hargc, if_false] at h
    split at h
    · rename_i hid
      simp at h; rw [← h] at hok; simp at hok; exact absurd hok hid
    · cases hsc : CDFgetAttrScope st ((attrent_upd_id st argv).2 - 1) with
      | none => simp [hsc] at h
      | some scope =>
        simp only [hsc] at h
        split at h
        · simp at h; rw [← h] at hok; simp at hok
        · cases hmx : getAttrMaxEntry GLOBAL_SCOPE st ((attrent_upd_id st argv).2 - 1) with
          | none => simp [hmx] at h
          | some m =>
            simp only [hmx] at h
            split at h
            · simp at h; rw [← h] at hok; simp at hok
            · split at h
              · rename_i hp
                simp at h; rw [← h] at hok; simp at hok; exact absurd hok hp
              · rename_i hp
                obtain ⟨t, buf, hput⟩ := attrEntryWrite_ok _ _ _ _ _ _ _ _ h hok
                have e1 : m + 2 - 1 = m + 1 := by omega
                rw [e1] at hput
                obtain ⟨data, hlog, hentry⟩ := attrEntry_after_put _ _ _ _ _ _ _ _ hput
                refine ⟨m, t, _, data, rfl, ?_, hentry, ?_⟩
                · rw [hlog]; rfl
                · intro htext
                  apply attrent_upd_pars_text_count argv _ htext
                  simpa using hp

set_option maxRecDepth 100000 in
/-- C6 (failing input): the insert of a TEXT value of 1026 bytes into the global attribute
"Title", without an element count, succeeds and writes the entry with element count 1025,
which is not the string length 1026: `attrent_upd_pars` takes the count from
`strnlen(text, 1025)` and does not test whether the cap was reached. -/
theorem gEntry_long_text_count_is_capped :
    (cdfAttrgEntriesUpdate 'w' stTitle
        (argsInsertEntry txtTitle (sqlText (List.replicate 1026 65)))).map
      (fun o => (o.rc, o.eng.attrs.map (fun a => a.entries.map (fun p => (p.1, p.2.numElems)))))
      = some (some SQLITE_OK, [[(0, 1025)]])
    ∧ (cstr (List.replicate 1026 65)).length = 1026
    ∧ (1025 : Int) ≠ ((cstr (List.replicate 1026 65)).length : Int) := by
  refine ⟨by rfl, by rfl, by decide⟩

/-- Inserting "Mission X" under the empty global attribute "Title" creates
the entry at entry index 0 (entry number 1) with element count 9. -/
theorem gEntry_insert_next_free_slot_witness :
    cdfAttrgEntriesUpdate 'w' stTitle (argsInsertEntry txtTitle (sqlText txtMissionX))
      = some outMissionX
    ∧ attrEntry GLOBAL_SCOPE outMissionX.eng 0 0 = some ⟨CDF_CHAR, 9, txtMissionX⟩
    ∧ ∃ m t n data,
      getAttrMaxEntry GLOBAL_SCOPE stTitle
          ((attrent_upd_id stTitle (argsInsertEntry txtTitle (sqlText txtMissionX))).2 - 1)
        = some m
      ∧ outMissionX.eng.log = stTitle.log ++ [EngineCall.putAttrgEntry
          ((attrent_upd_id stTitle (argsInsertEntry txtTitle (sqlText txtMissionX))).2 - 1)
          (m + 1) t n data]
      ∧ attrEntry GLOBAL_SCOPE outMissionX.eng
          ((attrent_upd_id stTitle (argsInsertEntry txtTitle (sqlText txtMissionX))).2 - 1)
          (m + 1) = some ⟨t, n, data⟩
      ∧ ((arg (argsInsertEntry txtTitle (sqlText txtMissionX)) 7).vtype = SQLITE_TEXT →
          n = strnlen (arg (argsInsertEntry txtTitle (sqlText txtMissionX)) 7).bytes 1025) :=
  ⟨by rfl, by rfl,
    gEntry_insert_next_free_slot 'w' stTitle
      (argsInsertEntry txtTitle (sqlText txtMissionX)) outMissionX
      (by decide) (by decide) (by rfl) (by rfl)⟩

/-- C8: for an insert or update (argc other than 1) whose attribute resolves
(`attrent_upd_id` succeeds): if the resolved attribute has global scope, the variable-scope
adapter returns an error code and leaves the engine untouched (no put-entry call is
logged); if it has variable scope, the global-scope adapter does. -/
theorem entry_update_rejects_scope_mismatch (mode : Char) (st : Engine) (argv : List SqlValue)
    (hargc : argv.length ≠ 1) (hid : (attrent_upd_id st argv).1 = SQLITE_OK) :
    (CDFgetAttrScope st ((attrent_upd_id st argv).2 - 1) = some GLOBAL_SCOPE →
      ∃ rc, cdfAttrzEntriesUpdate mode st argv = some ⟨some rc, st, none⟩ ∧ rc ≠ SQLITE_OK)
    ∧ (CDFgetAttrScope st ((attrent_upd_id st argv).2 - 1) = some VARIABLE_SCOPE →
      ∃ rc, cdfAttrgEntriesUpdate mode st argv = some ⟨some rc, st, none⟩ ∧ rc ≠ SQLITE_OK) := by
  constructor
  · intro hs
    unfold cdfAttrzEntriesUpdate
    by_cases hm : strchr [ 'r', 's' ] mode = true
    · exact ⟨SQLITE_READONLY, by simp [hm], by decide⟩
    · refine ⟨SQLITE_ERROR, ?_, by decide⟩
      simp [hm, hargc, hid, hs]
  · intro hs
    unfold cdfAttrgEntriesUpdate
    by_cases hm : strchr [ 'r', 's' ] mode = true
    · exact ⟨SQLITE_READONLY, by simp [hm], by decide⟩
    · refine ⟨SQLITE_ERROR, ?_, by decide⟩
      simp [hm, hargc, hid, hs]


/-- C8 (witness): in a container with the global attribute "G" and the variable-scope
attribute "V", inserting under "G" through the variable adapter and under "V" through the
global adapter both fail and leave the engine as it was. -/
theorem entry_update_rejects_scope_mismatch_witness :
    ((attrent_upd_id stScopes (argsInsertEntry [71] (sqlText txtMissionX))).1 = SQLITE_OK
      ∧ CDFgetAttrScope stScopes
          ((attrent_upd_id stScopes (argsInsertEntry [71] (sqlText txtMissionX))).2 - 1)
          = some GLOBAL_SCOPE
      ∧ ∃ rc, cdfAttrzEntriesUpdate 'w' stScopes (argsInsertEntry [71] (sqlText txtMissionX))
          = some ⟨some rc, stScopes, none⟩ ∧ rc ≠ SQLITE_OK)
    ∧ ((attrent_upd_id stScopes (argsInsertEntry [86] (sqlText txtMissionX))).1 = SQLITE_OK
      ∧ CDFgetAttrScope stScopes
          ((attrent_upd_id stScopes (argsInsertEntry [86] (sqlText txtMissionX))).2 - 1)
          = some VARIABLE_SCOPE
      ∧ ∃ rc, cdfAttrgEntriesUpdate 'w' stScopes (argsInsertEntry [86] (sqlText txtMissionX))
          = some ⟨some rc, stScopes, none⟩ ∧ rc ≠ SQLITE_OK) :=
  ⟨⟨by decide, by decide,
      (entry_update_rejects_scope_mismatch 'w' stScopes
        (argsInsertEntry [71] (sqlText txtMissionX)) (by decide) (by decide)).1 (by decide)⟩,
   ⟨by decide, by decide,
      (entry_update_rejects_scope_mismatch 'w' stScopes
        (argsInsertEntry [86] (sqlText txtMissionX)) (by decide) (by decide)).2 (by decide)⟩⟩

theorem ExtendsAt.refl (r : Int) (st : Engine) : ExtendsAt r st st := by
  refine ⟨rfl, rfl, rfl, ?_, ⟨[], by simp, by simp⟩⟩
  intro i v hv
  exact ⟨[], by simpa using hv, by simp⟩

theorem ExtendsAt.trans {r : Int} {a b c : Engine} (h1 : ExtendsAt r a b) (h2 : ExtendsAt r b c) :
    ExtendsAt r a c := by
  obtain ⟨ha, hc, hl, hv, p1, hp1, hq1⟩ := h1
  obtain ⟨ha2, hc2, hl2, hv2, p2, hp2, hq2⟩ := h2
  refine ⟨ha2.trans ha, hc2.trans hc, hl2.trans hl, ?_, ⟨p1 ++ p2, ?_, ?_⟩⟩
  · intro i v hi
    obtain ⟨e1, he1, hall1⟩ := hv i v hi
    obtain ⟨e2, he2, hall2⟩ := hv2 i _ he1
    refine ⟨e2 ++ e1, ?_, ?_⟩
    · rw [he2]; simp [List.append_assoc]
    · intro p hp
      rcases List.mem_append.mp hp with hp | hp
      · exact hall2 p hp
      · exact hall1 p hp
  · rw [hp2, hp1, List.append_assoc]
  · intro x hx
    rcases List.mem_append.mp hx with hx | hx
    · exact hq1 x hx
    · exact hq2 x hx

theorem getAt_some_iff {α : Type} (l : List α) (k : Int) (x : α) :
    getAt l k = some x ↔ 0 ≤ k ∧ l[k.toNat]? = some x := by
  unfold getAt
  split
  · constructor
    · intro h; simp at h
    · intro h; omega
  · constructor
    · intro h; exact ⟨by omega, h⟩
    · intro h; exact h.2

theorem putzVarRecordData_spec (st st1 : Engine) (k r : Int) (buf : List Nat) (s : Int)
    (h : CDFputzVarRecordData st k r buf = some (s, st1)) :
    ExtendsAt r st st1 ∧ (s = CDF_OK ∨ s = CDF_ERR) ∧ (s = CDF_OK → hasRec st1 k r) := by
  unfold CDFputzVarRecordData at h
  have hfail : ∀ st2, st2 = st.logCall (.putzVarRecordData k r []) → ExtendsAt r st st2 := by
    intro st2 h2
    subst h2
    refine ⟨rfl, rfl, rfl, ?_, ⟨[.putzVarRecordData k r []], rfl, ?_⟩⟩
    · intro i v hv
      exact ⟨[], by simpa [Engine.logCall] using hv, by simp⟩
    · intro c hc
      simp at hc
      exact ⟨k, [], hc⟩
  cases hx : getAt st.zvars k with
  | none =>
    simp only [hx, Option.some.injEq, Prod.mk.injEq] at h
    obtain ⟨hs, he⟩ := h
    exact ⟨hfail _ he.symm, Or.inr hs.symm, by intro h0; rw [← hs] at h0; simp at h0⟩
  | some v =>
    simp only [hx] at h
    split at h
    · simp only [Option.some.injEq, Prod.mk.injEq] at h
      obtain ⟨hs, he⟩ := h
      exact ⟨hfail _ he.symm, Or.inr hs.symm, by intro h0; rw [← hs] at h0; simp at h0⟩
    · cases ht : takeBytes v.recordBytes buf with
      | none => simp [ht] at h
      | some data =>
        simp only [ht, Option.some.injEq, Prod.mk.injEq] at h
        obtain ⟨hs, he⟩ := h
        obtain ⟨hk0, hkv⟩ := (getAt_some_iff _ _ _).mp hx
        have hlt : k.toNat < st.zvars.length := by
          by_contra hc
          rw [List.getElem?_eq_none (by omega)] at hkv
          simp at hkv
        subst he
        refine ⟨⟨rfl, rfl, by simp, ?_, ⟨[.putzVarRecordData k r data], rfl, ?_⟩⟩,
          Or.inl hs.symm, ?_⟩
        · intro i w hw
          by_cases hik : k.toNat = i
          · subst hik
            rw [hkv] at hw
            cases hw
            exact ⟨[(r, data)], by simp [List.getElem?_set, hlt], by simp⟩
          · exact ⟨[], by simp [List.getElem?_set, hik, hw], by simp⟩
        · intro c hc
          simp at hc
          exact ⟨k, data, hc⟩
        · intro _
          refine ⟨{ v with recs := (r, data) :: v.recs }, data, ?_, by simp⟩
          rw [getAt_some_iff]
          exact ⟨hk0, by simp [List.getElem?_set, hlt]⟩

theorem hasRec_of_extends {r : Int} {a b : Engine} (h : ExtendsAt r a b) (k r2 : Int)
    (hr : hasRec a k r2) : hasRec b k r2 := by
  obtain ⟨v, d, hv, hd⟩ := hr
  obtain ⟨hk0, hkv⟩ := (getAt_some_iff _ _ _).mp hv
  obtain ⟨extra, he, _⟩ := h.2.2.2.1 _ _ hkv
  exact ⟨_, d, (getAt_some_iff _ _ _).mpr ⟨hk0, he⟩, by simp [hd]⟩

theorem valfunc_spec (vt : Int) (a : SqlValue) (st st1 : Engine) (kz kr s : Int)
    (h : valfunc vt a st kz kr = some (s, st1)) :
    ExtendsAt kr st st1 ∧ (s = CDF_OK → hasRec st1 kz kr) := by
  have hp : ∀ buf, CDFputzVarRecordData st kz kr buf = some (s, st1) →
      ExtendsAt kr st st1 ∧ (s = CDF_OK → hasRec st1 kz kr) := by
    intro buf hb
    have := putzVarRecordData_spec st st1 kz kr buf s hb
    exact ⟨this.1, this.2.2⟩
  have herr : (some (SQLITE_ERROR, st) : Option (Int × Engine)) = some (s, st1) →
      ExtendsAt kr st st1 ∧ (s = CDF_OK → hasRec st1 kz kr) := by
    intro he
    simp only [Option.some.injEq, Prod.mk.injEq] at he
    obtain ⟨hs, hst⟩ := he
    subst hst
    exact ⟨ExtendsAt.refl kr st, by intro h0; rw [← hs] at h0; simp at h0⟩
  unfold valfunc at h
  split at h
  · exact hp _ h
  · split at h
    · exact hp _ h
    · split at h
      · exact hp _ h
      · split at h
        · unfold value_float_2cdf at h
          split at h
          · split at h
            · exact herr h
            · exact hp _ h
          · exact hp _ h
        · split at h
          · unfold value_epoch_2cdf at h
            split at h
            · exact herr h
            · exact hp _ h
          · simp at h

theorem rcOfStatus_spec (kr kz : Int) (st : Engine) (r : Option (Int × Engine)) (rc : Int)
    (st1 : Engine)
    (hr : ∀ s st2, r = some (s, st2) → ExtendsAt kr st st2 ∧ (s = CDF_OK → hasRec st2 kz kr))
    (h : rcOfStatus r = some (rc, st1)) :
    ExtendsAt kr st st1 ∧ (rc = SQLITE_OK → hasRec st1 kz kr) := by
  cases r with
  | none => simp [rcOfStatus] at h
  | some x =>
    obtain ⟨s, st2⟩ := x
    simp only [rcOfStatus, Option.map_some'] at h
    obtain ⟨he, hh⟩ := hr s st2 rfl
    split at h
    · simp only [Option.some.injEq, Prod.mk.injEq] at h
      obtain ⟨h1, h2⟩ := h
      subst h2
      exact ⟨he, by intro h0; rw [← h1] at h0; simp at h0⟩
    · rename_i hs
      simp only [Option.some.injEq, Prod.mk.injEq] at h
      obtain ⟨_, h2⟩ := h
      subst h2
      exact ⟨he, fun _ => hh (by simpa using hs)⟩

theorem zRecsPutOne_spec (vp : CdfzVarsRecords) (argv : List SqlValue) (kr k : Int)
    (st st1 : Engine) (rc : Int) (h : zRecsPutOne vp argv kr k st = some (rc, st1)) :
    ExtendsAt kr st st1 ∧ (rc = SQLITE_OK → supplied argv k → hasRec st1 k kr) := by
  unfold zRecsPutOne at h
  simp only at h
  split at h
  · rename_i hskip
    simp only [Option.some.injEq, Prod.mk.injEq] at h
    obtain ⟨_, h2⟩ := h
    subst h2
    refine ⟨ExtendsAt.refl kr st, ?_⟩
    intro _ hsup
    exfalso
    rcases hskip with hs | hs
    · rw [hsup.1] at hs; simp at hs
    · exact hsup.2 hs
  · have herr : (some (SQLITE_ERROR, st) : Option (Int × Engine)) = some (rc, st1) →
        ExtendsAt kr st st1 ∧ (rc = SQLITE_OK → supplied argv k → hasRec st1 k kr) := by
      intro he
      simp only [Option.some.injEq, Prod.mk.injEq] at he
      obtain ⟨hs, hst⟩ := he
      subst hst
      exact ⟨ExtendsAt.refl kr st, by intro h0; rw [← hs] at h0; simp at h0⟩
    split at h
    · split at h
      · split at h
        · simp at h
        · split at h
          · exact herr h
          · rename_i valtype _ _
            have := rcOfStatus_spec kr k st (valfunc valtype (arg argv (k + 3)) st k kr) rc st1
              (fun s st2 hs => valfunc_spec _ _ _ _ _ _ _ hs) h
            exact ⟨this.1, fun h0 _ => this.2 h0⟩
      · split at h
        · simp at h
        · split at h
          · have := rcOfStatus_spec kr k st _ rc st1
              (fun s st2 hs => by
                have := putzVarRecordData_spec st st2 k kr _ s hs
                exact ⟨this.1, this.2.2⟩) h
            exact ⟨this.1, fun h0 _ => this.2 h0⟩
          · split at h
            · exact herr h
            · have := rcOfStatus_spec kr k st _ rc st1
                (fun s st2 hs => by
                  have := putzVarRecordData_spec st st2 k kr _ s hs
                  exact ⟨this.1, this.2.2⟩) h
              exact ⟨this.1, fun h0 _ => this.2 h0⟩
    · simp at h

theorem zRecsPutLoop_spec (vp : CdfzVarsRecords) (argv : List SqlValue) (kr : Int) (n : Nat) :
    ∀ (k : Int) (st st1 : Engine) (rc : Int),
      zRecsPutLoop vp argv kr n k st = some (rc, st1) →
      ExtendsAt kr st st1
      ∧ (rc = SQLITE_OK → ∀ j, k ≤ j → j < k + n → supplied argv j → hasRec st1 j kr) := by
  induction n with
  | zero =>
    intro k st st1 rc h
    simp only [zRecsPutLoop, Option.some.injEq, Prod.mk.injEq] at h
    obtain ⟨_, h2⟩ := h
    subst h2
    exact ⟨ExtendsAt.refl kr st, by intro _ j h1 h2; exfalso; push_cast at h2; omega⟩
  | succ n ih =>
    intro k st st1 rc h
    simp only [zRecsPutLoop] at h
    cases hone : zRecsPutOne vp argv kr k st with
    | none => simp [hone] at h
    | some x =>
      obtain ⟨rc1, st2⟩ := x
      simp only [hone] at h
      obtain ⟨he1, hh1⟩ := zRecsPutOne_spec vp argv kr k st st2 rc1 hone
      split at h
      · rename_i hrc
        simp only [Option.some.injEq, Prod.mk.injEq] at h
        obtain ⟨h1, h2⟩ := h
        subst h2
        exact ⟨he1, by intro h0; rw [← h1] at h0; exact absurd h0 hrc⟩
      · rename_i hrc
        obtain ⟨he2, hh2⟩ := ih (k + 1) st2 st1 rc h
        refine ⟨he1.trans he2, ?_⟩
        intro h0 j hj1 hj2 hsup
        by_cases hjk : j = k
        · subst hjk
          exact hasRec_of_extends he2 _ _ (hh1 (by simpa using hrc) hsup)
        · exact hh2 h0 j (by omega) (by push_cast at hj2 ⊢; omega) hsup

theorem foldl_max_le_iff {α : Type} (f : α → Int) (l : List α) (init X : Int) :
    l.foldl (fun m x => max m (f x)) init ≤ X ↔ init ≤ X ∧ ∀ x ∈ l, f x ≤ X := by
  induction l generalizing init with
  | nil => simp
  | cons y ys ih =>
    simp only [List.foldl_cons, ih, max_le_iff, List.mem_cons, forall_eq_or_imp]
    tauto

theorem rec_le_maxWritten (st : Engine) (i : Nat) (v : ZVar) (hv : st.zvars[i]? = some v)
    (p : Int × List Nat) (hp : p ∈ v.recs) : p.1 ≤ CDFgetzVarsMaxWrittenRecNum st := by
  have hmem : v ∈ st.zvars := List.mem_iff_getElem?.mpr ⟨i, hv⟩
  have h1 : v.maxWritten ≤ CDFgetzVarsMaxWrittenRecNum st :=
    ((foldl_max_le_iff (fun v => ZVar.maxWritten v) st.zvars (-1) _).mp (le_refl _)).2 v hmem
  have h2 : p.1 ≤ v.maxWritten :=
    ((foldl_max_le_iff (fun r : Int × List Nat => r.1) v.recs (-1) _).mp (le_refl _)).2 p hp
  exact le_trans h2 h1

theorem written_none_above_max (st : Engine) (k : Int) (v : ZVar) (hv : getAt st.zvars k = some v)
    (r : Int) (hr : CDFgetzVarsMaxWrittenRecNum st < r) : v.written r = none := by
  obtain ⟨_, hkv⟩ := (getAt_some_iff _ _ _).mp hv
  unfold ZVar.written
  rw [Option.map_eq_none', List.find?_eq_none]
  intro p hp
  have := rec_le_maxWritten st _ v hkv p hp
  simp only [decide_eq_true_eq]
  omega

theorem written_of_mem (v : ZVar) (r : Int) (d : List Nat) (h : (r, d) ∈ v.recs) :
    ∃ d1, v.written r = some d1 := by
  unfold ZVar.written
  cases hf : v.recs.find? (fun p => decide (p.1 = r)) with
  | none =>
    rw [List.find?_eq_none] at hf
    have := hf _ h
    simp at this
  | some p => exact ⟨p.2, rfl⟩

theorem read_unchanged_of_extends {r : Int} {a b : Engine} (h : ExtendsAt r a b) (k r2 : Int)
    (hne : r2 ≠ r) : CDFgetzVarRecordData b k r2 = CDFgetzVarRecordData a k r2 := by
  obtain ⟨_, _, hl, hv, _⟩ := h
  unfold CDFgetzVarRecordData
  cases ha : getAt a.zvars k with
  | none =>
    have : getAt b.zvars k = none := by
      unfold getAt at ha ⊢
      split
      · rfl
      · rename_i hk
        simp only [hk, if_false] at ha
        rw [List.getElem?_eq_none_iff] at ha ⊢
        omega
    simp [this]
  | some v =>
    obtain ⟨hk0, hkv⟩ := (getAt_some_iff _ _ _).mp ha
    obtain ⟨extra, he, hall⟩ := hv _ _ hkv
    have hb : getAt b.zvars k = some { v with recs := extra ++ v.recs } :=
      (getAt_some_iff _ _ _).mpr ⟨hk0, he⟩
    simp only [hb]
    have hw : ZVar.written { v with recs := extra ++ v.recs } r2 = v.written r2 := by
      unfold ZVar.written
      simp only [List.find?_append]
      have : extra.find? (fun p => decide (p.1 = r2)) = none := by
        rw [List.find?_eq_none]
        intro p hp
        have := hall p hp
        simp only [decide_eq_true_eq]
        omega
      rw [this]
      simp
    rw [hw]

theorem maxWritten_after_extends {a b : Engine}
    (h : ExtendsAt (CDFgetzVarsMaxWrittenRecNum a + 1) a b) (k : Int)
    (hk : hasRec b k (CDFgetzVarsMaxWrittenRecNum a + 1)) :
    CDFgetzVarsMaxWrittenRecNum b = CDFgetzVarsMaxWrittenRecNum a + 1 := by
  have hM := maxWrittenRecNum_ge a
  have hrec := rec_le_maxWritten a
  generalize CDFgetzVarsMaxWrittenRecNum a = M at h hk hM hrec ⊢
  obtain ⟨_, _, hl, hv, _⟩ := h
  apply le_antisymm
  · have hb : CDFgetzVarsMaxWrittenRecNum b
        = b.zvars.foldl (fun m v => max m (ZVar.maxWritten v)) (-1) := rfl
    rw [hb, foldl_max_le_iff]
    refine ⟨by omega, ?_⟩
    intro v1 hv1
    obtain ⟨i, hi, hiv⟩ := List.getElem_of_mem hv1
    have hia : i < a.zvars.length := by omega
    obtain ⟨extra, he, hall⟩ := hv i (a.zvars[i]) (List.getElem?_eq_getElem hia)
    rw [List.getElem?_eq_getElem hi, hiv] at he
    simp only [Option.some.injEq] at he
    subst he
    have hw : ∀ w : ZVar, w.maxWritten = w.recs.foldl (fun m r => max m r.1) (-1) := fun _ => rfl
    rw [hw, foldl_max_le_iff]
    refine ⟨by omega, ?_⟩
    intro p hp
    simp only at hp
    rcases List.mem_append.mp hp with hp | hp
    · have := hall p hp
      omega
    · have := hrec i _ (List.getElem?_eq_getElem hia) p hp
      omega
  · obtain ⟨v, d, hgv, hd⟩ := hk
    obtain ⟨_, hkv⟩ := (getAt_some_iff _ _ _).mp hgv
    exact rec_le_maxWritten b _ v hkv _ hd

/-- Where `cdfzRecsUpdate` is defined: for an INSERT (argv[0] NULL, argc other than 1) with a
NULL record-number column,
with M the largest written record index over all variables: every engine call made is a
put-record at index M+1; when the call succeeds every supplied (non-null) column has its
record written at index M+1; no record existed at index M+1 before; reading any other
record index of any variable gives what it gave before (nothing is overwritten); and when
at least one value was supplied the new maximum is M+1, so the next scan visits the records
1..M+2 and the new row is its last row. -/
theorem zRecs_insert_without_number_appends (vp : CdfzVarsRecords) (st : Engine)
    (argv : List SqlValue) (out : Outcome) (hargc : argv.length ≠ 1)
    (h0 : (arg argv 0).vtype = SQLITE_NULL) (h2 : (arg argv 2).vtype = SQLITE_NULL)
    (h : cdfzRecsUpdate vp st argv = some out) :
    (∃ puts, out.eng.log = st.log ++ puts
        ∧ ∀ c ∈ puts, ∃ k d,
            c = EngineCall.putzVarRecordData k (CDFgetzVarsMaxWrittenRecNum st + 1) d)
    ∧ (out.rc = some SQLITE_OK → ∀ k, 0 ≤ k → k < CDFgetNumzVars st → supplied argv k →
        ∃ v d, getAt out.eng.zvars k = some v
          ∧ v.written (CDFgetzVarsMaxWrittenRecNum st + 1) = some d)
    ∧ (∀ k v, getAt st.zvars k = some v →
        v.written (CDFgetzVarsMaxWrittenRecNum st + 1) = none)
    ∧ (∀ k r, r ≠ CDFgetzVarsMaxWrittenRecNum st + 1 →
        CDFgetzVarRecordData out.eng k r = CDFgetzVarRecordData st k r)
    ∧ (out.rc = some SQLITE_OK →
        (∃ k, 0 ≤ k ∧ k < CDFgetNumzVars st ∧ supplied argv k) →
        CDFgetzVarsMaxWrittenRecNum out.eng = CDFgetzVarsMaxWrittenRecNum st + 1
        ∧ ∀ j, zRecsScan out.eng ((CDFgetzVarsMaxWrittenRecNum st + 2).toNat + 1 + j)
            = some ((List.range (CDFgetzVarsMaxWrittenRecNum st + 2).toNat).map
                (fun (i : Nat) => 1 + (i : Int)))) := by
  have hM := maxWrittenRecNum_ge st
  have key : ExtendsAt (CDFgetzVarsMaxWrittenRecNum st + 1) st out.eng
      ∧ (out.rc = some SQLITE_OK → ∀ k, 0 ≤ k → k < CDFgetNumzVars st → supplied argv k →
          hasRec out.eng k (CDFgetzVarsMaxWrittenRecNum st + 1)) := by
    unfold cdfzRecsUpdate at h
    split at h
    · simp only [Option.some.injEq] at h
      subst h
      exact ⟨ExtendsAt.refl _ st, by intro hc; simp at hc⟩
    · simp only at h
      have hargc2 : ¬ ((argv.length : Int) = 1) := by omega
      simp only [hargc2, if_false] at h
      split at h
      · simp only [Option.some.injEq] at h
        subst h
        exact ⟨ExtendsAt.refl _ st, by intro hc; simp at hc⟩
      · simp only [h0, h2, ne_eq, not_true_eq_false, if_false, Option.map_eq_some'] at h
        obtain ⟨⟨rc, st1⟩, hloop, hout⟩ := h
        subst hout
        obtain ⟨he, hh⟩ := zRecsPutLoop_spec vp argv _ _ 0 st st1 rc hloop
        refine ⟨he, ?_⟩
        intro hrc k hk0 hk1 hsup
        simp only [Option.some.injEq] at hrc
        apply hh hrc k hk0 _ hsup
        have hn : (0 : Int) ≤ CDFgetNumzVars st := by unfold CDFgetNumzVars; omega
        rw [Int.toNat_of_nonneg hn]
        omega
  obtain ⟨hext, hrecs⟩ := key
  refine ⟨hext.2.2.2.2, ?_, ?_, ?_, ?_⟩
  · intro hok k hk0 hk1 hsup
    obtain ⟨v, d, hv, hd⟩ := hrecs hok k hk0 hk1 hsup
    obtain ⟨d1, hd1⟩ := written_of_mem v _ d hd
    exact ⟨v, d1, hv, hd1⟩
  · intro k v hv
    exact written_none_above_max st k v hv _ (by omega)
  · intro k r hr
    exact read_unchanged_of_extends hext k r hr
  · intro hok hex
    obtain ⟨k, hk0, hk1, hsup⟩ := hex
    have hmax := maxWritten_after_extends hext k (hrecs hok k hk0 hk1 hsup)
    refine ⟨hmax, ?_⟩
    intro j
    have hr := zRecsScanFrom_rows out.eng (CDFgetzVarsMaxWrittenRecNum st + 2).toNat j 1
      (by rw [hmax, Int.toNat_of_nonneg (by omega)]; omega)
    exact hr

/-- Inserting temp = 21.5 without a record number into the empty container
writes engine record 0, and the maximum written record index goes from -1 to 0. -/
theorem zRecs_insert_without_number_appends_witness :
    cdfzRecsUpdate (cdfzRecsConnect stTemp 'w') stTemp (argsInsertRec sqlNull sqlReal21_5)
      = some outTempAppend
    ∧ CDFgetzVarsMaxWrittenRecNum stTemp = -1
    ∧ CDFgetzVarsMaxWrittenRecNum outTempAppend.eng = CDFgetzVarsMaxWrittenRecNum stTemp + 1 :=
  ⟨by rfl, by rfl,
    ((zRecs_insert_without_number_appends (cdfzRecsConnect stTemp 'w') stTemp
      (argsInsertRec sqlNull sqlReal21_5) outTempAppend (by decide) (by decide) (by decide)
      (by rfl)).2.2.2.2 (by rfl) ⟨0, by decide, by decide, ⟨by decide, by decide⟩⟩).1⟩

/-- For the six documented modes, `cdf_close` calls the close primitive exactly for the modes
other than 's' and 't', returns `SQLITE_OK` without a call for 's' and 't', and otherwise
returns `SQLITE_OK` exactly when the engine's close returns `CDF_OK`. -/
theorem cdf_close_documented_modes (st : Engine) :
    (∀ m ∈ [ 's', 't' ], cdf_close ⟨m⟩ st = (SQLITE_OK, st))
    ∧ (∀ m ∈ [ 'c', 'd', 'r', 'w' ],
        (cdf_close ⟨m⟩ st).2 = st.logCall .closeCDF
        ∧ ((cdf_close ⟨m⟩ st).1 = SQLITE_OK ↔ st.closeStatus = CDF_OK)) := by
  constructor
  · intro m hm
    simp only [List.mem_cons, List.mem_singleton, List.not_mem_nil, or_false] at hm
    rcases hm with rfl | rfl <;> rfl
  · intro m hm
    simp only [List.mem_cons, List.mem_singleton, List.not_mem_nil, or_false] at hm
    have hs : strchr [ 's', 't' ] m = false := by
      rcases hm with rfl | rfl | rfl | rfl <;> rfl
    simp only [cdf_close, hs, if_true, CDFcloseCDF]
    by_cases hc : st.closeStatus = CDF_OK
    · simp [hc]
    · simp [hc]

/-- The fuel given to `skipEmpty` is never what ends the loop: past the loop's own bound,
more fuel changes nothing. -/
theorem skipEmpty_fuel_stable (f : Int → Option Int) (cond : Int → Bool) (L : Int)
    (hc : ∀ e, cond e = true → e ≤ L) (n : Nat) :
    ∀ (e x : Int), (L + 1 - e).toNat ≤ n →
      skipEmpty f cond (n + 1) e x = skipEmpty f cond n e x := by
  induction n with
  | zero =>
    intro e x h
    have hf : cond e = false := by
      by_contra hne
      have := hc e (by simpa using hne)
      omega
    simp [skipEmpty, hf]
  | succ n ih =>
    intro e x h
    rw [skipEmpty, skipEmpty]
    split
    · rename_i hce
      have := hc e hce
      have ih2 := fun y => ih (e + 1) y (by omega)
      simp only [ih2]
    · rfl

/-- The fuel given to `nextAttrLoop` is never what ends the loop. -/
theorem nextAttrLoop_fuel_stable (sc : Int) (st : Engine) (nattrs : Int) (n : Nat) :
    ∀ (a s ne : Int), (nattrs + 1 - a).toNat ≤ n →
      nextAttrLoop sc st nattrs (n + 1) a s ne = nextAttrLoop sc st nattrs n a s ne := by
  induction n with
  | zero =>
    intro a s ne h
    have hf : ¬ a ≤ nattrs := by omega
    simp [nextAttrLoop, hf]
  | succ n ih =>
    intro a s ne h
    rw [nextAttrLoop, nextAttrLoop]
    split
    · have ih2 := fun y z => ih (a + 1) y z (by omega)
      simp only [ih2]
    · rfl

/-- The fuel given to `attrFilterLoop` is never what ends the loop. -/
theorem attrFilterLoop_fuel_stable (sc : Int) (st : Engine) (nattrs : Int) (n : Nat) :
    ∀ (a e : Int) (l : WalkLocals), (nattrs + 1 - a).toNat ≤ n →
      attrFilterLoop sc st nattrs (n + 1) a e l = attrFilterLoop sc st nattrs n a e l := by
  induction n with
  | zero =>
    intro a e l h
    have hf : ¬ a ≤ nattrs := by omega
    simp [attrFilterLoop, hf]
  | succ n ih =>
    intro a e l h
    rw [attrFilterLoop, attrFilterLoop]
    split
    · have ih2 := fun y => ih (a + 1) 1 y (by omega)
      simp only [ih2]
    · rfl

/-- In the two read-only modes the record adapter and the two entry adapters return
`SQLITE_READONLY` and leave the engine, its call log included, as it was. -/
theorem update_read_only_modes (st : Engine) (argv : List SqlValue) (vp : CdfzVarsRecords)
    (mode : Char) (hm : mode = 'r' ∨ mode = 's') :
    (vp.mode = mode → cdfzRecsUpdate vp st argv = some ⟨some SQLITE_READONLY, st, none⟩)
    ∧ cdfAttrgEntriesUpdate mode st argv = some ⟨some SQLITE_READONLY, st, none⟩
    ∧ cdfAttrzEntriesUpdate mode st argv = some ⟨some SQLITE_READONLY, st, none⟩ := by
  have hs : strchr [ 'r', 's' ] mode = true := by
    rcases hm with rfl | rfl <;> rfl
  refine ⟨?_, ?_, ?_⟩
  · intro hv
    simp [cdfzRecsUpdate, hv, hs]
  · simp [cdfAttrgEntriesUpdate, hs]
  · simp [cdfAttrzEntriesUpdate, hs]


theorem firstIndex_all_false (p : Nat → Bool) (n : Nat) :
    ∀ start, (∀ k, start ≤ k → k < start + n → p k = false) → firstIndex p n start = start + n := by
  induction n with
  | zero => intro start _; rfl
  | succ n ih =>
    intro start h
    have h0 := h start (le_refl _) (by omega)
    simp only [firstIndex, h0, Bool.false_eq_true, if_false]
    rw [ih (start + 1) (fun k hk1 hk2 => h k (by omega) (by omega))]
    omega

theorem typeids_getD_mem (k : Nat) (hk : k < 17) : typeids.getD k 0 ∈ definedTypeIds := by
  interval_cases k <;> decide

theorem mnemonics_getD_mem (k : Nat) (hk : k < 17) : typestrs.getD k [] ∈ mnemonics := by
  interval_cases k <;> decide

/-- C11 (amended): for each of the 17 defined element type ids T,
`cdf_typeid(cdf_typestr(T)) = T`; for each of the 17 mnemonics s,
`cdf_typestr(cdf_typeid(s)) = s`; an id that is not one of the 17 maps to the empty string;
and a string whose first 11 bytes differ from the first 11 bytes of every mnemonic maps to
id 0 (the comparison is `strncmp` over 11 bytes). -/
theorem cdf_type_names_round_trip :
    (∀ T ∈ definedTypeIds, cdf_typeid (cdf_typestr T) = T)
    ∧ (∀ s ∈ mnemonics, cdf_typestr (cdf_typeid s) = s)
    ∧ (∀ T, T ∉ definedTypeIds → cdf_typestr T = [])
    ∧ (∀ s, (∀ m ∈ mnemonics, (cstr m).take 11 ≠ (cstr s).take 11) → cdf_typeid s = 0) := by
  refine ⟨by decide, by decide, ?_, ?_⟩
  · intro T hT
    have h : firstIndex (fun k => decide (typeids.getD k 0 = T)) 17 0 = 0 + 17 := by
      apply firstIndex_all_false
      intro k _ hk
      simp only [decide_eq_false_iff_not]
      intro he
      exact hT (he ▸ typeids_getD_mem k (by omega))
    simp only [cdf_typestr, h]
    rfl
  · intro s hs
    have h : firstIndex (fun k => strncmpEq (typestrs.getD k []) s 11) 17 0 = 0 + 17 := by
      apply firstIndex_all_false
      intro k _ hk
      simp only [strncmpEq, decide_eq_false_iff_not]
      exact hs _ (mnemonics_getD_mem k (by omega))
    simp only [cdf_typeid, h]
    rfl

/-- C11 (counterexample): the string "time_tt2000x" is not a mnemonic of the table, yet
`cdf_typeid` maps it to `CDF_TIME_TT2000`, not to 0. -/
theorem cdf_typeid_long_name_counterexample :
    cdf_typeid txtTimeTT2000x = CDF_TIME_TT2000 ∧ txtTimeTT2000x ∉ mnemonics
    ∧ cdf_typeid txtTimeTT2000x ≠ 0 := by
  refine ⟨by decide, by decide, by decide⟩

/-- C12 (counterexample): `cdf_sqlitetype` classifies `CDF_EPOCH` as REAL (`SQLITE_FLOAT`),
not as BLOB. -/
theorem cdf_sqlitetype_epoch_is_real :
    cdf_sqlitetype CDF_EPOCH = SQLITE_FLOAT ∧ cdf_sqlitetype CDF_EPOCH ≠ SQLITE_BLOB := by
  refine ⟨by decide, by decide⟩

/-- C12 (amended): `cdf_sqlitetype` maps each of the 17 defined element type ids to one of
INTEGER, REAL, TEXT, BLOB and every other id to 0; the types classified as BLOB are exactly
`CDF_REAL4`, `CDF_FLOAT` and `CDF_EPOCH16`, and `CDF_EPOCH` is classified as REAL. -/
theorem cdf_sqlitetype_classes :
    (∀ T ∈ definedTypeIds, cdf_sqlitetype T ∈ [SQLITE_INTEGER, SQLITE_FLOAT, SQLITE_TEXT, SQLITE_BLOB])
    ∧ (∀ T, T ∉ definedTypeIds → cdf_sqlitetype T = 0)
    ∧ (∀ T, cdf_sqlitetype T = SQLITE_BLOB ↔ (T = CDF_REAL4 ∨ T = CDF_FLOAT ∨ T = CDF_EPOCH16))
    ∧ cdf_sqlitetype CDF_EPOCH = SQLITE_FLOAT := by
  refine ⟨by decide, ?_, ?_, by decide⟩
  · intro T hT
    simp only [definedTypeIds, typeids, List.take, List.mem_cons, List.mem_singleton,
      List.not_mem_nil, or_false, not_or] at hT
    unfold cdf_sqlitetype
    simp only [CDF_REAL8, CDF_DOUBLE, CDF_EPOCH, CDF_TIME_TT2000, CDF_INT8, CDF_INT4, CDF_UINT4,
      CDF_INT2, CDF_UINT2, CDF_INT1, CDF_UINT1, CDF_BYTE, CDF_CHAR, CDF_UCHAR, CDF_REAL4,
      CDF_FLOAT, CDF_EPOCH16] at hT ⊢
    split_ifs <;> first | rfl | omega
  · intro T
    unfold cdf_sqlitetype
    simp only [CDF_REAL8, CDF_DOUBLE, CDF_EPOCH, CDF_TIME_TT2000, CDF_INT8, CDF_INT4, CDF_UINT4,
      CDF_INT2, CDF_UINT2, CDF_INT1, CDF_UINT1, CDF_BYTE, CDF_CHAR, CDF_UCHAR, CDF_REAL4,
      CDF_FLOAT, CDF_EPOCH16, SQLITE_FLOAT, SQLITE_INTEGER, SQLITE_TEXT, SQLITE_BLOB]
    split_ifs <;> omega

/-- C11 (witness): the round trip at `CDF_INT4` and at "char", the unknown id 3 and the
unknown string "x". -/
theorem cdf_type_names_round_trip_witness :
    cdf_typeid (cdf_typestr CDF_INT4) = CDF_INT4 ∧ cdf_typestr (cdf_typeid txtChar) = txtChar
    ∧ cdf_typestr 3 = [] ∧ cdf_typeid [120] = 0 :=
  ⟨cdf_type_names_round_trip.1 CDF_INT4 (by decide),
   cdf_type_names_round_trip.2.1 txtChar (by decide),
   cdf_type_names_round_trip.2.2.1 3 (by decide),
   cdf_type_names_round_trip.2.2.2 [120] (by decide)⟩

/-- C12 (witness): the class of `CDF_UINT2`, of the undefined id 3, and of `CDF_REAL4`. -/
theorem cdf_sqlitetype_classes_witness :
    cdf_sqlitetype CDF_UINT2 ∈ [SQLITE_INTEGER, SQLITE_FLOAT, SQLITE_TEXT, SQLITE_BLOB]
    ∧ cdf_sqlitetype 3 = 0 ∧ cdf_sqlitetype CDF_REAL4 = SQLITE_BLOB :=
  ⟨cdf_sqlitetype_classes.1 CDF_UINT2 (by decide),
   cdf_sqlitetype_classes.2.1 3 (by decide),
   (cdf_sqlitetype_classes.2.2.1 CDF_REAL4).mpr (Or.inl rfl)⟩


theorem zvarsTypeRejected_iff (d : Int) : zvarsTypeRejected d = false ↔ d ∈ definedTypeIds := by
  simp only [zvarsTypeRejected, decide_eq_false_iff_not, definedTypeIds, typeids, List.take,
    List.mem_cons, List.mem_singleton, List.not_mem_nil, or_false,
    CDF_REAL8, CDF_DOUBLE, CDF_EPOCH, CDF_TIME_TT2000, CDF_INT8, CDF_INT4, CDF_UINT4,
    CDF_INT2, CDF_UINT2, CDF_INT1, CDF_UINT1, CDF_BYTE, CDF_CHAR, CDF_UCHAR, CDF_REAL4,
    CDF_FLOAT, CDF_EPOCH16]
  omega

theorem elsize_pos_iff (d : Int) : cdf_elsize d > 0 ↔ d ∈ definedTypeIds := by
  simp only [definedTypeIds, typeids, List.take,
    List.mem_cons, List.mem_singleton, List.not_mem_nil, or_false]
  unfold cdf_elsize
  simp only [CDF_REAL8, CDF_DOUBLE, CDF_EPOCH, CDF_TIME_TT2000, CDF_INT8, CDF_INT4, CDF_UINT4,
    CDF_INT2, CDF_UINT2, CDF_INT1, CDF_UINT1, CDF_BYTE, CDF_CHAR, CDF_UCHAR, CDF_REAL4,
    CDF_FLOAT, CDF_EPOCH16]
  split_ifs <;> omega

/-- C13: when the type-spec column `argv[4]` of `cdfzVarsUpdate` is a number d (INTEGER or
FLOAT), the type check accepts d exactly when d is one of the 17 defined element type ids,
which is exactly when `cdf_elsize d > 0`; and an INSERT with any other d returns an error
code and leaves the engine, its call log included, as it was (no create-variable call). -/
theorem zvars_insert_numeric_type_check (vp : CdfVTab) (rcRecreate : Int) (st : Engine)
    (argv : List SqlValue)
    (hnum : (arg argv 4).vtype = SQLITE_INTEGER ∨ (arg argv 4).vtype = SQLITE_FLOAT) :
    (zvarsDatatype argv = some (arg argv 4).int64 ↔ (arg argv 4).int64 ∈ definedTypeIds)
    ∧ ((arg argv 4).int64 ∈ definedTypeIds ↔ cdf_elsize (arg argv 4).int64 > 0)
    ∧ (argv.length ≠ 1 → (arg argv 0).vtype = SQLITE_NULL →
        (arg argv 4).int64 ∉ definedTypeIds →
        ∃ rc, rc ≠ SQLITE_OK
          ∧ cdfzVarsUpdate vp rcRecreate st argv = some ⟨some rc, st, none⟩) := by
  have hd : zvarsDatatype argv
      = if zvarsTypeRejected (arg argv 4).int64 then none else some (arg argv 4).int64 := by
    simp only [zvarsDatatype, hnum, if_true]
  refine ⟨?_, (elsize_pos_iff _).symm, ?_⟩
  · rw [hd, ← zvarsTypeRejected_iff]
    cases zvarsTypeRejected (arg argv 4).int64 <;> simp
  · intro hargc h0 hnot
    have hr : zvarsTypeRejected (arg argv 4).int64 = true := by
      cases h : zvarsTypeRejected (arg argv 4).int64
      · exact absurd ((zvarsTypeRejected_iff _).mp h) hnot
      · rfl
    have hspec : zvarsInsertSpec argv = .error := by
      simp only [zvarsInsertSpec, hd, hr, if_true]
    unfold cdfzVarsUpdate
    by_cases hm : vp.mode = 'r' ∨ vp.mode = 's'
    · exact ⟨SQLITE_READONLY, by decide, by simp only [hm, if_true]⟩
    · exact ⟨SQLITE_ERROR, by decide, by simp only [hm, hargc, h0, hspec, if_true, if_false]⟩

/-- C13 (witness): an INSERT of a variable "t2" with the numeric type-spec 3 is refused with
`SQLITE_ERROR` and nothing is created, and the type-spec 12 (`CDF_UINT2`) is accepted by the
check. -/
theorem zvars_insert_numeric_type_check_witness :
    (∃ rc, rc ≠ SQLITE_OK
      ∧ cdfzVarsUpdate ⟨'w'⟩ SQLITE_OK stTemp
          (argsCreateVar txtT2 sqlInt3 sqlNull sqlNull sqlNull) = some ⟨some rc, stTemp, none⟩)
    ∧ zvarsDatatype (argsCreateVar txtT2 sqlInt12 sqlNull sqlNull sqlNull) = some 12 :=
  ⟨(zvars_insert_numeric_type_check ⟨'w'⟩ SQLITE_OK stTemp
      (argsCreateVar txtT2 sqlInt3 sqlNull sqlNull sqlNull) (Or.inl rfl)).2.2
      (by decide) (by rfl) (by decide),
   (zvars_insert_numeric_type_check ⟨'w'⟩ SQLITE_OK stTemp
      (argsCreateVar txtT2 sqlInt12 sqlNull sqlNull sqlNull) (Or.inl rfl)).1.mpr (by decide)⟩

/-- C14 (failing input): `UPDATE zvars SET id = 5, name = 't2' WHERE id = 1` changes the
index column, which is not among the columns `argv[4]`..`argv[10]` that the update branch
inspects: the call returns `SQLITE_OK` and renames the variable. -/
theorem zvars_update_accepts_changed_id :
    (arg argsUpdateVarId 2).nochange = false
    ∧ (arg argsUpdateVarId 2).int64 ≠ (arg argsUpdateVarId 0).int64
    ∧ cdfzVarsUpdate ⟨'w'⟩ SQLITE_OK stTemp argsUpdateVarId
      = some ⟨some SQLITE_OK,
          ⟨[⟨txtT2, CDF_REAL8, 1, [], [234, 140, 160, 57, 89, 62, 41, 198], []⟩], [], CDF_OK,
            [EngineCall.renamezVar 0 txtT2]⟩, none⟩ := by
  refine ⟨by rfl, by decide, by rfl⟩


theorem getAt_append_length {α : Type} (l : List α) (x : α) :
    getAt (l ++ [x]) (l.length : Int) = some x := by
  unfold getAt
  have h : ¬ ((l.length : Int) < 0) := by omega
  simp only [h, if_false, Int.toNat_ofNat]
  simp

theorem CDFcreatezVar_spec (st st1 : Engine) (name : List Nat) (t n nd : Int)
    (ds : List Int) (rv : Int) (dv : List Int) (status varnum : Int)
    (h : CDFcreatezVar st name t n nd ds rv dv = some (status, st1, varnum)) :
    st1.log = st.log ++ [EngineCall.createzVar name t n nd ds rv dv]
    ∧ ((status = CDF_ERR ∧ st1.zvars = st.zvars)
      ∨ (status = CDF_OK ∧ varnum = CDFgetNumzVars st
        ∧ st1.zvars = st.zvars ++ [⟨cstr name, t, n, ds.take nd.toNat, defaultPad t n, []⟩])) := by
  unfold CDFcreatezVar at h
  simp only at h
  split at h
  · simp only [Option.some.injEq, Prod.mk.injEq] at h
    obtain ⟨h1, h2, _⟩ := h
    subst h1 h2
    exact ⟨rfl, Or.inl ⟨rfl, rfl⟩⟩
  · split at h
    · exact absurd h (by simp)
    · split at h
      · simp only [Option.some.injEq, Prod.mk.injEq] at h
        obtain ⟨h1, h2, _⟩ := h
        subst h1 h2
        exact ⟨rfl, Or.inl ⟨rfl, rfl⟩⟩
      · simp only [Option.some.injEq, Prod.mk.injEq] at h
        obtain ⟨h1, h2, h3⟩ := h
        subst h1 h2 h3
        exact ⟨rfl, Or.inr ⟨rfl, rfl, rfl⟩⟩

theorem CDFsetzVarAllocRecords_spec (st : Engine) (k n : Int) :
    (CDFsetzVarAllocRecords st k n).2.zvars = st.zvars
    ∧ (CDFsetzVarAllocRecords st k n).2.log = st.log ++ [EngineCall.setzVarAllocRecords k n] := by
  unfold CDFsetzVarAllocRecords
  split
  · exact ⟨rfl, rfl⟩
  · split <;> exact ⟨rfl, rfl⟩

/-- A variable INSERT through `cdfzVarsUpdate` whose arguments pass the
argument checks, whose element type is EPOCH16 and whose pad value is not NULL and not
exactly 16 bytes long returns `SQLITE_ERROR`; the length is checked by `zvars_upd_padval`
after the create-variable call, so that call is in the engine log when the error is
returned and, when the engine accepted it, the container has one variable more. -/
theorem zvars_insert_epoch16_pad_checked_after_create (vp : CdfVTab) (rcRecreate : Int)
    (st : Engine) (argv : List SqlValue) (sp : ZVarSpec)
    (hmode : ¬ (vp.mode = 'r' ∨ vp.mode = 's')) (hargc : argv.length ≠ 1)
    (h0 : (arg argv 0).vtype = SQLITE_NULL)
    (hsp : zvarsInsertSpec argv = .ok sp) (ht : sp.datatype = CDF_EPOCH16)
    (hpad : (arg argv 12).vtype ≠ SQLITE_NULL) (hlen : (arg argv 12).bytes.length ≠ 16)
    (hdef : (CDFcreatezVar st (arg argv 3).bytes sp.datatype sp.numelem sp.numdims sp.dimsizes
      sp.recvariance sp.dimvars).isSome = true) :
    ∃ st2, cdfzVarsUpdate vp rcRecreate st argv = some ⟨some SQLITE_ERROR, st2, none⟩
      ∧ EngineCall.createzVar (arg argv 3).bytes sp.datatype sp.numelem sp.numdims sp.dimsizes
          sp.recvariance sp.dimvars ∈ st2.log
      ∧ ((CDFcreatezVar st (arg argv 3).bytes sp.datatype sp.numelem sp.numdims sp.dimsizes
            sp.recvariance sp.dimvars).map (fun r => r.1) = some CDF_OK →
          CDFgetNumzVars st2 = CDFgetNumzVars st + 1) := by
  obtain ⟨⟨status, st1, varnum⟩, hc⟩ := Option.isSome_iff_exists.mp hdef
  obtain ⟨hlog, hcase⟩ := CDFcreatezVar_spec _ _ _ _ _ _ _ _ _ _ _ hc
  have hupd : cdfzVarsUpdate vp rcRecreate st argv = zvarsCreate rcRecreate st argv sp := by
    unfold cdfzVarsUpdate
    simp only [hmode, hargc, h0, hsp, if_true, if_false]
  rw [hupd]
  unfold zvarsCreate
  simp only [hc, Option.map_some']
  rcases hcase with ⟨hs, _⟩ | ⟨hs, hv, hz⟩
  · subst hs
    refine ⟨st1, by simp, by rw [hlog]; simp, ?_⟩
    intro h
    exact absurd h (by decide)
  · subst hs
    have hnz : ¬ (CDFgetNumzVars st ≠ varnum) := by simp [hv]
    have hlt : ¬ (CDF_OK < CDF_OK) := by decide
    simp only [hlt, hnz, if_false]
    generalize hr2 : (if (arg argv 11).vtype ≠ SQLITE_NULL then
        CDFsetzVarAllocRecords st1 varnum (arg argv 11).int64 else (CDF_OK, st1)) = r2
    have hr2z : r2.2.zvars = st1.zvars ∧ EngineCall.createzVar (arg argv 3).bytes sp.datatype
        sp.numelem sp.numdims sp.dimsizes sp.recvariance sp.dimvars ∈ r2.2.log := by
      subst hr2
      split
      · have := CDFsetzVarAllocRecords_spec st1 varnum (arg argv 11).int64
        exact ⟨this.1, by rw [this.2, hlog]; simp⟩
      · exact ⟨rfl, by rw [hlog]; simp⟩
    have hnum : CDFgetNumzVars r2.2 = CDFgetNumzVars st + 1 := by
      simp [CDFgetNumzVars, hr2z.1, hz]
    by_cases hneg : r2.1 < CDF_OK
    · exact ⟨r2.2, by simp only [hneg, if_true], hr2z.2, fun _ => hnum⟩
    · have hty : CDFgetzVarDataType r2.2 varnum = some CDF_EPOCH16 := by
        unfold CDFgetzVarDataType
        rw [hr2z.1, hz, hv]
        unfold CDFgetNumzVars
        rw [getAt_append_length]
        simp [ht]
      have hp : zvars_upd_padval argv r2.2 varnum = some (SQLITE_ERROR, r2.2) := by
        unfold zvars_upd_padval
        simp only [hpad, hty, ne_eq, not_false_eq_true, if_true]
        simp [hlen]
      refine ⟨r2.2, ?_, hr2z.2, fun _ => hnum⟩
      simp only [hneg, if_false, hp]
      simp

/-- C15 (failing input): inserting the EPOCH16 variable "t2" with a 3-byte pad value
returns `SQLITE_ERROR` after the create-variable call was made: the container then has two
variables instead of one.  The checks of the type, the dimensions and the variances are
made before `CDFcreatezVar`; the length of the pad value is checked by `zvars_upd_padval`
after it. -/
theorem zvars_insert_epoch16_bad_pad_creates_variable :
    ∃ o, cdfzVarsUpdate ⟨'w'⟩ SQLITE_OK stTemp
        (argsCreateVar txtT2 sqlInt32 sqlNull sqlNull (sqlBlob [1, 2, 3])) = some o
      ∧ o.rc = some SQLITE_ERROR
      ∧ CDFgetNumzVars stTemp = 1 ∧ CDFgetNumzVars o.eng = 2
      ∧ o.eng.log = [EngineCall.createzVar txtT2 CDF_EPOCH16 1 0 [0] VARY [VARY]] :=
  ⟨_, rfl, rfl, rfl, rfl, rfl⟩

/-- The general statement at the insert of the EPOCH16 variable "t2" with a
3-byte pad value into the container with the one variable "temp". -/
theorem zvars_insert_epoch16_pad_checked_after_create_witness :
    ∃ st2, cdfzVarsUpdate ⟨'w'⟩ SQLITE_OK stTemp
        (argsCreateVar txtT2 sqlInt32 sqlNull sqlNull (sqlBlob [1, 2, 3]))
        = some ⟨some SQLITE_ERROR, st2, none⟩
      ∧ EngineCall.createzVar txtT2 CDF_EPOCH16 1 0 [0] VARY [VARY] ∈ st2.log
      ∧ ((CDFcreatezVar stTemp txtT2 CDF_EPOCH16 1 0 [0] VARY [VARY]).map (fun r => r.1)
            = some CDF_OK →
          CDFgetNumzVars st2 = CDFgetNumzVars stTemp + 1) :=
  zvars_insert_epoch16_pad_checked_after_create ⟨'w'⟩ SQLITE_OK stTemp
    (argsCreateVar txtT2 sqlInt32 sqlNull sqlNull (sqlBlob [1, 2, 3]))
    ⟨CDF_EPOCH16, 1, 0, [0], VARY, [VARY]⟩
    (by decide) (by decide) (by rfl) (by rfl) (by rfl) (by decide) (by decide) (by rfl)


theorem putzVarRecordData_log (st st1 : Engine) (k r : Int) (buf : List Nat) (s : Int)
    (h : CDFputzVarRecordData st k r buf = some (s, st1)) :
    ∃ d, st1.log = st.log ++ [EngineCall.putzVarRecordData k r d] := by
  unfold CDFputzVarRecordData at h
  split at h
  · simp only [Option.some.injEq, Prod.mk.injEq] at h
    exact ⟨[], by rw [← h.2]; rfl⟩
  · split at h
    · simp only [Option.some.injEq, Prod.mk.injEq] at h
      exact ⟨[], by rw [← h.2]; rfl⟩
    · split at h
      · exact absurd h (by simp)
      · rename_i data _
        simp only [Option.some.injEq, Prod.mk.injEq] at h
        exact ⟨data, by rw [← h.2]⟩

theorem valfunc_log (vt : Int) (a : SqlValue) (st st1 : Engine) (kz kr s : Int)
    (h : valfunc vt a st kz kr = some (s, st1)) :
    st1.log = st.log ∨ ∃ d, st1.log = st.log ++ [EngineCall.putzVarRecordData kz kr d] := by
  have hp : ∀ buf, CDFputzVarRecordData st kz kr buf = some (s, st1) →
      (st1.log = st.log ∨ ∃ d, st1.log = st.log ++ [EngineCall.putzVarRecordData kz kr d]) :=
    fun buf hb => Or.inr (putzVarRecordData_log st st1 kz kr buf s hb)
  have herr : (some (SQLITE_ERROR, st) : Option (Int × Engine)) = some (s, st1) →
      (st1.log = st.log ∨ ∃ d, st1.log = st.log ++ [EngineCall.putzVarRecordData kz kr d]) := by
    intro he
    simp only [Option.some.injEq, Prod.mk.injEq] at he
    exact Or.inl (by rw [← he.2])
  unfold valfunc at h
  split at h
  · exact hp _ h
  · split at h
    · exact hp _ h
    · split at h
      · exact hp _ h
      · split at h
        · unfold value_float_2cdf at h
          split at h
          · split at h
            · exact herr h
            · exact hp _ h
          · exact hp _ h
        · split at h
          · unfold value_epoch_2cdf at h
            split at h
            · exact herr h
            · exact hp _ h
          · exact absurd h (by simp)

theorem rcOfStatus_log (r : Option (Int × Engine)) (rc : Int) (st1 : Engine)
    (P : Engine → Prop) (hr : ∀ s st2, r = some (s, st2) → P st2)
    (h : rcOfStatus r = some (rc, st1)) : P st1 := by
  cases r with
  | none => simp [rcOfStatus] at h
  | some x =>
    obtain ⟨s, st2⟩ := x
    simp only [rcOfStatus, Option.map_some'] at h
    have := hr s st2 rfl
    split at h <;>
    · simp only [Option.some.injEq, Prod.mk.injEq] at h
      rw [← h.2]
      exact this

theorem zRecsPutOne_log (vp : CdfzVarsRecords) (argv : List SqlValue) (kr k : Int)
    (st st1 : Engine) (rc : Int) (h : zRecsPutOne vp argv kr k st = some (rc, st1)) :
    st1.log = st.log
    ∨ (supplied argv k ∧ ∃ d, st1.log = st.log ++ [EngineCall.putzVarRecordData k kr d]) := by
  unfold zRecsPutOne at h
  simp only at h
  split at h
  · simp only [Option.some.injEq, Prod.mk.injEq] at h
    exact Or.inl (by rw [← h.2])
  · rename_i hskip
    have hsup : supplied argv k := by
      simp only [not_or] at hskip
      exact ⟨by simpa using hskip.1, hskip.2⟩
    have herr : (some (SQLITE_ERROR, st) : Option (Int × Engine)) = some (rc, st1) →
        (st1.log = st.log
        ∨ (supplied argv k ∧ ∃ d, st1.log = st.log ++ [EngineCall.putzVarRecordData k kr d])) := by
      intro he
      simp only [Option.some.injEq, Prod.mk.injEq] at he
      exact Or.inl (by rw [← he.2])
    split at h
    · split at h
      · split at h
        · exact absurd h (by simp)
        · split at h
          · exact herr h
          · refine rcOfStatus_log _ rc st1 (fun e => e.log = st.log
              ∨ (supplied argv k ∧ ∃ d, e.log = st.log ++ [EngineCall.putzVarRecordData k kr d])) ?_ h
            intro s st2 hs
            rcases valfunc_log _ _ _ _ _ _ _ hs with h1 | h1
            · exact Or.inl h1
            · exact Or.inr ⟨hsup, h1⟩
      · split at h
        · exact absurd h (by simp)
        · split at h
          · refine rcOfStatus_log _ rc st1 (fun e => e.log = st.log
              ∨ (supplied argv k ∧ ∃ d, e.log = st.log ++ [EngineCall.putzVarRecordData k kr d])) ?_ h
            intro s st2 hs
            exact Or.inr ⟨hsup, putzVarRecordData_log _ _ _ _ _ _ hs⟩
          · split at h
            · exact herr h
            · refine rcOfStatus_log _ rc st1 (fun e => e.log = st.log
              ∨ (supplied argv k ∧ ∃ d, e.log = st.log ++ [EngineCall.putzVarRecordData k kr d])) ?_ h
              intro s st2 hs
              exact Or.inr ⟨hsup, putzVarRecordData_log _ _ _ _ _ _ hs⟩
    · exact absurd h (by simp)

theorem zRecsPutLoop_log (vp : CdfzVarsRecords) (argv : List SqlValue) (kr : Int) (n : Nat) :
    ∀ (k : Int) (st st1 : Engine) (rc : Int),
      zRecsPutLoop vp argv kr n k st = some (rc, st1) →
      ∃ puts, st1.log = st.log ++ puts
        ∧ ∀ c ∈ puts, ∃ i d, c = EngineCall.putzVarRecordData i kr d
            ∧ k ≤ i ∧ i < k + n ∧ supplied argv i := by
  induction n with
  | zero =>
    intro k st st1 rc h
    simp only [zRecsPutLoop, Option.some.injEq, Prod.mk.injEq] at h
    exact ⟨[], by rw [← h.2]; simp, by simp⟩
  | succ n ih =>
    intro k st st1 rc h
    simp only [zRecsPutLoop] at h
    cases hone : zRecsPutOne vp argv kr k st with
    | none => simp [hone] at h
    | some x =>
      obtain ⟨rc1, st2⟩ := x
      simp only [hone] at h
      have h1 := zRecsPutOne_log vp argv kr k st st2 rc1 hone
      have hfirst : ∃ puts, st2.log = st.log ++ puts
          ∧ ∀ c ∈ puts, ∃ i d, c = EngineCall.putzVarRecordData i kr d
              ∧ k ≤ i ∧ i < k + ((n + 1 : Nat) : Int) ∧ supplied argv i := by
        rcases h1 with h1 | ⟨hs, d, h1⟩
        · exact ⟨[], by rw [h1]; simp, by simp⟩
        · refine ⟨[EngineCall.putzVarRecordData k kr d], h1, ?_⟩
          intro c hc
          simp only [List.mem_singleton] at hc
          exact ⟨k, d, hc, le_refl _, by push_cast; omega, hs⟩
      split at h
      · simp only [Option.some.injEq, Prod.mk.injEq] at h
        rw [← h.2]
        exact hfirst
      · obtain ⟨p1, hp1, hq1⟩ := hfirst
        obtain ⟨p2, hp2, hq2⟩ := ih (k + 1) st2 st1 rc h
        refine ⟨p1 ++ p2, by rw [hp2, hp1, List.append_assoc], ?_⟩
        intro c hc
        rcases List.mem_append.mp hc with hc | hc
        · exact hq1 c hc
        · obtain ⟨i, d, e1, e2, e3, e4⟩ := hq2 c hc
          exact ⟨i, d, e1, by omega, by push_cast; omega, e4⟩

theorem zRecsPutLoop_append (vp : CdfzVarsRecords) (argv : List SqlValue) (kr : Int) (m : Nat) :
    ∀ (j : Nat) (k : Int) (st st1 : Engine),
      zRecsPutLoop vp argv kr j k st = some (SQLITE_OK, st1) →
      zRecsPutLoop vp argv kr (j + m) k st = zRecsPutLoop vp argv kr m (k + j) st1 := by
  intro j
  induction j with
  | zero =>
    intro k st st1 h
    simp only [zRecsPutLoop, Option.some.injEq, Prod.mk.injEq] at h
    rw [← h.2]
    simp
  | succ j ih =>
    intro k st st1 h
    have hn : j + 1 + m = (j + m) + 1 := by omega
    rw [hn]
    simp only [zRecsPutLoop] at h ⊢
    cases hone : zRecsPutOne vp argv kr k st with
    | none => simp [hone] at h
    | some x =>
      obtain ⟨rc1, st2⟩ := x
      simp only [hone] at h ⊢
      split at h
      · rename_i hrc
        simp only [Option.some.injEq, Prod.mk.injEq] at h
        exact absurd h.1 hrc
      · rename_i hrc
        simp only [hrc, if_false]
        rw [ih (k + 1) st2 st1 h]
        congr 1
        push_cast
        omega

theorem cdfzRecsUpdate_eq_loop (vp : CdfzVarsRecords) (st : Engine) (argv : List SqlValue)
    (hmode : strchr [ 'r', 's' ] vp.mode = false) (hargc : argv.length ≠ 1)
    (hcols : (argv.length : Int) - 2 = CDFgetNumzVars st + 1) :
    cdfzRecsUpdate vp st argv
      = (zRecsPutLoop vp argv (zRecsTarget st argv) st.zvars.length 0 st).map
          (fun r => ⟨some r.1, r.2,
            if (arg argv 0).vtype ≠ SQLITE_NULL then none else some (zRecsTarget st argv)⟩) := by
  have hargc2 : ¬ ((argv.length : Int) = 1) := by omega
  have hcols2 : ¬ ((argv.length : Int) - 2 ≠ CDFgetNumzVars st + 1) := by simp [hcols]
  have hn : (CDFgetNumzVars st).toNat = st.zvars.length := by simp [CDFgetNumzVars]
  unfold cdfzRecsUpdate zRecsTarget
  simp only [hmode, Bool.false_eq_true, if_false, hargc2, hcols2, hn]
  by_cases h0 : (arg argv 0).vtype ≠ SQLITE_NULL
  · rw [if_pos h0]
    simp only [if_pos h0]
  · rw [if_neg h0]
    simp only [if_neg h0]


theorem wrapLong_emod (x : Int) :
    wrapLong x % 18446744073709551616 = x % 18446744073709551616 := by
  unfold wrapLong
  split <;> omega

theorem wrapLong_congr (x y : Int)
    (h : x % 18446744073709551616 = y % 18446744073709551616) : wrapLong x = wrapLong y := by
  unfold wrapLong
  rw [h]

theorem wrapLong_of_range (x : Int) (h1 : -9223372036854775808 ≤ x)
    (h2 : x < 9223372036854775808) : wrapLong x = x := by
  unfold wrapLong
  split <;> omega

theorem mulLong_wrap_left (a b : Int) : mulLong (wrapLong a) b = wrapLong (a * b) := by
  unfold mulLong
  apply wrapLong_congr
  rw [Int.mul_emod, wrapLong_emod, ← Int.mul_emod]

theorem mulLong_wrap_right (a b : Int) : mulLong a (wrapLong b) = wrapLong (a * b) := by
  unfold mulLong
  apply wrapLong_congr
  rw [Int.mul_emod, wrapLong_emod, ← Int.mul_emod]

theorem foldl_mulLong (dims : List Int) :
    ∀ acc : Int, dims.foldl mulLong (wrapLong acc)
      = wrapLong (dims.foldl (fun a b => a * b) acc) := by
  induction dims with
  | nil => intro acc; rfl
  | cons d l ih =>
    intro acc
    simp only [List.foldl_cons]
    rw [mulLong_wrap_left, ih]

theorem nelemLong_eq (dims : List Int) :
    nelemLong dims = wrapLong (dims.foldl (fun a b => a * b) 1) := by
  have h := foldl_mulLong dims 1
  rw [wrapLong_of_range 1 (by decide) (by decide)] at h
  exact h

/-- The record size that the adapter computes in `long` arithmetic is the exact product of
the element size and the dimension sizes whenever that product is in the range of `long`. -/
theorem recordSize_exact (e : Int) (dims : List Int)
    (h1 : -9223372036854775808 ≤ e * dims.foldl (fun a b => a * b) 1)
    (h2 : e * dims.foldl (fun a b => a * b) 1 < 9223372036854775808) :
    mulLong e (nelemLong dims) = e * dims.foldl (fun a b => a * b) 1 := by
  rw [nelemLong_eq, mulLong_wrap_right, wrapLong_of_range _ h1 h2]

/-- C16 (amended): in an INSERT or UPDATE through `cdfzRecsUpdate`, let column j be an
array-shaped variable whose supplied payload has a byte length different from
`cdf_elsize(type)` times the product of the dimension sizes, that number being in the range
of a C `long`, the columns before j having been processed without error.  Then the call
returns `SQLITE_ERROR`; the engine is left as the loop over the variables before j left it:
the only engine calls made are put-record calls for supplied variables before j (none for j
or a later variable), and every supplied variable before j has its record written. -/
theorem zRecs_bad_array_length_stops_at_column (vp : CdfzVarsRecords) (st st1 : Engine)
    (argv : List SqlValue) (j : Nat) (v : ZVar)
    (hmode : strchr [ 'r', 's' ] vp.mode = false) (hargc : argv.length ≠ 1)
    (hcols : (argv.length : Int) - 2 = CDFgetNumzVars st + 1)
    (hj : j < st.zvars.length)
    (hprev : zRecsPutLoop vp argv (zRecsTarget st argv) j 0 st = some (SQLITE_OK, st1))
    (hv : getAt st1.zvars j = some v) (hdim : v.dimSizes.length ≠ 0)
    (hsup : supplied argv j)
    (hmin : -9223372036854775808
        ≤ cdf_elsize v.dataType * v.dimSizes.foldl (fun a b => a * b) 1)
    (hmax : cdf_elsize v.dataType * v.dimSizes.foldl (fun a b => a * b) 1
        < 9223372036854775808)
    (hlen : cdf_elsize v.dataType * v.dimSizes.foldl (fun a b => a * b) 1
        ≠ ((arg argv ((j : Int) + 3)).bytes.length : Int)) :
    (∃ rowid, cdfzRecsUpdate vp st argv = some ⟨some SQLITE_ERROR, st1, rowid⟩)
    ∧ (∃ puts, st1.log = st.log ++ puts
        ∧ ∀ c ∈ puts, ∃ i d, c = EngineCall.putzVarRecordData i (zRecsTarget st argv) d
            ∧ 0 ≤ i ∧ i < (j : Int) ∧ supplied argv i)
    ∧ (∀ i, 0 ≤ i → i < (j : Int) → supplied argv i →
        hasRec st1 i (zRecsTarget st argv)) := by
  have hone : zRecsPutOne vp argv (zRecsTarget st argv) (j : Int) st1
      = some (SQLITE_ERROR, st1) := by
    have hskip : ¬ ((arg argv ((j : Int) + 3)).nochange = true
        ∨ (arg argv ((j : Int) + 3)).vtype = SQLITE_NULL) := by
      intro h
      rcases h with h | h
      · rw [hsup.1] at h; exact absurd h (by simp)
      · exact hsup.2 h
    have hnd : ¬ ((v.dimSizes.length : Int) = 0) := by omega
    have hsize : mulLong (cdf_elsize v.dataType) (nelemLong v.dimSizes)
        ≠ ((arg argv ((j : Int) + 3)).bytes.length : Int) := by
      rw [recordSize_exact _ _ hmin hmax]
      exact hlen
    unfold zRecsPutOne
    simp only [hskip, if_false, CDFgetzVarDataType, CDFgetzVarNumDims, CDFgetzVarDimSizes, hv,
      Option.map_some', hnd, hsup.2, hsize, ne_eq, not_false_eq_true, if_true]
    simp [hsup.1]
  refine ⟨?_, ?_, ?_⟩
  · refine ⟨if (arg argv 0).vtype ≠ SQLITE_NULL then none else some (zRecsTarget st argv), ?_⟩
    rw [cdfzRecsUpdate_eq_loop vp st argv hmode hargc hcols]
    have hn : st.zvars.length = j + ((st.zvars.length - j - 1) + 1) := by omega
    rw [hn, zRecsPutLoop_append vp argv _ _ j 0 st st1 hprev]
    simp only [zRecsPutLoop, zero_add, hone, ne_eq]
    rfl
  · obtain ⟨puts, hp, hq⟩ := zRecsPutLoop_log vp argv _ j 0 st st1 _ hprev
    refine ⟨puts, hp, ?_⟩
    intro c hc
    obtain ⟨i, d, e1, e2, e3, e4⟩ := hq c hc
    exact ⟨i, d, e1, e2, by omega, e4⟩
  · intro i hi1 hi2 hs
    exact (zRecsPutLoop_spec vp argv _ j 0 st st1 _ hprev).2 rfl i hi1 (by omega) hs

/-- C16 (counterexample): inserting a row with temp = 21.5 and a 3-byte payload for the
8-byte array variable "vec" returns `SQLITE_ERROR` after the put-record call for "temp" was
made. -/
theorem zRecs_bad_array_length_after_put :
    ∃ o, cdfzRecsUpdate (cdfzRecsConnect stTempVec 'w') stTempVec
        (argsInsertTempVec sqlReal21_5 (sqlBlob [1, 2, 3])) = some o
      ∧ o.rc = some SQLITE_ERROR
      ∧ o.eng.log = [EngineCall.putzVarRecordData 0 0 [0, 0, 0, 0, 0, 128, 53, 64]] :=
  ⟨_, rfl, rfl, rfl⟩

/-- C16 (witness): the amended statement at the insert of temp = 21.5 with a 3-byte payload
for "vec", whose column is number 1. -/
theorem zRecs_bad_array_length_stops_at_column_witness :
    (∃ rowid, cdfzRecsUpdate (cdfzRecsConnect stTempVec 'w') stTempVec
        (argsInsertTempVec sqlReal21_5 (sqlBlob [1, 2, 3]))
        = some ⟨some SQLITE_ERROR,
            ⟨[⟨txtTemp, CDF_REAL8, 1, [], [234, 140, 160, 57, 89, 62, 41, 198],
                [(0, [0, 0, 0, 0, 0, 128, 53, 64])]⟩,
              ⟨txtVec, CDF_INT4, 1, [2], [0, 0, 0, 0, 0, 0, 0, 0], []⟩], [], CDF_OK,
             [EngineCall.putzVarRecordData 0 0 [0, 0, 0, 0, 0, 128, 53, 64]]⟩, rowid⟩) :=
  (zRecs_bad_array_length_stops_at_column (cdfzRecsConnect stTempVec 'w') stTempVec
    ⟨[⟨txtTemp, CDF_REAL8, 1, [], [234, 140, 160, 57, 89, 62, 41, 198],
        [(0, [0, 0, 0, 0, 0, 128, 53, 64])]⟩,
      ⟨txtVec, CDF_INT4, 1, [2], [0, 0, 0, 0, 0, 0, 0, 0], []⟩], [], CDF_OK,
     [EngineCall.putzVarRecordData 0 0 [0, 0, 0, 0, 0, 128, 53, 64]]⟩
    (argsInsertTempVec sqlReal21_5 (sqlBlob [1, 2, 3])) 1
    ⟨txtVec, CDF_INT4, 1, [2], [0, 0, 0, 0, 0, 0, 0, 0], []⟩
    (by rfl) (by decide) (by rfl) (by decide) (by rfl) (by rfl) (by decide)
    ⟨by rfl, by decide⟩ (by decide) (by decide) (by decide)).1

theorem putzVarRecordData_other (st st1 : Engine) (k r : Int) (buf : List Nat) (s : Int)
    (h : CDFputzVarRecordData st k r buf = some (s, st1)) (i : Int) (hi : i ≠ k) :
    getAt st1.zvars i = getAt st.zvars i := by
  unfold CDFputzVarRecordData at h
  split at h
  · simp only [Option.some.injEq, Prod.mk.injEq] at h
    rw [← h.2]
    rfl
  · rename_i v hv
    split at h
    · simp only [Option.some.injEq, Prod.mk.injEq] at h
      rw [← h.2]
      rfl
    · split at h
      · exact absurd h (by simp)
      · simp only [Option.some.injEq, Prod.mk.injEq] at h
        rw [← h.2]
        simp only
        unfold getAt at hv ⊢
        by_cases hi0 : i < 0
        · simp only [hi0, if_true]
        · simp only [hi0, if_false]
          by_cases hk0 : k < 0
          · simp [hk0] at hv
          · rw [List.getElem?_set]
            have hne : ¬ (k.toNat = i.toNat) := by omega
            simp only [hne, if_false]

theorem valfunc_cases (vt : Int) (a : SqlValue) (st st1 : Engine) (kz kr s : Int)
    (h : valfunc vt a st kz kr = some (s, st1)) :
    st1 = st ∨ ∃ buf, CDFputzVarRecordData st kz kr buf = some (s, st1) := by
  have herr : (some (SQLITE_ERROR, st) : Option (Int × Engine)) = some (s, st1) →
      (st1 = st ∨ ∃ buf, CDFputzVarRecordData st kz kr buf = some (s, st1)) := by
    intro he
    simp only [Option.some.injEq, Prod.mk.injEq] at he
    exact Or.inl he.2.symm
  unfold valfunc at h
  split at h
  · exact Or.inr ⟨_, h⟩
  · split at h
    · exact Or.inr ⟨_, h⟩
    · split at h
      · exact Or.inr ⟨_, h⟩
      · split at h
        · unfold value_float_2cdf at h
          split at h
          · split at h
            · exact herr h
            · exact Or.inr ⟨_, h⟩
          · exact Or.inr ⟨_, h⟩
        · split at h
          · unfold value_epoch_2cdf at h
            split at h
            · exact herr h
            · exact Or.inr ⟨_, h⟩
          · exact absurd h (by simp)

theorem zRecsPutOne_other (vp : CdfzVarsRecords) (argv : List SqlValue) (kr k : Int)
    (st st1 : Engine) (rc : Int) (h : zRecsPutOne vp argv kr k st = some (rc, st1))
    (i : Int) (hi : i ≠ k ∨ ¬ supplied argv k) :
    getAt st1.zvars i = getAt st.zvars i := by
  unfold zRecsPutOne at h
  simp only at h
  split at h
  · simp only [Option.some.injEq, Prod.mk.injEq] at h
    rw [← h.2]
  · rename_i hskip
    have hsup : supplied argv k := by
      simp only [not_or] at hskip
      exact ⟨by simpa using hskip.1, hskip.2⟩
    have hik : i ≠ k := by
      rcases hi with hi | hi
      · exact hi
      · exact absurd hsup hi
    have herr : (some (SQLITE_ERROR, st) : Option (Int × Engine)) = some (rc, st1) →
        getAt st1.zvars i = getAt st.zvars i := by
      intro he
      simp only [Option.some.injEq, Prod.mk.injEq] at he
      rw [← he.2]
    split at h
    · split at h
      · split at h
        · exact absurd h (by simp)
        · split at h
          · exact herr h
          · refine rcOfStatus_log _ rc st1 (fun e => getAt e.zvars i = getAt st.zvars i) ?_ h
            intro s st2 hs
            rcases valfunc_cases _ _ _ _ _ _ _ hs with h1 | ⟨buf, h1⟩
            · rw [h1]
            · exact putzVarRecordData_other _ _ _ _ _ _ h1 i hik
      · split at h
        · exact absurd h (by simp)
        · split at h
          · refine rcOfStatus_log _ rc st1 (fun e => getAt e.zvars i = getAt st.zvars i) ?_ h
            intro s st2 hs
            exact putzVarRecordData_other _ _ _ _ _ _ hs i hik
          · split at h
            · exact herr h
            · refine rcOfStatus_log _ rc st1 (fun e => getAt e.zvars i = getAt st.zvars i) ?_ h
              intro s st2 hs
              exact putzVarRecordData_other _ _ _ _ _ _ hs i hik
    · exact absurd h (by simp)

theorem zRecsPutLoop_other (vp : CdfzVarsRecords) (argv : List SqlValue) (kr : Int) (n : Nat) :
    ∀ (k : Int) (st st1 : Engine) (rc : Int),
      zRecsPutLoop vp argv kr n k st = some (rc, st1) →
      ∀ i, ¬ supplied argv i → getAt st1.zvars i = getAt st.zvars i := by
  induction n with
  | zero =>
    intro k st st1 rc h i _
    simp only [zRecsPutLoop, Option.some.injEq, Prod.mk.injEq] at h
    rw [← h.2]
  | succ n ih =>
    intro k st st1 rc h i hi
    simp only [zRecsPutLoop] at h
    cases hone : zRecsPutOne vp argv kr k st with
    | none => simp [hone] at h
    | some x =>
      obtain ⟨rc1, st2⟩ := x
      simp only [hone] at h
      have h1 : getAt st2.zvars i = getAt st.zvars i := by
        apply zRecsPutOne_other vp argv kr k st st2 rc1 hone i
        by_cases hik : i = k
        · right; rw [← hik]; exact hi
        · left; exact hik
      split at h
      · simp only [Option.some.injEq, Prod.mk.injEq] at h
        rw [← h.2]
        exact h1
      · rw [ih (k + 1) st2 st1 rc h i hi, h1]

/-- C17 (amended): in an INSERT or UPDATE through `cdfzRecsUpdate`, a variable whose column
value is NULL is skipped by the loop (the comment of the code: "SQLITE_NULL is not inserted
into CDF"), whatever its shape: the loop body leaves the engine as it is, no put-record
call for that variable is among the engine calls of the whole update, and the variable is
after the call what it was before, so that every record of it reads what it read before
(the pad value where none was written). -/
theorem zRecs_null_column_is_skipped (vp : CdfzVarsRecords) (st : Engine)
    (argv : List SqlValue) (out : Outcome) (i : Int) (hargc : argv.length ≠ 1)
    (hnull : (arg argv (i + 3)).vtype = SQLITE_NULL)
    (h : cdfzRecsUpdate vp st argv = some out) :
    (∀ kr st2, zRecsPutOne vp argv kr i st2 = some (SQLITE_OK, st2))
    ∧ (∃ puts, out.eng.log = st.log ++ puts
        ∧ ∀ r d, EngineCall.putzVarRecordData i r d ∉ puts)
    ∧ getAt out.eng.zvars i = getAt st.zvars i
    ∧ ∀ r, CDFgetzVarRecordData out.eng i r = CDFgetzVarRecordData st i r := by
  have hns : ¬ supplied argv i := fun hs => hs.2 hnull
  have hvar : getAt out.eng.zvars i = getAt st.zvars i := by
    have hargc2 : ¬ ((argv.length : Int) = 1) := by omega
    unfold cdfzRecsUpdate at h
    split at h
    · simp only [Option.some.injEq] at h
      rw [← h]
    · simp only [hargc2, if_false] at h
      split at h
      · simp only [Option.some.injEq] at h
        rw [← h]
      · split at h
        · simp only [Option.map_eq_some'] at h
          obtain ⟨x, hx, hout⟩ := h
          rw [← hout]
          exact zRecsPutLoop_other vp argv _ _ 0 st x.2 x.1 hx i hns
        · simp only [Option.map_eq_some'] at h
          obtain ⟨x, hx, hout⟩ := h
          rw [← hout]
          exact zRecsPutLoop_other vp argv _ _ 0 st x.2 x.1 hx i hns
  refine ⟨?_, ?_, hvar, ?_⟩
  · intro kr st2
    unfold zRecsPutOne
    simp only [hnull, or_true, if_true]
  · have hloop : ∀ kr n (x : Int × Engine), zRecsPutLoop vp argv kr n 0 st = some x →
        ∃ puts, x.2.log = st.log ++ puts ∧ ∀ r d, EngineCall.putzVarRecordData i r d ∉ puts := by
      intro kr n x hx
      obtain ⟨puts, hp, hq⟩ := zRecsPutLoop_log vp argv kr n 0 st x.2 x.1 hx
      refine ⟨puts, hp, ?_⟩
      intro r d hc
      obtain ⟨i2, d2, e1, _, _, e4⟩ := hq _ hc
      simp only [EngineCall.putzVarRecordData.injEq] at e1
      rw [← e1.1] at e4
      exact e4.2 hnull
    have hsame : out.eng = st → ∃ puts, out.eng.log = st.log ++ puts
        ∧ ∀ r d, EngineCall.putzVarRecordData i r d ∉ puts :=
      fun he => ⟨[], by rw [he]; simp, by simp⟩
    have hargc2 : ¬ ((argv.length : Int) = 1) := by omega
    unfold cdfzRecsUpdate at h
    split at h
    · simp only [Option.some.injEq] at h
      exact hsame (by rw [← h])
    · simp only [hargc2, if_false] at h
      split at h
      · simp only [Option.some.injEq] at h
        exact hsame (by rw [← h])
      · split at h
        · simp only [Option.map_eq_some'] at h
          obtain ⟨x, hx, hout⟩ := h
          rw [← hout]
          exact hloop _ _ x hx
        · simp only [Option.map_eq_some'] at h
          obtain ⟨x, hx, hout⟩ := h
          rw [← hout]
          exact hloop _ _ x hx
  · intro r
    unfold CDFgetzVarRecordData
    rw [hvar]

/-- C17 (counterexample): inserting a row with temp = 21.5 and a NULL for the array variable
"vec" succeeds with the single put-record call for "temp": no zero-filled record is
written for "vec", which still has no record. -/
theorem zRecs_null_array_column_not_written :
    cdfzRecsUpdate (cdfzRecsConnect stTempVec 'w') stTempVec
        (argsInsertTempVec sqlReal21_5 sqlNull)
      = some ⟨some SQLITE_OK,
          ⟨[⟨txtTemp, CDF_REAL8, 1, [], [234, 140, 160, 57, 89, 62, 41, 198],
              [(0, [0, 0, 0, 0, 0, 128, 53, 64])]⟩,
            ⟨txtVec, CDF_INT4, 1, [2], [0, 0, 0, 0, 0, 0, 0, 0], []⟩], [], CDF_OK,
           [EngineCall.putzVarRecordData 0 0 [0, 0, 0, 0, 0, 128, 53, 64]]⟩, some 0⟩ := by
  rfl

/-- C17 (witness): the amended statement at the insert of temp = 21.5 with a NULL for
"vec", the variable number 1: no put-record call is made for "vec", and its record 0
reads the pad value after the insert as before. -/
theorem zRecs_null_column_is_skipped_witness :
    cdfzRecsUpdate (cdfzRecsConnect stTempVec 'w') stTempVec
        (argsInsertTempVec sqlReal21_5 sqlNull) = some outTempVecNull
    ∧ (∀ kr st2, zRecsPutOne (cdfzRecsConnect stTempVec 'w')
        (argsInsertTempVec sqlReal21_5 sqlNull) kr 1 st2 = some (SQLITE_OK, st2))
    ∧ (∃ puts, outTempVecNull.eng.log = stTempVec.log ++ puts
        ∧ ∀ r d, EngineCall.putzVarRecordData 1 r d ∉ puts)
    ∧ getAt outTempVecNull.eng.zvars 1 = getAt stTempVec.zvars 1
    ∧ (∀ r, CDFgetzVarRecordData outTempVecNull.eng 1 r = CDFgetzVarRecordData stTempVec 1 r)
    ∧ CDFgetzVarRecordData outTempVecNull.eng 1 0 = some [0, 0, 0, 0, 0, 0, 0, 0] :=
  ⟨by rfl,
   (zRecs_null_column_is_skipped (cdfzRecsConnect stTempVec 'w') stTempVec
      (argsInsertTempVec sqlReal21_5 sqlNull) outTempVecNull 1 (by decide) (by rfl) (by rfl)).1,
   (zRecs_null_column_is_skipped (cdfzRecsConnect stTempVec 'w') stTempVec
      (argsInsertTempVec sqlReal21_5 sqlNull) outTempVecNull 1 (by decide) (by rfl)
      (by rfl)).2.1,
   (zRecs_null_column_is_skipped (cdfzRecsConnect stTempVec 'w') stTempVec
      (argsInsertTempVec sqlReal21_5 sqlNull) outTempVecNull 1 (by decide) (by rfl)
      (by rfl)).2.2.1,
   (zRecs_null_column_is_skipped (cdfzRecsConnect stTempVec 'w') stTempVec
      (argsInsertTempVec sqlReal21_5 sqlNull) outTempVecNull 1 (by decide) (by rfl)
      (by rfl)).2.2.2,
   by rfl⟩


theorem attrEntry_none_above_max (sc : Int) (st : Engine) (a e m : Int)
    (hm : getAttrMaxEntry sc st a = some m) (he : m < e) : attrEntry sc st a e = none := by
  unfold getAttrMaxEntry at hm
  unfold attrEntry
  cases hes : attrEntries sc st a with
  | none => rfl
  | some es =>
    simp only [hes, Option.map_some', Option.some.injEq] at hm
    simp only [Option.map_eq_none']
    apply List.find?_eq_none.mpr
    intro p hp
    have hle := (foldl_max_le_iff (fun (p : Int × AttrEntry) => p.1) es (-1) m).mp (by rw [hm])
    have := hle.2 p hp
    simp only [decide_eq_true_eq]
    omega

/-- C20 (amended): when `cdfAttrzEntriesUpdate` inserts or updates with a NULL owner column
under a variable-scope attribute whose largest entry index is m (m = -1 without entries),
the owner is the variable with index m+1: a successful call has m < nzvars - 1 and its one
engine call is a put-entry at entry index m+1, where there was no entry before and the
entry is afterwards; and whenever m >= nzvars - 1 (the last variable has an entry) the call
fails and leaves the engine as it was, also when variables below m have no entry. -/
theorem zEntry_null_owner_is_after_max (mode : Char) (st : Engine) (argv : List SqlValue)
    (out : Outcome) (hargc : argv.length ≠ 1) (h4 : (arg argv 4).vtype = SQLITE_NULL)
    (h : cdfAttrzEntriesUpdate mode st argv = some out) :
    (out.rc = some SQLITE_OK →
      ∃ m t n data,
        getAttrMaxEntry VARIABLE_SCOPE st ((attrent_upd_id st argv).2 - 1) = some m
        ∧ m < CDFgetNumzVars st - 1
        ∧ attrEntry VARIABLE_SCOPE st ((attrent_upd_id st argv).2 - 1) (m + 1) = none
        ∧ out.eng.log
            = st.log ++ [EngineCall.putAttrzEntry ((attrent_upd_id st argv).2 - 1) (m + 1) t n data]
        ∧ attrEntry VARIABLE_SCOPE out.eng ((attrent_upd_id st argv).2 - 1) (m + 1)
            = some ⟨t, n, data⟩)
    ∧ (∀ m, getAttrMaxEntry VARIABLE_SCOPE st ((attrent_upd_id st argv).2 - 1) = some m →
        CDFgetNumzVars st - 1 ≤ m → out.rc ≠ some SQLITE_OK ∧ out.eng = st) := by
  have e1 : ¬ (SQLITE_NULL = SQLITE_INTEGER ∨ SQLITE_NULL = SQLITE_FLOAT) := by decide
  have e2 : ¬ (SQLITE_NULL = SQLITE_TEXT) := by decide
  unfold cdfAttrzEntriesUpdate at h
  simp only [h4, e1, e2, if_false, if_true] at h
  generalize hmx : getAttrMaxEntry VARIABLE_SCOPE st ((attrent_upd_id st argv).2 - 1) = mx at h ⊢
  have hfail : ∀ rc, rc ≠ SQLITE_OK → some (Outcome.mk (some rc) st none) = some out →
      (out.rc = some SQLITE_OK →
        ∃ m t n data,
          mx = some m
          ∧ m < CDFgetNumzVars st - 1
          ∧ attrEntry VARIABLE_SCOPE st ((attrent_upd_id st argv).2 - 1) (m + 1) = none
          ∧ out.eng.log
              = st.log ++ [EngineCall.putAttrzEntry ((attrent_upd_id st argv).2 - 1) (m + 1) t n data]
          ∧ attrEntry VARIABLE_SCOPE out.eng ((attrent_upd_id st argv).2 - 1) (m + 1)
              = some ⟨t, n, data⟩)
      ∧ (∀ m, mx = some m →
          CDFgetNumzVars st - 1 ≤ m → out.rc ≠ some SQLITE_OK ∧ out.eng = st) := by
    intro rc hrc he
    simp only [Option.some.injEq] at he
    subst he
    refine ⟨fun hok => ?_, fun _ _ _ => ⟨?_, rfl⟩⟩
    · simp only [Option.some.injEq] at hok
      exact absurd hok hrc
    · simp only [ne_eq, Option.some.injEq]
      exact hrc
  split at h
  · exact hfail SQLITE_READONLY (by decide) h
  · try simp only [hargc, if_false] at h
    split at h
    · rename_i hid
      exact hfail _ hid h
    · cases hsc : CDFgetAttrScope st ((attrent_upd_id st argv).2 - 1) with
      | none => simp [hsc] at h
      | some scope =>
        simp only [hsc] at h
        split at h
        · exact hfail SQLITE_ERROR (by decide) h
        · split at h
          · exact hfail SQLITE_ERROR (by decide) h
          · cases mx with
            | none => simp at h
            | some m =>
              simp only at h
              by_cases hlt : m < CDFgetNumzVars st - 1
              · simp only [hlt, if_true, ne_eq, not_true_eq_false, if_false] at h
                split at h
                · rename_i hp
                  exact hfail _ hp h
                · split at h
                  · exact hfail SQLITE_ERROR (by decide) h
                  · refine ⟨fun hok => ?_, fun m2 hm2 hge => ?_⟩
                    · obtain ⟨t, buf, hput⟩ := attrEntryWrite_ok _ _ _ _ _ _ _ _ h hok
                      have e3 : m + 2 - 1 = m + 1 := by omega
                      rw [e3] at hput
                      obtain ⟨data, hlog, hentry⟩ := attrEntry_after_put _ _ _ _ _ _ _ _ hput
                      refine ⟨m, t, _, data, rfl, hlt,
                        attrEntry_none_above_max _ _ _ _ _ hmx (by omega), ?_, hentry⟩
                      rw [hlog]; rfl
                    · simp only [Option.some.injEq] at hm2
                      omega
              · simp only [hlt, if_false, ne_eq, not_false_eq_true, if_true] at h
                exact hfail SQLITE_ERROR (by decide) h

/-- C20 (counterexample): with 3 variables of which only the one with index 2 has an entry
under "A", an insert with a NULL owner fails and leaves the engine as it was, although the
variables with index 0 and 1 have no entry. -/
theorem zEntry_null_owner_fails_with_free_variables :
    CDFgetNumzVars (stThreeVars 2) = 3
    ∧ entryIndices (stThreeVars 2) = [[2]]
    ∧ cdfAttrzEntriesUpdate 'w' (stThreeVars 2) (argsInsertEntry [65] sqlInt5)
        = some ⟨some SQLITE_ERROR, stThreeVars 2, none⟩ := by
  refine ⟨by rfl, by rfl, by rfl⟩

/-- C20 (witness): with 3 variables of which only the one with index 0 has an entry under
"A", an insert with a NULL owner writes the entry of the variable with index 1. -/
theorem zEntry_null_owner_is_after_max_witness :
    ∃ m t n data,
      getAttrMaxEntry VARIABLE_SCOPE (stThreeVars 0)
        ((attrent_upd_id (stThreeVars 0) (argsInsertEntry [65] sqlInt5)).2 - 1) = some m
      ∧ m < CDFgetNumzVars (stThreeVars 0) - 1
      ∧ attrEntry VARIABLE_SCOPE (stThreeVars 0)
        ((attrent_upd_id (stThreeVars 0) (argsInsertEntry [65] sqlInt5)).2 - 1) (m + 1) = none
      ∧ outThreeVars.eng.log
          = (stThreeVars 0).log ++ [EngineCall.putAttrzEntry
              ((attrent_upd_id (stThreeVars 0) (argsInsertEntry [65] sqlInt5)).2 - 1)
              (m + 1) t n data]
      ∧ attrEntry VARIABLE_SCOPE outThreeVars.eng
          ((attrent_upd_id (stThreeVars 0) (argsInsertEntry [65] sqlInt5)).2 - 1) (m + 1)
          = some ⟨t, n, data⟩ :=
  (zEntry_null_owner_is_after_max 'w' (stThreeVars 0) (argsInsertEntry [65] sqlInt5)
    outThreeVars (by decide) (by rfl) (by rfl)).1 (by rfl)


/-- C19 (failing inputs): `zvars_upd_padval` has no case for `CDF_TIME_TT2000`, so writing the
pad value 5 of a TT2000 variable returns `SQLITE_ERROR` without an engine call; and the pad
value 65535 of a `CDF_UINT2` variable is written as the bytes FF FF, which `result_padvalue`
reads through a signed `short` and returns as -1. -/
theorem padvalue_round_trip_fails :
    zvars_upd_padval (argsCreateVar txtT2 sqlNull sqlNull sqlNull sqlInt5)
        (stOneVar CDF_TIME_TT2000 [0, 0, 0, 0, 0, 0, 0, 0]) 0
      = some (SQLITE_ERROR, stOneVar CDF_TIME_TT2000 [0, 0, 0, 0, 0, 0, 0, 0])
    ∧ zvars_upd_padval (argsCreateVar txtT2 sqlNull sqlNull sqlNull sqlInt65535)
        (stOneVar CDF_UINT2 [0, 0]) 0
      = some (SQLITE_OK,
          ⟨[⟨txtTemp, CDF_UINT2, 1, [], [255, 255], []⟩], [], CDF_OK,
            [EngineCall.setzVarPadValue 0 [255, 255]]⟩)
    ∧ result_padvalue
        ⟨[⟨txtTemp, CDF_UINT2, 1, [], [255, 255], []⟩], [], CDF_OK,
          [EngineCall.setzVarPadValue 0 [255, 255]]⟩ 1
      = (SQLITE_OK, .val (.int64 (-1))) := by
  refine ⟨by rfl, by rfl, by rfl⟩


theorem strnlen_of_le (b : List Nat) (n : Nat) (h : (cstr b).length ≤ n) :
    strnlen b (n + 1) = ((cstr b).length : Int) := by
  unfold strnlen
  rw [Nat.min_eq_left (by omega)]

/-- C21 (amended): element count resolution in `attrent_upd_pars`, once the element type has
been resolved, with n the supplied count (`argv[6]`, 0 when NULL).  TEXT value of a length L
of at most 1024: in an insert (`argv[0]` NULL) with n > 0 and n different from L the call
fails; in every other case, so in every update whatever n is, the resolved count is L.
Value neither TEXT nor NULL: the resolved count is 1 when n <= 0, the call fails when
n > 1024, and the count is n otherwise.  A NULL value is rejected, also when the type was
not resolved. -/
theorem attrent_upd_pars_count (argv : List SqlValue) :
    ((attrent_upd_type argv).1 = SQLITE_OK → (arg argv 7).vtype = SQLITE_TEXT →
      (cstr (arg argv 7).bytes).length ≤ 1024 →
      (((arg argv 0).vtype = SQLITE_NULL ∧ (arg argv 6).int64 > 0
          ∧ (arg argv 6).int64 ≠ ((cstr (arg argv 7).bytes).length : Int)) →
        (attrent_upd_pars argv).1 = SQLITE_ERROR)
      ∧ (¬ ((arg argv 0).vtype = SQLITE_NULL ∧ (arg argv 6).int64 > 0
          ∧ (arg argv 6).int64 ≠ ((cstr (arg argv 7).bytes).length : Int)) →
        (attrent_upd_pars argv).1 = SQLITE_OK
        ∧ (attrent_upd_pars argv).2.2 = ((cstr (arg argv 7).bytes).length : Int)))
    ∧ ((attrent_upd_type argv).1 = SQLITE_OK → (arg argv 7).vtype ≠ SQLITE_TEXT →
        (arg argv 7).vtype ≠ SQLITE_NULL →
      ((arg argv 6).int64 ≤ 0 →
        (attrent_upd_pars argv).1 = SQLITE_OK ∧ (attrent_upd_pars argv).2.2 = 1)
      ∧ ((arg argv 6).int64 > 1024 → (attrent_upd_pars argv).1 = SQLITE_ERROR)
      ∧ (0 < (arg argv 6).int64 → (arg argv 6).int64 ≤ 1024 →
        (attrent_upd_pars argv).1 = SQLITE_OK
        ∧ (attrent_upd_pars argv).2.2 = (arg argv 6).int64))
    ∧ ((arg argv 7).vtype = SQLITE_NULL → (attrent_upd_pars argv).1 = SQLITE_ERROR) := by
  refine ⟨?_, ?_, ?_⟩
  · intro hty htext hL
    have hty2 : ¬ ((attrent_upd_type argv).1 ≠ SQLITE_OK) := by simp [hty]
    have hs := strnlen_of_le (arg argv 7).bytes 1024 hL
    constructor
    · intro hc
      rw [← hs] at hc
      simp only [attrent_upd_pars, hty2, if_false, htext, if_true, hc, and_self, ne_eq,
        not_false_eq_true]
    · intro hc
      rw [← hs] at hc ⊢
      simp only [attrent_upd_pars, hty2, if_false, htext, if_true, hc, and_self]
  · intro hty hnt hnn
    have hty2 : ¬ ((attrent_upd_type argv).1 ≠ SQLITE_OK) := by simp [hty]
    refine ⟨?_, ?_, ?_⟩
    · intro hn
      have h1 : ¬ ((1 : Int) > 1024) := by decide
      simp only [attrent_upd_pars, hty2, if_false, hnt, hnn, hn, if_true, h1, and_self]
    · intro hn
      have h0 : ¬ ((arg argv 6).int64 ≤ 0) := by omega
      simp only [attrent_upd_pars, hty2, if_false, hnt, hnn, h0, hn, if_true]
    · intro hn1 hn2
      have h0 : ¬ ((arg argv 6).int64 ≤ 0) := by omega
      have h1 : ¬ ((arg argv 6).int64 > 1024) := by omega
      simp only [attrent_upd_pars, hty2, if_false, hnt, hnn, h0, h1, and_self]
  · intro hnull
    have hnt : (arg argv 7).vtype ≠ SQLITE_TEXT := by rw [hnull]; decide
    unfold attrent_upd_pars
    simp only [hnt, hnull, if_false, if_true]
    split <;> rfl

/-- C21 (counterexample): in an update (`argv[0]` not NULL) of an entry to the TEXT value
"Mission Y", of length 9, with the supplied element count 5, `attrent_upd_pars` does not
fail: it resolves the count to 9. -/
theorem attrent_upd_pars_update_ignores_count :
    (arg (argsUpdateEntryCount sqlInt5 (sqlText txtMissionY)) 0).vtype ≠ SQLITE_NULL
    ∧ (arg (argsUpdateEntryCount sqlInt5 (sqlText txtMissionY)) 6).int64 = 5
    ∧ txtMissionY.length = 9
    ∧ attrent_upd_pars (argsUpdateEntryCount sqlInt5 (sqlText txtMissionY))
        = (SQLITE_OK, CDF_CHAR, 9) := by
  refine ⟨by decide, by rfl, by rfl, by rfl⟩

/-- C21 (witness): an insert of "Mission Y" with the count 5 fails, the same update resolves
the count to 9, and an integer value with the count 5 keeps the count 5. -/
theorem attrent_upd_pars_count_witness :
    (attrent_upd_pars
        (argsInsertEntryTyped txtTitle (sqlText txtChar) sqlInt5 (sqlText txtMissionY))).1
      = SQLITE_ERROR
    ∧ ((attrent_upd_pars (argsUpdateEntryCount sqlInt5 (sqlText txtMissionY))).1 = SQLITE_OK
      ∧ (attrent_upd_pars (argsUpdateEntryCount sqlInt5 (sqlText txtMissionY))).2.2
        = ((cstr (arg (argsUpdateEntryCount sqlInt5 (sqlText txtMissionY)) 7).bytes).length
            : Int))
    ∧ (cstr (arg (argsUpdateEntryCount sqlInt5 (sqlText txtMissionY)) 7).bytes).length = 9
    ∧ ((attrent_upd_pars (argsInsertEntryTyped txtTitle sqlNull sqlInt5 sqlInt9)).1 = SQLITE_OK
      ∧ (attrent_upd_pars (argsInsertEntryTyped txtTitle sqlNull sqlInt5 sqlInt9)).2.2
        = (arg (argsInsertEntryTyped txtTitle sqlNull sqlInt5 sqlInt9) 6).int64) :=
  ⟨((attrent_upd_pars_count
      (argsInsertEntryTyped txtTitle (sqlText txtChar) sqlInt5 (sqlText txtMissionY))).1
      (by rfl) (by rfl) (by decide)).1 ⟨by rfl, by decide, by decide⟩,
   ((attrent_upd_pars_count (argsUpdateEntryCount sqlInt5 (sqlText txtMissionY))).1
      (by rfl) (by rfl) (by decide)).2 (by decide),
   by rfl,
   ((attrent_upd_pars_count (argsInsertEntryTyped txtTitle sqlNull sqlInt5 sqlInt9)).2.1
      (by rfl) (by decide) (by decide)).2.2 (by decide) (by decide)⟩

/-- C22 (failing input): an insert through the global-scope adapter with the numeric type
id 3, which is not a defined element type, and an empty BLOB value passes the range check
`cdftype<=0 || cdftype>CDF_UCHAR` and the size check (0 bytes for 0-byte elements), so the
engine's put-entry primitive is called with type 3; the call fails only because the engine
refuses the type.  The variable-scope adapter, which tests `cdf_sqlitetype(cdftype)==0`,
refuses the same arguments without an engine call. -/
theorem gEntry_undefined_type_reaches_engine :
    (3 : Int) ∉ definedTypeIds
    ∧ cdfAttrgEntriesUpdate 'w' stScopes (argsInsertEntryTyped [71] sqlInt3 sqlNull (sqlBlob []))
      = some ⟨some SQLITE_ERROR,
          { stScopes with log := [EngineCall.putAttrgEntry 0 0 3 1 []] }, none⟩
    ∧ cdfAttrzEntriesUpdate 'w' stScopes (argsInsertEntryTyped [86] sqlInt3 sqlNull (sqlBlob []))
      = some ⟨some SQLITE_ERROR, stScopes, none⟩ := by
  refine ⟨by decide, by rfl, by rfl⟩

/-- C23 (failing input): an insert through the global-scope adapter with the explicit type
"int4" and the integer value 5 succeeds, and the entry handed to the engine's put-entry
primitive has the type `CDF_INT8`, not `CDF_INT4`: the scalar writer
`attrent_int64_2cdf` does not receive the resolved type. -/
theorem gEntry_explicit_int4_is_written_as_int8 :
    (attrent_upd_pars (argsInsertEntryTyped txtTitle (sqlText txtInt4) sqlNull sqlInt5)).2.1
      = CDF_INT4
    ∧ cdfAttrgEntriesUpdate 'w' stTitle
        (argsInsertEntryTyped txtTitle (sqlText txtInt4) sqlNull sqlInt5)
      = some ⟨some SQLITE_OK,
          ⟨[], [⟨txtTitle, GLOBAL_SCOPE, [(0, ⟨CDF_INT8, 1, longBytes 5⟩)]⟩], CDF_OK,
            [EngineCall.putAttrgEntry 0 0 CDF_INT8 1 (longBytes 5)]⟩, none⟩ := by
  refine ⟨by rfl, by rfl⟩

/-- C24 (failing inputs): the value column of a vector entry.  On the first row of a
container whose only entry is the two-element vector at (attribute 0, entry 0), the read
fails with `SQLITE_ERROR`: `result_gattrblob` is called with `attrid-1` and `entryid-1` and
subtracts 1 again, asking the engine for (attribute -1, entry -1).  On the row of
(attribute 1, entry 1) of a container with four vectors, the column returns the 16 bytes of
the entry (attribute 0, entry 0), not those of the row's own entry. -/
theorem gEntry_vector_read_uses_wrong_entry :
    cdfAttrgEntriesFilter stVector = (SQLITE_OK, ⟨1, 1, 1⟩)
    ∧ getAttrEntryValue GLOBAL_SCOPE stVector 0 0 = some (longBytes 1 ++ longBytes 2)
    ∧ cdfAttrgEntriesColumn stVector ⟨1, 1, 1⟩ 5 = some (SQLITE_ERROR, .indeterminate)
    ∧ scanTriples (attrScan GLOBAL_SCOPE stVectors 10)
        = some ([(1, 1, 1), (2, 1, 2), (3, 2, 1), (4, 2, 2)], SQLITE_OK)
    ∧ getAttrEntryValue GLOBAL_SCOPE stVectors 1 1 = some (longBytes 7 ++ longBytes 8)
    ∧ cdfAttrgEntriesColumn stVectors ⟨4, 2, 2⟩ 5
        = some (SQLITE_OK, .val (.blob (longBytes 1 ++ longBytes 2))) := by
  refine ⟨by rfl, by rfl, by rfl, by rfl, by rfl, by rfl⟩

/-- C28 (failing input): inserting the REAL value 21.5 as a global entry stores the 8 bytes of
the integer 21 (`long dcolval = sqlite3_value_double(val);`) under the type `CDF_DOUBLE`,
not the 8 bytes of 21.5; the value column then returns the floating-point number with the
bit pattern 21, not 21.5 (bit pattern 0x4035800000000000). -/
theorem gEntry_real_is_written_truncated :
    sqlReal21_5.double = 4626744929681408000
    ∧ cdfAttrgEntriesUpdate 'w' stTitle (argsInsertEntry txtTitle sqlReal21_5)
      = some ⟨some SQLITE_OK,
          ⟨[], [⟨txtTitle, GLOBAL_SCOPE, [(0, ⟨CDF_DOUBLE, 1, longBytes 21⟩)]⟩], CDF_OK,
            [EngineCall.putAttrgEntry 0 0 CDF_DOUBLE 1 (longBytes 21)]⟩, none⟩
    ∧ longBytes 21 ≠ leBytes 8 sqlReal21_5.double
    ∧ cdfAttrgEntriesColumn
        ⟨[], [⟨txtTitle, GLOBAL_SCOPE, [(0, ⟨CDF_DOUBLE, 1, longBytes 21⟩)]⟩], CDF_OK,
          [EngineCall.putAttrgEntry 0 0 CDF_DOUBLE 1 (longBytes 21)]⟩ ⟨1, 1, 1⟩ 5
      = some (SQLITE_OK, .val (.double 21)) := by
  refine ⟨by rfl, by rfl, by decide, by rfl⟩


/-- C26 (failing input): after the equality path of `cdfzVarsFilter` the cursor has
`zvarid = lastrow = varnum + 1` whatever the lookup returned, so `cdfzVarsEof` is false and
the scan has one row also when the name is unknown: for the name "t2" in a container whose
only variable is "temp" the lookup returns a negative status and the scan yields one row,
with id 0, where the full scan has no row of that name. -/
theorem zVars_name_lookup_yields_row_for_missing_name :
    (∀ (st : Engine) (a : SqlValue) (rest : List SqlValue),
        cdfzVarsEof (cdfzVarsFilter st SQLITE_INDEX_CONSTRAINT_EQ (a :: rest)) = false)
    ∧ CDFgetVarNum stTemp txtT2 < 0
    ∧ zVarsScan stTemp SQLITE_INDEX_CONSTRAINT_EQ [sqlText txtT2] 5 = some [0]
    ∧ zVarsRowsNamed stTemp txtT2 5 = some []
    ∧ zVarsScan stTemp SQLITE_INDEX_CONSTRAINT_EQ [sqlText txtTemp] 5 = some [1]
    ∧ zVarsRowsNamed stTemp txtTemp 5 = some [1] := by
  refine ⟨?_, by decide, by rfl, by rfl, by rfl, by rfl⟩
  intro st a rest
  simp [cdfzVarsFilter, cdfzVarsEof]

/-- For each defined element type other than `CDF_TIME_TT2000` the writer chosen by
`cdf_valfuncid` and the reader class chosen by `cdf_sqlitetype` agree. -/
theorem reader_writer_classes_agree_except_tt2000 :
    ∀ T ∈ definedTypeIds, T = CDF_TIME_TT2000 ∨
      ((cdf_valfuncid T = 0 ↔ cdf_sqlitetype T = SQLITE_INTEGER)
      ∧ (cdf_valfuncid T = 1 ↔ cdf_sqlitetype T = SQLITE_FLOAT)
      ∧ (cdf_valfuncid T = 2 ↔ cdf_sqlitetype T = SQLITE_TEXT)
      ∧ ((cdf_valfuncid T = 3 ∨ cdf_valfuncid T = 4) ↔ cdf_sqlitetype T = SQLITE_BLOB)) := by
  decide

/-- C27 (failing input): for `CDF_TIME_TT2000` the writer is the 64-bit integer writer
(`cdf_valfuncid` = 0) while the reader class is REAL (`cdf_sqlitetype` = `SQLITE_FLOAT`).
So the integer 5 inserted into a scalar
TT2000 variable is stored as the 8 bytes of the integer 5 and read back by `cdfzRecsColumn`
as the floating-point number with the bit pattern 5. -/
theorem tt2000_written_as_integer_read_as_real :
    cdf_valfuncid CDF_TIME_TT2000 = 0 ∧ cdf_sqlitetype CDF_TIME_TT2000 = SQLITE_FLOAT
    ∧ cdfzRecsUpdate (cdfzRecsConnect (stOneVar CDF_TIME_TT2000 [0, 0, 0, 0, 0, 0, 0, 0]) 'w')
        (stOneVar CDF_TIME_TT2000 [0, 0, 0, 0, 0, 0, 0, 0]) (argsInsertRec sqlNull sqlInt5)
      = some ⟨some SQLITE_OK,
          ⟨[⟨txtTemp, CDF_TIME_TT2000, 1, [], [0, 0, 0, 0, 0, 0, 0, 0], [(0, longBytes 5)]⟩],
            [], CDF_OK, [EngineCall.putzVarRecordData 0 0 (longBytes 5)]⟩, some 0⟩
    ∧ cdfzRecsColumn (cdfzRecsConnect (stOneVar CDF_TIME_TT2000 [0, 0, 0, 0, 0, 0, 0, 0]) 'w')
        ⟨[⟨txtTemp, CDF_TIME_TT2000, 1, [], [0, 0, 0, 0, 0, 0, 0, 0], [(0, longBytes 5)]⟩],
          [], CDF_OK, [EngineCall.putzVarRecordData 0 0 (longBytes 5)]⟩ ⟨1⟩ false 1
      = some (SQLITE_OK, .val (.double 5)) := by
  refine ⟨by decide, by decide, by rfl, by rfl⟩

/-- C29 (failing input): inserting temp = 21.5 without a record number into the container
without records stores 0 through the row-id pointer (`*rowid = kcdfrec`, the engine
index), while the scan of the container afterwards exposes the written row as record
number 1 (column 0 and `cdfVTabRowid`), the engine index plus 1. -/
theorem zRecs_insert_rowid_is_engine_index :
    cdfzRecsUpdate (cdfzRecsConnect stTemp 'w') stTemp (argsInsertRec sqlNull sqlReal21_5)
      = some outTempAppend
    ∧ outTempAppend.rowid = some 0
    ∧ zRecsScan outTempAppend.eng 3 = some [1]
    ∧ cdfVTabRowid (cdfzRecsFilter cdfzRecsOpen) = 1
    ∧ zRecsRow (cdfzRecsConnect stTemp 'w') outTempAppend.eng (cdfzRecsFilter cdfzRecsOpen)
      = [some (SQLITE_OK, .val (.int64 1)),
         some (SQLITE_OK, .val (.double sqlReal21_5.double))] := by
  refine ⟨by rfl, by rfl, by rfl, by rfl, by rfl⟩


theorem isleap_eq (y : Int) : isleap y = if leapYear y then 1 else 0 := by
  unfold isleap leapYear
  simp only [Int.dvd_iff_tmod_eq_zero, ne_eq, decide_eq_true_eq]

theorem days_eq_daysBefore (leap : Bool) (m : Nat) (h1 : 1 ≤ m) (h12 : m ≤ 12) :
    getAt (days.getD (if leap then (1 : Int) else 0).toNat []) (m : Int)
      = some (daysBefore leap m)
    ∧ 0 ≤ daysBefore leap m := by
  cases leap <;> interval_cases m <;> exact ⟨by rfl, by decide⟩

theorem doy_of_leap (y : Int) (leap : Bool) (hl : leapYear y = leap) (m : Nat) (h1 : 1 ≤ m)
    (h12 : m ≤ 12) (d : Int) (hd : INT_MIN ≤ d) (hs : d + daysBefore leap m ≤ INT_MAX) :
    doy y m d = some (d + daysBefore leap m) := by
  have hi := isleap_eq y
  rw [hl] at hi
  obtain ⟨hg, h0⟩ := days_eq_daysBefore leap m h1 h12
  unfold doy
  rw [hi, hg]
  have hc : INT_MIN ≤ daysBefore leap m + d ∧ daysBefore leap m + d ≤ INT_MAX := by
    constructor <;> omega
  simp only [hc, and_self, if_true]
  rw [add_comm]

/-- C30 (amended): for every integer year y, `isleap(y)` is non-zero iff y is divisible by 4
and not by 100, or divisible by 400; for every month m with 1 <= m <= 12 and every day d of
type `int` for which d plus the number of days of the months 1..m-1 does not exceed
`INT_MAX`, `doy(y, m, d)` is d plus the total number of days of the months 1..m-1 of year y
under that leap rule; `doy(y, 1, 1) = 1`, `doy(y, 12, 31)` is 365 plus 1 in a leap year; and
`doy` is strictly increasing over the valid calendar dates of a year. -/
theorem doy_spec (y : Int) :
    (isleap y ≠ 0 ↔ ((4 ∣ y ∧ ¬ 100 ∣ y) ∨ 400 ∣ y))
    ∧ (∀ (m : Nat) (d : Int), 1 ≤ m → m ≤ 12 → INT_MIN ≤ d →
        d + daysBefore (leapYear y) m ≤ INT_MAX →
        doy y m d = some (d + daysBefore (leapYear y) m))
    ∧ doy y 1 1 = some 1
    ∧ doy y 12 31 = some (365 + (if leapYear y then 1 else 0))
    ∧ (∀ (m m2 : Nat) (d d2 : Int),
        1 ≤ m → m ≤ 12 → 1 ≤ d → d ≤ monthLength (leapYear y) m →
        1 ≤ m2 → m2 ≤ 12 → 1 ≤ d2 → d2 ≤ monthLength (leapYear y) m2 →
        (m < m2 ∨ (m = m2 ∧ d < d2)) →
        ∃ a b, doy y m d = some a ∧ doy y m2 d2 = some b ∧ a < b) := by
  refine ⟨?_, ?_, ?_, ?_, ?_⟩
  · rw [isleap_eq]
    unfold leapYear
    by_cases h : (4 ∣ y ∧ ¬ 100 ∣ y) ∨ 400 ∣ y <;> simp [h]
  · intro m d h1 h12 hd hs
    exact doy_of_leap y _ rfl m h1 h12 d hd hs
  · have h := doy_of_leap y _ rfl 1 (by decide) (by decide) 1 (by decide)
      (by cases leapYear y <;> decide)
    exact (show doy y 1 1 = _ from h).trans (by cases leapYear y <;> rfl)
  · have h := doy_of_leap y _ rfl 12 (by decide) (by decide) 31 (by decide)
      (by cases leapYear y <;> decide)
    exact (show doy y 12 31 = _ from h).trans (by cases leapYear y <;> rfl)
  · intro m m2 d d2 h1 h12 hd1 hd2 k1 k12 kd1 kd2 hlt
    have hb : ∀ (q : Nat), 1 ≤ q → q ≤ 12 →
        0 ≤ daysBefore (leapYear y) q ∧ daysBefore (leapYear y) q ≤ 335
        ∧ monthLength (leapYear y) q ≤ 31 := by
      intro q q1 q12
      cases leapYear y <;> interval_cases q <;> decide
    have hstep : ∀ (p q : Nat), 1 ≤ p → p < q → q ≤ 12 →
        daysBefore (leapYear y) p + monthLength (leapYear y) p
          ≤ daysBefore (leapYear y) q := by
      intro p q p1 pq q12
      cases leapYear y <;> interval_cases q <;> interval_cases p <;> decide
    have hm := hb m h1 h12
    have hm2 := hb m2 k1 k12
    refine ⟨_, _,
      doy_of_leap y _ rfl m h1 h12 d (by simp only [INT_MIN]; omega)
        (by simp only [INT_MAX]; omega),
      doy_of_leap y _ rfl m2 k1 k12 d2 (by simp only [INT_MIN]; omega)
        (by simp only [INT_MAX]; omega), ?_⟩
    rcases hlt with hlt | ⟨he, hlt⟩
    · have := hstep m m2 h1 hlt k12
      omega
    · subst he
      omega

/-- C30 (counterexample): for the day 2147483647, a value of the type `int`, in February
2024 the sum `days[leap][month] + day` = 31 + 2147483647 does not fit an `int`, so
`doy(2024, 2, 2147483647)` is not the number 2147483678. -/
theorem doy_overflows_for_large_day :
    INT_MIN ≤ 2147483647 ∧ (2147483647 : Int) ≤ INT_MAX
    ∧ daysBefore (leapYear 2024) 2 = 31
    ∧ doy 2024 2 2147483647 = none
    ∧ doy 2024 2 2147483647 ≠ some (2147483647 + daysBefore (leapYear 2024) 2) := by
  refine ⟨by decide, by decide, by decide, by rfl, by decide⟩

/-- C30 (witness): the day of year of the 1st of March in the leap year 2024 and in the year
1900, which is not a leap year. -/
theorem doy_spec_witness :
    doy 2024 3 1 = some (1 + daysBefore (leapYear 2024) 3)
    ∧ doy 1900 3 1 = some (1 + daysBefore (leapYear 1900) 3)
    ∧ ∃ a b, doy 2024 2 29 = some a ∧ doy 2024 3 1 = some b ∧ a < b :=
  ⟨(doy_spec 2024).2.1 3 1 (by decide) (by decide) (by decide) (by decide),
   (doy_spec 1900).2.1 3 1 (by decide) (by decide) (by decide) (by decide),
   (doy_spec 2024).2.2.2.2 2 3 29 1 (by decide) (by decide) (by decide) (by decide)
     (by decide) (by decide) (by decide) (by decide) (Or.inl (by decide))⟩


theorem decDigits_spec (fuel : Nat) : ∀ n, n < 10 ^ fuel → 0 < fuel →
    (∀ c ∈ decDigits fuel n, 48 ≤ c ∧ c ≤ 57)
    ∧ digitsValue 0 (decDigits fuel n) = n
    ∧ (0 < n → ∃ c cs, decDigits fuel n = c :: cs ∧ 49 ≤ c) := by
  induction fuel with
  | zero => intro n _ h; exact absurd h (by decide)
  | succ fuel ih =>
    intro n hn _
    by_cases h10 : n < 10
    · simp only [decDigits, h10, if_true]
      refine ⟨?_, ?_, ?_⟩
      · intro c hc
        simp only [List.mem_singleton] at hc
        omega
      · simp [digitsValue]
      · intro hpos
        exact ⟨48 + n, [], rfl, by omega⟩
    · simp only [decDigits, h10, if_false]
      have hf : 0 < fuel := by
        rcases Nat.eq_zero_or_pos fuel with h0 | h0
        · subst h0; simp at hn; omega
        · exact h0
      have hlt : n / 10 < 10 ^ fuel := by
        apply Nat.div_lt_of_lt_mul
        rw [pow_succ] at hn
        omega
      obtain ⟨h1, h2, h3⟩ := ih (n / 10) hlt hf
      refine ⟨?_, ?_, ?_⟩
      · intro c hc
        rcases List.mem_append.mp hc with hc | hc
        · exact h1 c hc
        · simp only [List.mem_singleton] at hc
          omega
      · unfold digitsValue at h2 ⊢
        rw [List.foldl_append, h2]
        simp only [List.foldl_cons, List.foldl_nil]
        omega
      · intro _
        obtain ⟨c, cs, hcs, hc⟩ := h3 (by omega)
        exact ⟨c, cs ++ [48 + n % 10], by rw [hcs]; rfl, hc⟩

theorem strtolDigits_run (ds : List Nat) (hds : ∀ c ∈ ds, 48 ≤ c ∧ c ≤ 57) (rest : List Nat)
    (hrest : rest = [] ∨ ∃ t, rest = 44 :: t) :
    ∀ acc, strtolDigits 10 (ds ++ rest) acc = (digitsValue acc ds, rest) := by
  induction ds with
  | nil =>
    intro acc
    rcases hrest with h | ⟨t, h⟩ <;> subst h <;> rfl
  | cons c cs ih =>
    intro acc
    have hc := hds c (List.mem_cons_self _ _)
    have hv : digitVal c = some (c - 48) := by
      simp only [digitVal, hc, and_self, if_true]
    have hlt : c - 48 < 10 := by omega
    simp only [List.cons_append, strtolDigits, hv, hlt, if_true]
    exact ih (fun x hx => hds x (List.mem_cons_of_mem _ hx)) _

theorem strtol0_digits (c : Nat) (cs : List Nat) (hc : 49 ≤ c ∧ c ≤ 57) :
    strtol0 (c :: cs)
      = (min ((strtolDigits 10 (c :: cs) 0).1 : Int) LONG_MAX, (strtolDigits 10 (c :: cs) 0).2) := by
  have hsp : isSpace c = false := by
    simp only [isSpace, decide_eq_false_iff_not]
    omega
  have hv : digitVal c = some (c - 48) := by
    have : 48 ≤ c ∧ c ≤ 57 := by omega
    simp only [digitVal, this, and_self, if_true]
  have h45 : ¬ (c = 45) := by omega
  have h43 : ¬ (c = 43) := by omega
  have h48 : ¬ (c = 48) := by omega
  unfold strtol0
  simp only [List.dropWhile, hsp, List.head?, Option.some.injEq, h45, h43, or_self, if_false,
    decide_False]
  split
  · rename_i heq
    split at heq
    · rename_i h
      simp only [List.cons.injEq] at h
      omega
    · rename_i h
      simp only [List.cons.injEq] at h
      omega
    · rename_i c2 _ _ _ h
      simp only [List.cons.injEq] at h
      rw [← h.1] at heq
      simp [hv] at heq
      omega
    · rename_i h
      simp at h
  · rename_i n rest heq
    split at heq
    · rename_i h
      simp only [List.cons.injEq] at h
      omega
    · rename_i h
      simp only [List.cons.injEq] at h
      omega
    · rename_i c2 _ _ _ h
      simp only [List.cons.injEq] at h
      rw [← h.1] at heq
      have hlt : c - 48 < 10 := by omega
      simp only [hv, Option.getD_some, hlt, if_true, Option.some.injEq] at heq
      rw [heq]
      simp
    · rename_i h
      simp at h


theorem fmtD_pos (x : Int) (h0 : 0 < x) (h1 : x < 2147483648) :
    fmtD x = decDigits 10 x.toNat := by
  have hm : x % 4294967296 = x := Int.emod_eq_of_lt (by omega) (by omega)
  have hi : intOfLong x = x := by
    unfold intOfLong toInt32
    rw [hm]
    have hn : x.toNat % 4294967296 = x.toNat := Nat.mod_eq_of_lt (by omega)
    rw [hn]
    have hlt : x.toNat < 2147483648 := by omega
    simp only [hlt, if_true]
    omega
  unfold fmtD
  simp only [hi]
  have : ¬ (x < 0) := by omega
  simp only [this, if_false]

theorem strtol0_fmtD (x : Int) (h0 : 0 < x) (h1 : x < 2147483648) (rest : List Nat)
    (hrest : rest = [] ∨ ∃ t, rest = 44 :: t) :
    strtol0 (fmtD x ++ rest) = (x, rest) := by
  have hlt : x.toNat < 10 ^ 10 := by
    have : x.toNat < 2147483648 := by omega
    omega
  obtain ⟨hd, hval, hhead⟩ := decDigits_spec 10 x.toNat hlt (by decide)
  obtain ⟨c, cs, hcs, hc⟩ := hhead (by omega)
  have hc57 : c ≤ 57 := (hd c (by rw [hcs]; exact List.mem_cons_self _ _)).2
  rw [fmtD_pos x h0 h1]
  have hrun := strtolDigits_run (decDigits 10 x.toNat) hd rest hrest 0
  rw [hval] at hrun
  rw [hcs] at hrun ⊢
  rw [List.cons_append] at hrun ⊢
  rw [strtol0_digits c (cs ++ rest) ⟨hc, hc57⟩, hrun]
  simp only [LONG_MAX]
  have : ((x.toNat : Nat) : Int) = x := Int.toNat_of_nonneg (by omega)
  rw [this]
  congr 1
  omega

theorem dropLast_render (l : List Int) : ∀ (A : List Nat),
    (l.foldl (fun acc d => acc ++ fmtD d ++ [44]) (A ++ [44])).dropLast = A ++ tailText l := by
  induction l with
  | nil =>
    intro A
    simp [tailText]
  | cons d l ih =>
    intro A
    simp only [List.foldl_cons]
    have h := ih (A ++ [44] ++ fmtD d)
    rw [h]
    simp [tailText]

theorem renderDims_cons (s : Int) (l : List Int) :
    renderDims (s :: l) = fmtD s ++ tailText l := by
  unfold renderDims
  simp only [List.foldl_cons, List.nil_append]
  exact dropLast_render l (fmtD s)

theorem parseMore_tailText (l : List Int) (hl : ∀ s ∈ l, 0 < s ∧ s < 2147483648) :
    parseMore l.length (tailText l) = some l := by
  induction l with
  | nil => rfl
  | cons s l ih =>
    have hs := hl s (List.mem_cons_self _ _)
    have hrest : tailText l = [] ∨ ∃ t, tailText l = 44 :: t := by
      cases l with
      | nil => exact Or.inl rfl
      | cons a b => exact Or.inr ⟨_, rfl⟩
    simp only [List.length_cons, parseMore, tailText]
    rw [strtol0_fmtD s hs.1 hs.2 _ hrest]
    simp only [ih (fun x hx => hl x (List.mem_cons_of_mem _ hx)), Option.map_some']

theorem fmtD_no_nul (x : Int) (h0 : 0 < x) (h1 : x < 2147483648) : ∀ c ∈ fmtD x, c ≠ 0 := by
  intro c hc
  rw [fmtD_pos x h0 h1] at hc
  have hlt : x.toNat < 10 ^ 10 := by
    have : x.toNat < 2147483648 := by omega
    omega
  have := (decDigits_spec 10 x.toNat hlt (by decide)).1 c hc
  omega

theorem tailText_no_nul (l : List Int) (hl : ∀ s ∈ l, 0 < s ∧ s < 2147483648) :
    ∀ c ∈ tailText l, c ≠ 0 := by
  induction l with
  | nil => intro c hc; simp [tailText] at hc
  | cons s l ih =>
    intro c hc
    have hs := hl s (List.mem_cons_self _ _)
    simp only [tailText, List.mem_cons, List.mem_append] at hc
    rcases hc with hc | hc | hc
    · omega
    · exact fmtD_no_nul s hs.1 hs.2 c hc
    · exact ih (fun x hx => hl x (List.mem_cons_of_mem _ hx)) c hc

theorem cstr_of_no_nul (b : List Nat) (h : ∀ c ∈ b, c ≠ 0) : cstr b = b := by
  unfold cstr
  apply List.takeWhile_eq_self_iff.mpr
  intro c hc
  simp [h c hc]

theorem parse_render (sizes : List Int) (hD : 2 ≤ sizes.length)
    (hs : ∀ s ∈ sizes, 0 < s ∧ s < 2147483648) :
    parseNumbers (renderDims sizes) sizes.length = some sizes
    ∧ cstr (renderDims sizes) = renderDims sizes := by
  cases sizes with
  | nil => simp at hD
  | cons s l =>
    have h0 := hs s (List.mem_cons_self _ _)
    have hl : ∀ x ∈ l, 0 < x ∧ x < 2147483648 := fun x hx => hs x (List.mem_cons_of_mem _ hx)
    have hrest : tailText l = [] ∨ ∃ t, tailText l = 44 :: t := by
      cases l with
      | nil => exact Or.inl rfl
      | cons a b => exact Or.inr ⟨_, rfl⟩
    have hc : cstr (renderDims (s :: l)) = renderDims (s :: l) := by
      apply cstr_of_no_nul
      rw [renderDims_cons]
      intro c hc
      rcases List.mem_append.mp hc with hc | hc
      · exact fmtD_no_nul s h0.1 h0.2 c hc
      · exact tailText_no_nul l hl c hc
    refine ⟨?_, hc⟩
    unfold parseNumbers
    rw [hc, renderDims_cons, strtol0_fmtD s h0.1 h0.2 _ hrest]
    have hn : (((s :: l).length : Int) - 1).toNat = l.length := by
      simp
    simp only [hn, parseMore_tailText l hl, Option.map_some']


theorem setPad_dims (st st1 : Engine) (k : Int) (buf : List Nat) (s : Int)
    (h : CDFsetzVarPadValue st k buf = some (s, st1)) (j : Int) :
    CDFgetzVarDimSizes st1 j = CDFgetzVarDimSizes st j := by
  unfold CDFsetzVarPadValue at h
  cases hk : getAt st.zvars k with
  | none =>
    simp only [hk, Option.some.injEq, Prod.mk.injEq] at h
    rw [← h.2]
    rfl
  | some v =>
    simp only [hk] at h
    cases ht : takeBytes (cdf_elsize v.dataType * v.numElems) buf with
    | none => simp [ht] at h
    | some data =>
      simp only [ht, Option.some.injEq, Prod.mk.injEq] at h
      rw [← h.2]
      unfold CDFgetzVarDimSizes
      simp only
      unfold getAt at hk ⊢
      by_cases hj : j < 0
      · simp only [hj, if_true]
      · simp only [hj, if_false]
        by_cases hk0 : k < 0
        · simp [hk0] at hk
        · simp only [hk0, if_false] at hk
          rw [List.getElem?_set]
          by_cases he : k.toNat = j.toNat
          · have hlen : k.toNat < st.zvars.length := by
              rcases List.getElem?_eq_some_iff.mp hk with ⟨hl, _⟩
              exact hl
            rw [← he]
            simp only [if_true, hlen, hk, Option.map_some']
          · simp only [he, if_false]

theorem padval_dims (argv : List SqlValue) (st st1 : Engine) (k rc : Int)
    (h : zvars_upd_padval argv st k = some (rc, st1)) (j : Int) :
    CDFgetzVarDimSizes st1 j = CDFgetzVarDimSizes st j := by
  have hmap : ∀ buf, (CDFsetzVarPadValue st k buf).map (fun r => (SQLITE_OK, r.2)) = some (rc, st1) →
      CDFgetzVarDimSizes st1 j = CDFgetzVarDimSizes st j := by
    intro buf hb
    simp only [Option.map_eq_some', Prod.mk.injEq] at hb
    obtain ⟨⟨s, st2⟩, hs, _, h2⟩ := hb
    simp only at h2
    rw [← h2]
    exact setPad_dims st st2 k buf s hs j
  have hrc : ∀ buf, rcOfStatus (CDFsetzVarPadValue st k buf) = some (rc, st1) →
      CDFgetzVarDimSizes st1 j = CDFgetzVarDimSizes st j := by
    intro buf hb
    exact rcOfStatus_log _ rc st1
      (fun e => CDFgetzVarDimSizes e j = CDFgetzVarDimSizes st j)
      (fun s st2 hs => setPad_dims st st2 k buf s hs j) hb
  have herr : ∀ c, (some (c, st) : Option (Int × Engine)) = some (rc, st1) →
      CDFgetzVarDimSizes st1 j = CDFgetzVarDimSizes st j := by
    intro c he
    simp only [Option.some.injEq, Prod.mk.injEq] at he
    rw [← he.2]
  unfold zvars_upd_padval at h
  simp only at h
  split at h
  · split at h
    · exact absurd h (by simp)
    · split at h
      · exact hmap _ h
      · split at h
        · exact hmap _ h
        · split at h
          · exact hrc _ h
          · split at h
            · exact hrc _ h
            · split at h
              · exact hrc _ h
              · split at h
                · split at h
                  · exact herr _ h
                  · exact hrc _ h
                · exact herr _ h
  · exact herr _ h

theorem zvarsInsertSpec_dims (argv : List SqlValue) (sp : ZVarSpec)
    (h : zvarsInsertSpec argv = .ok sp) :
    sp.numdims = (arg argv 6).int64 ∧ zvarsDimsizes argv (arg argv 6).int64 = .ok sp.dimsizes := by
  unfold zvarsInsertSpec at h
  split at h
  · exact absurd h (by simp)
  · simp only at h
    split at h
    · exact absurd h (by simp)
    · exact absurd h (by simp)
    · rename_i ds hds
      split at h
      · exact absurd h (by simp)
      · split at h
        · exact absurd h (by simp)
        · exact absurd h (by simp)
        · split at h
          · exact absurd h (by simp)
          · simp only [Parsed.ok.injEq] at h
            rw [← h]
            exact ⟨rfl, hds⟩


theorem parseLongs_render (sizes : List Int) (hD : 2 ≤ sizes.length)
    (hs : ∀ s ∈ sizes, 0 < s ∧ s < 2147483648) (n : Int) :
    parseLongs (renderDims sizes) n = none := by
  unfold parseLongs
  rw [(parse_render sizes hD hs).2]
  simp


/-- C18: the INSERT of a variable with 2 dimensions and the dimension sizes "2,3".  The text
is what `result_dimsizes` renders for (2, 3) and its numbers parse back to (2, 3) with the
`strtol` sequence, but `cdfzVarsUpdate` first copies the text, 3 bytes and a terminator, with
`strcpy` into a block of 3 bytes: the parse of the insert path, and with it the call, is
undefined. -/
theorem dimsizes_insert_copies_past_block :
    renderDims [2, 3] = [50, 44, 51]
    ∧ parseNumbers (renderDims [2, 3]) 2 = some [2, 3]
    ∧ (arg argsCreateMatrix 7).bytes = renderDims [2, 3]
    ∧ (arg argsCreateMatrix 7).bytes.length = 3
    ∧ (cstr (arg argsCreateMatrix 7).bytes).length + 1 = 4
    ∧ parseLongs (arg argsCreateMatrix 7).bytes (arg argsCreateMatrix 6).int64 = none
    ∧ cdfzVarsUpdate ⟨'w'⟩ SQLITE_OK stTemp argsCreateMatrix = none :=
  ⟨by rfl, by rfl, by rfl, by rfl, by rfl, by rfl, by rfl⟩


theorem dense_attr_facts (st : Engine) (a : Int) (x : Attr) (hx : getAt st.attrs (a - 1) = some x)
    (hs : x.scope = GLOBAL_SCOPE) (hd : DenseEntries x) :
    CDFgetAttrScope st (a - 1) = some GLOBAL_SCOPE
    ∧ getNumAttrEntries GLOBAL_SCOPE st (a - 1) = some (x.entries.length : Int)
    ∧ getAttrMaxEntry GLOBAL_SCOPE st (a - 1) = some ((x.entries.length : Int) - 1)
    ∧ (∀ e : Int, 0 ≤ e → e < (x.entries.length : Int) →
        ∃ n, 0 < n ∧ getAttrEntryNumElements GLOBAL_SCOPE st (a - 1) e = some n) := by
  have hes : attrEntries GLOBAL_SCOPE st (a - 1) = some x.entries := by
    simp only [attrEntries, hx, hs, if_true]
  refine ⟨?_, ?_, ?_, ?_⟩
  · simp only [CDFgetAttrScope, hx, Option.map_some', hs]
  · simp only [getNumAttrEntries, hes, Option.map_some']
  · simp only [getAttrMaxEntry, hes, Option.map_some', Option.some.injEq]
    apply le_antisymm
    · apply (foldl_max_le_iff (fun (p : Int × AttrEntry) => p.1) x.entries (-1) _).mpr
      refine ⟨by omega, ?_⟩
      intro p hp
      have := (hd.1 p hp).2.1
      omega
    · by_cases hk : x.entries.length = 0
      · have := foldl_max_ge (fun (p : Int × AttrEntry) => p.1) x.entries (-1)
        omega
      · obtain ⟨p, hp, hpe⟩ := hd.2 ((x.entries.length : Int) - 1) (by omega) (by omega)
        have h1 := (foldl_max_le_iff (fun (p : Int × AttrEntry) => p.1) x.entries (-1)
          (x.entries.foldl (fun m p => max m p.1) (-1))).mp (le_refl _)
        have := h1.2 p hp
        simp only at this
        omega
  · intro e he0 hek
    obtain ⟨p, hp, hpe⟩ := hd.2 e he0 hek
    have hsome : (x.entries.find? (fun q => decide (q.1 = e))).isSome = true :=
      List.find?_isSome.mpr ⟨p, hp, by simp [hpe]⟩
    obtain ⟨q, hq⟩ := Option.isSome_iff_exists.mp hsome
    have hqm : q ∈ x.entries := List.mem_of_find?_eq_some hq
    refine ⟨q.2.numElems, (hd.1 q hqm).2.2, ?_⟩
    simp only [getAttrEntryNumElements, attrEntry, hes, hq, Option.map_some']


theorem skipEmpty_hit (f : Int → Option Int) (cond : Int → Bool) (k : Nat) (e x n : Int)
    (hc : cond e = true) (hf : f (e - 1) = some n) (hn : 0 < n) :
    skipEmpty f cond (k + 1) e x = (e, n) := by
  simp only [skipEmpty, hc, if_true, hf, Option.getD_some, gt_iff_lt, hn]

theorem skipEmpty_stop (f : Int → Option Int) (cond : Int → Bool) (k : Nat) (e x : Int)
    (hc : cond e = false) : skipEmpty f cond k e x = (e, x) := by
  cases k with
  | zero => rfl
  | succ k => simp [skipEmpty, hc]

theorem getAt_attr_exists (st : Engine) (a : Int) (h1 : 1 ≤ a) (h2 : a ≤ (st.attrs.length : Int)) :
    ∃ x, getAt st.attrs (a - 1) = some x ∧ x ∈ st.attrs := by
  have hlt : (a - 1).toNat < st.attrs.length := by omega
  refine ⟨st.attrs[(a - 1).toNat], ?_, List.getElem_mem _⟩
  unfold getAt
  have : ¬ (a - 1 < 0) := by omega
  simp only [this, if_false]
  exact List.getElem?_eq_getElem hlt

theorem attrRows_ne_nil_iff (st : Engine) (a : Int) (x : Attr)
    (hx : getAt st.attrs (a - 1) = some x) :
    attrRows st a ≠ [] ↔ (x.scope = GLOBAL_SCOPE ∧ x.entries.length ≠ 0) := by
  unfold attrRows
  simp only [hx]
  by_cases hs : x.scope = GLOBAL_SCOPE
  · simp only [hs, if_true, true_and, ne_eq, List.map_eq_nil_iff, List.range_eq_nil]
  · simp only [hs, if_false, false_and, ne_eq, not_true_eq_false]

theorem nextAttrLoop_dense (st : Engine) (hd : DenseGlobal st) :
    ∀ (n : Nat) (a scope nentries : Int), 1 ≤ a → a + n = (st.attrs.length : Int) + 1 →
      nextAttrLoop GLOBAL_SCOPE st (CDFgetNumAttributes st) n a scope nentries
        = firstGood st n a := by
  intro n
  induction n with
  | zero => intro a scope nentries _ _; rfl
  | succ n ih =>
    intro a scope nentries h1 h2
    have hle : a ≤ CDFgetNumAttributes st := by
      unfold CDFgetNumAttributes
      push_cast at h2
      omega
    obtain ⟨x, hx, hxm⟩ := getAt_attr_exists st a h1 (by push_cast at h2; omega)
    have hiff := attrRows_ne_nil_iff st a x hx
    simp only [nextAttrLoop, hle, if_true, firstGood]
    by_cases hs : x.scope = GLOBAL_SCOPE
    · obtain ⟨f1, f2, _, _⟩ := dense_attr_facts st a x hx hs (hd x hxm hs)
      simp only [f1, Option.getD_some, if_true, f2]
      by_cases hk : x.entries.length = 0
      · have hnot : ¬ ((x.entries.length : Int) > 0) := by omega
        have hr : ¬ (attrRows st a ≠ []) := by rw [hiff]; simp [hk]
        simp only [hnot, if_false, hr]
        exact ih (a + 1) _ _ (by omega) (by push_cast at h2 ⊢; omega)
      · have hpos : (x.entries.length : Int) > 0 := by omega
        have hr : attrRows st a ≠ [] := hiff.mpr ⟨hs, hk⟩
        simp only [hpos, if_true, hr, ne_eq, not_false_eq_true]
    · have f1 : CDFgetAttrScope st (a - 1) = some x.scope := by
        simp only [CDFgetAttrScope, hx, Option.map_some']
      have hr : ¬ (attrRows st a ≠ []) := by rw [hiff]; simp [hs]
      simp only [f1, Option.getD_some, hs, if_false, hr]
      exact ih (a + 1) _ _ (by omega) (by push_cast at h2 ⊢; omega)

theorem attrFilterLoop_dense (st : Engine) (hd : DenseGlobal st) :
    ∀ (n : Nat) (a : Int) (l : WalkLocals), 1 ≤ a → a + n = (st.attrs.length : Int) + 1 →
      attrFilterLoop GLOBAL_SCOPE st (CDFgetNumAttributes st) n a 1 l
        = (SQLITE_OK, firstGood st n a, 1) := by
  intro n
  induction n with
  | zero => intro a l _ _; rfl
  | succ n ih =>
    intro a l h1 h2
    have hle : a ≤ CDFgetNumAttributes st := by
      unfold CDFgetNumAttributes
      push_cast at h2
      omega
    obtain ⟨x, hx, hxm⟩ := getAt_attr_exists st a h1 (by push_cast at h2; omega)
    have hiff := attrRows_ne_nil_iff st a x hx
    simp only [attrFilterLoop, hle, if_true, firstGood]
    by_cases hs : x.scope = GLOBAL_SCOPE
    · obtain ⟨f1, f2, f3, f4⟩ := dense_attr_facts st a x hx hs (hd x hxm hs)
      simp only [f1, Option.getD_some, f2, f3, true_and]
      by_cases hk : x.entries.length = 0
      · have hnot : ¬ ((x.entries.length : Int) > 0) := by omega
        have hr : ¬ (attrRows st a ≠ []) := by rw [hiff]; simp [hk]
        simp only [hnot, if_false, hr]
        exact ih (a + 1) _ (by omega) (by push_cast at h2 ⊢; omega)
      · have hpos : (x.entries.length : Int) > 0 := by omega
        have hr : attrRows st a ≠ [] := hiff.mpr ⟨hs, hk⟩
        obtain ⟨m, hm0, hm⟩ := f4 0 (le_refl _) (by omega)
        have hfuel : ((x.entries.length : Int) - 1 + 2 - 1).toNat
            = (x.entries.length - 1) + 1 := by omega
        have hcond : decide ((1 : Int) - 1 ≤ (x.entries.length : Int) - 1) = true := by
          simp only [decide_eq_true_eq]; omega
        simp only [hpos, if_true, hr, ne_eq, not_false_eq_true, hfuel]
        rw [skipEmpty_hit _ _ _ 1 _ m hcond (by simpa using hm) hm0]
        have : ¬ ((1 : Int) - 1 > (x.entries.length : Int) - 1) := by omega
        simp only [this, if_false]
    · have f1 : CDFgetAttrScope st (a - 1) = some x.scope := by
        simp only [CDFgetAttrScope, hx, Option.map_some']
      have hr : ¬ (attrRows st a ≠ []) := by rw [hiff]; simp [hs]
      simp only [f1, Option.getD_some, hs, false_and, if_false, hr]
      exact ih (a + 1) _ (by omega) (by push_cast at h2 ⊢; omega)


theorem firstGood_spec (st : Engine) : ∀ (n : Nat) (a : Int),
    a ≤ firstGood st n a ∧ firstGood st n a ≤ a + n
    ∧ (firstGood st n a < a + n → attrRows st (firstGood st n a) ≠ [])
    ∧ rowsFrom st n a
        = rowsFrom st (n - (firstGood st n a - a).toNat) (firstGood st n a) := by
  intro n
  induction n with
  | zero =>
    intro a
    simp [firstGood, rowsFrom]
  | succ n ih =>
    intro a
    by_cases hr : attrRows st a ≠ []
    · simp only [firstGood, hr, ne_eq, not_false_eq_true, if_true, le_refl, sub_self,
        Int.toNat_zero, Nat.sub_zero, true_and, implies_true, and_true]
      push_cast
      omega
    · obtain ⟨h1, h2, h3, h4⟩ := ih (a + 1)
      have he : attrRows st a = [] := by simpa using hr
      simp only [firstGood, hr, if_false]
      refine ⟨by omega, by push_cast; omega, ?_, ?_⟩
      · intro hlt
        exact h3 (by push_cast at hlt; omega)
      · have hn : n + 1 - (firstGood st n (a + 1) - a).toNat
            = n - (firstGood st n (a + 1) - (a + 1)).toNat := by omega
        rw [hn, ← h4]
        simp only [rowsFrom, he, List.nil_append]

theorem range_map_eq_entryRun (a : Int) : ∀ (m : Nat) (e : Int),
    (List.range m).map (fun (i : Nat) => (a, (i : Int) + e)) = entryRun a e m := by
  intro m
  induction m with
  | zero => intro e; rfl
  | succ m ih =>
    intro e
    rw [List.range_succ_eq_map, List.map_cons, List.map_map, entryRun, ← ih (e + 1)]
    congr 1
    · simp
    · apply List.map_congr_left
      intro i _
      simp only [Function.comp, Nat.succ_eq_add_one, Nat.cast_add, Nat.cast_one, Prod.mk.injEq,
        true_and]
      omega

theorem attrRows_eq_entryRun (st : Engine) (a : Int) (x : Attr)
    (hx : getAt st.attrs (a - 1) = some x) (hs : x.scope = GLOBAL_SCOPE) :
    attrRows st a = entryRun a 1 x.entries.length := by
  unfold attrRows
  simp only [hx, hs, if_true]
  exact range_map_eq_entryRun a _ 1

theorem numberRows_append (A B : List (Int × Int)) : ∀ (r : Int),
    numberRows r (A ++ B) = numberRows r A ++ numberRows (r + A.length) B := by
  induction A with
  | nil => intro r; simp [numberRows]
  | cons p A ih =>
    intro r
    have he : r + 1 + (A.length : Int) = r + ((A.length + 1 : Nat) : Int) := by
      push_cast
      omega
    rw [List.cons_append, numberRows, numberRows, ih (r + 1), List.length_cons, he,
      List.cons_append]

theorem entryRun_length (a : Int) : ∀ (m : Nat) (e : Int), (entryRun a e m).length = m := by
  intro m
  induction m with
  | zero => intro e; rfl
  | succ m ih => intro e; simp [entryRun, ih]

theorem rowsFrom_length_attr (st : Engine) (n : Nat) (a : Int) :
    (rowsFrom st (n + 1) a).length = (attrRows st a).length + (rowsFrom st n (a + 1)).length := by
  simp [rowsFrom]


theorem attrEntriesNext_inside (st : Engine) (a e r : Int) (x : Attr)
    (hx : getAt st.attrs (a - 1) = some x) (hs : x.scope = GLOBAL_SCOPE) (hd : DenseEntries x)
    (h1 : 1 ≤ e) (h2 : e < (x.entries.length : Int)) :
    attrEntriesNext GLOBAL_SCOPE st ⟨r, a, e⟩ = (SQLITE_OK, ⟨r + 1, a, e + 1⟩) := by
  obtain ⟨_, f2, f3, f4⟩ := dense_attr_facts st a x hx hs hd
  obtain ⟨m, hm0, hm⟩ := f4 e (by omega) h2
  have hfuel : ((x.entries.length : Int) + 1 - (e + 1)).toNat
      = ((x.entries.length : Int) - e - 1).toNat + 1 := by omega
  have hcond : decide (e + 1 ≤ (x.entries.length : Int)) = true := by
    simp only [decide_eq_true_eq]; omega
  unfold attrEntriesNext
  simp only [f2, f3, Option.getD_some, hfuel]
  rw [skipEmpty_hit _ _ _ (e + 1) _ m hcond (by simpa using hm) hm0]
  have : ¬ (e + 1 - 1 > (x.entries.length : Int) - 1) := by omega
  simp only [this, if_false]

theorem attrEntriesNext_last (st : Engine) (hdg : DenseGlobal st) (a r : Int) (x : Attr)
    (ha1 : 1 ≤ a) (ha2 : a ≤ (st.attrs.length : Int))
    (hx : getAt st.attrs (a - 1) = some x) (hs : x.scope = GLOBAL_SCOPE) (hd : DenseEntries x) :
    attrEntriesNext GLOBAL_SCOPE st ⟨r, a, (x.entries.length : Int)⟩
      = (SQLITE_OK,
          ⟨r + 1, firstGood st ((st.attrs.length : Int) - a).toNat (a + 1), 1⟩) := by
  obtain ⟨_, f2, f3, _⟩ := dense_attr_facts st a x hx hs hd
  have hcond : decide ((x.entries.length : Int) + 1 ≤ (x.entries.length : Int)) = false := by
    simp only [decide_eq_false_iff_not]; omega
  have hgo : (x.entries.length : Int) + 1 - 1 > (x.entries.length : Int) - 1 := by omega
  have hloop := nextAttrLoop_dense st hdg ((st.attrs.length : Int) - a).toNat (a + 1) 0
    (x.entries.length : Int) (by omega) (by omega)
  obtain ⟨g1, g2, g3, _⟩ := firstGood_spec st ((st.attrs.length : Int) - a).toNat (a + 1)
  unfold attrEntriesNext
  simp only [f2, f3, Option.getD_some]
  rw [skipEmpty_stop _ _ _ _ _ hcond]
  simp only [hgo, if_true]
  have hN : CDFgetNumAttributes st = (st.attrs.length : Int) := rfl
  rw [hN] at hloop ⊢
  rw [hloop]
  by_cases hg : firstGood st ((st.attrs.length : Int) - a).toNat (a + 1) > (st.attrs.length : Int)
  · simp only [hg, if_true]
  · simp only [hg, if_false]
    have hgood := g3 (by omega)
    obtain ⟨y, hy, hym⟩ := getAt_attr_exists st
      (firstGood st ((st.attrs.length : Int) - a).toNat (a + 1)) (by omega) (by omega)
    obtain ⟨hys, hyk⟩ := (attrRows_ne_nil_iff st _ y hy).mp hgood
    obtain ⟨_, _, k3, k4⟩ := dense_attr_facts st _ y hy hys (hdg y hym hys)
    obtain ⟨m, hm0, hm⟩ := k4 0 (le_refl _) (by omega)
    have hfuel : ((y.entries.length : Int) - 1 + 1).toNat = (y.entries.length - 1) + 1 := by
      omega
    have hc2 : decide ((1 : Int) - 1 ≤ (y.entries.length : Int) - 1) = true := by
      simp only [decide_eq_true_eq]; omega
    simp only [k3, Option.getD_some, hfuel]
    rw [skipEmpty_hit _ _ _ 1 _ m hc2 (by simpa using hm) hm0]
    have : ¬ ((1 : Int) - 1 > (y.entries.length : Int) - 1) := by omega
    simp only [this, if_false]

theorem attrScanFrom_run (st : Engine) (hdg : DenseGlobal st) (a : Int) (x : Attr)
    (ha1 : 1 ≤ a) (ha2 : a ≤ (st.attrs.length : Int))
    (hx : getAt st.attrs (a - 1) = some x) (hs : x.scope = GLOBAL_SCOPE) (hd : DenseEntries x)
    (fuel : Nat) :
    ∀ (m : Nat) (e r : Int), 1 ≤ e → e + m = (x.entries.length : Int) →
      attrScanFrom GLOBAL_SCOPE st (fuel + (m + 1)) ⟨r, a, e⟩
        = (attrScanFrom GLOBAL_SCOPE st fuel
            ⟨r + m + 1, firstGood st ((st.attrs.length : Int) - a).toNat (a + 1), 1⟩).map
            (fun y => (numberRows r (entryRun a e (m + 1)) ++ y.1, y.2)) := by
  have heof : ∀ r e, cdfAttrEntriesEof st ⟨r, a, e⟩ = false := by
    intro r e
    simp only [cdfAttrEntriesEof, CDFgetNumAttributes, decide_eq_false_iff_not]
    omega
  intro m
  induction m with
  | zero =>
    intro e r h1 h2
    have he : e = (x.entries.length : Int) := by push_cast at h2; omega
    subst he
    have hnext := attrEntriesNext_last st hdg a r x ha1 ha2 hx hs hd
    rw [show fuel + (0 + 1) = fuel + 1 from rfl, attrScanFrom]
    simp only [heof, Bool.false_eq_true, if_false, hnext, ne_eq, not_true_eq_false]
    simp [entryRun, numberRows]
  | succ m ih =>
    intro e r h1 h2
    have hnext := attrEntriesNext_inside st a e r x hx hs hd h1 (by push_cast at h2; omega)
    rw [show fuel + (m + 1 + 1) = (fuel + (m + 1)) + 1 from rfl, attrScanFrom]
    simp only [heof, Bool.false_eq_true, if_false, hnext, ne_eq, not_true_eq_false]
    rw [ih (e + 1) (r + 1) (by omega) (by push_cast at h2 ⊢; omega)]
    have hr : r + 1 + (m : Int) + 1 = r + ((m + 1 : Nat) : Int) + 1 := by push_cast; omega
    rw [hr]
    cases attrScanFrom GLOBAL_SCOPE st fuel
        ⟨r + ((m + 1 : Nat) : Int) + 1, firstGood st ((st.attrs.length : Int) - a).toNat (a + 1), 1⟩ with
    | none => rfl
    | some y => simp [entryRun, numberRows]


theorem attrScanFrom_dense (st : Engine) (hdg : DenseGlobal st) :
    ∀ (n : Nat) (g r : Int), 1 ≤ g → g + n = (st.attrs.length : Int) + 1 →
      (n = 0 ∨ attrRows st g ≠ []) → ∀ (j : Nat),
      attrScanFrom GLOBAL_SCOPE st ((rowsFrom st n g).length + 1 + j) ⟨r, g, 1⟩
        = some (numberRows r (rowsFrom st n g), SQLITE_OK) := by
  intro n
  induction n using Nat.strong_induction_on with
  | _ n ih =>
    intro g r h1 h2 hgood j
    cases n with
    | zero =>
      have heof : cdfAttrEntriesEof st ⟨r, g, 1⟩ = true := by
        simp only [cdfAttrEntriesEof, CDFgetNumAttributes, decide_eq_true_eq]
        push_cast at h2
        omega
      simp only [rowsFrom, List.length_nil, Nat.zero_add]
      rw [show 1 + j = j + 1 from Nat.add_comm 1 j, attrScanFrom]
      simp only [heof, if_true, numberRows]
    | succ n =>
      have hne : attrRows st g ≠ [] := by
        rcases hgood with h | h
        · exact absurd h (by omega)
        · exact h
      have hgN : g ≤ (st.attrs.length : Int) := by push_cast at h2; omega
      obtain ⟨x, hx, hxm⟩ := getAt_attr_exists st g h1 hgN
      obtain ⟨hs, hk⟩ := (attrRows_ne_nil_iff st g x hx).mp hne
      have hd := hdg x hxm hs
      have hrows := attrRows_eq_entryRun st g x hx hs
      have hNn : ((st.attrs.length : Int) - g).toNat = n := by push_cast at h2; omega
      obtain ⟨g1, g2, g3, g4⟩ := firstGood_spec st n (g + 1)
      have hlen : (rowsFrom st (n + 1) g).length + 1 + j
          = ((rowsFrom st (n - (firstGood st n (g + 1) - (g + 1)).toNat)
              (firstGood st n (g + 1))).length + 1 + j)
            + ((x.entries.length - 1) + 1) := by
        rw [rowsFrom_length_attr, hrows, entryRun_length, ← g4]
        omega
      have hrun := attrScanFrom_run st hdg g x h1 hgN hx hs hd
        ((rowsFrom st (n - (firstGood st n (g + 1) - (g + 1)).toNat)
            (firstGood st n (g + 1))).length + 1 + j)
        (x.entries.length - 1) 1 r (le_refl _) (by omega)
      rw [hNn] at hrun
      have hk1 : x.entries.length - 1 + 1 = x.entries.length := by omega
      rw [hlen, hrun, hk1]
      have hih := ih (n - (firstGood st n (g + 1) - (g + 1)).toNat) (by omega)
        (firstGood st n (g + 1)) (r + ((x.entries.length - 1 : Nat) : Int) + 1)
        (by omega) (by omega)
        (by
          by_cases hz : n - (firstGood st n (g + 1) - (g + 1)).toNat = 0
          · exact Or.inl hz
          · exact Or.inr (g3 (by omega)))
        j
      rw [hih]
      simp only [Option.map_some', Option.some.injEq, Prod.mk.injEq, and_true]
      rw [rowsFrom, hrows, numberRows_append, entryRun_length, ← g4]
      congr 2
      omega

/-- The scan of the global entry adapter over a dense container, as a list of cursor
positions. -/
theorem attrScan_dense_rows (st : Engine) (hdg : DenseGlobal st) (j : Nat) :
    cdfAttrgEntriesFilter st
      = (SQLITE_OK, ⟨1, firstGood st st.attrs.length 1, 1⟩)
    ∧ attrScan GLOBAL_SCOPE st ((denseRows st).length + 1 + j)
      = some (numberRows 1 (denseRows st), SQLITE_OK) := by
  have hf : attrEntriesFilter GLOBAL_SCOPE st
      = (SQLITE_OK, ⟨1, firstGood st st.attrs.length 1, 1⟩) := by
    unfold attrEntriesFilter
    have hn : (CDFgetNumAttributes st).toNat = st.attrs.length := by
      simp [CDFgetNumAttributes]
    simp only [hn]
    rw [attrFilterLoop_dense st hdg st.attrs.length 1 _ (le_refl _) (by omega)]
  refine ⟨hf, ?_⟩
  obtain ⟨g1, g2, g3, g4⟩ := firstGood_spec st st.attrs.length 1
  unfold attrScan
  simp only [hf, ne_eq, not_true_eq_false, if_false]
  unfold denseRows
  rw [g4]
  exact attrScanFrom_dense st hdg _ _ 1 g1 (by omega)
    (by
      by_cases hz : st.attrs.length - (firstGood st st.attrs.length 1 - 1).toNat = 0
      · exact Or.inl hz
      · exact Or.inr (g3 (by omega)))
    j


theorem attrRows_mem (st : Engine) (a : Int) (p : Int × Int) :
    p ∈ attrRows st a ↔ p.1 = a ∧ ∃ x, getAt st.attrs (a - 1) = some x
      ∧ x.scope = GLOBAL_SCOPE ∧ 1 ≤ p.2 ∧ p.2 ≤ (x.entries.length : Int) := by
  unfold attrRows
  cases hx : getAt st.attrs (a - 1) with
  | none => simp
  | some x =>
    by_cases hs : x.scope = GLOBAL_SCOPE
    · simp only [hs, if_true, List.mem_map, List.mem_range, Option.some.injEq, true_and,
        exists_eq_left']
      constructor
      · rintro ⟨i, hi, rfl⟩
        exact ⟨rfl, by simp only; omega, by simp only; omega⟩
      · rintro ⟨h1, h2, h3⟩
        refine ⟨(p.2 - 1).toNat, by omega, ?_⟩
        apply Prod.ext
        · exact h1.symm
        · simp only
          omega
    · simp [hs]

theorem rowsFrom_mem (st : Engine) : ∀ (n : Nat) (a : Int) (p : Int × Int),
    p ∈ rowsFrom st n a ↔ (a ≤ p.1 ∧ p.1 < a + n ∧ p ∈ attrRows st p.1) := by
  intro n
  induction n with
  | zero =>
    intro a p
    simp only [rowsFrom, List.not_mem_nil, Nat.cast_zero, add_zero, false_iff, not_and]
    intro h1 h2
    omega
  | succ n ih =>
    intro a p
    simp only [rowsFrom, List.mem_append, ih (a + 1) p]
    constructor
    · rintro (h | ⟨h1, h2, h3⟩)
      · have := ((attrRows_mem st a p).mp h).1
        rw [this]
        exact ⟨le_refl _, by push_cast; omega, h⟩
      · exact ⟨by omega, by push_cast; omega, h3⟩
    · rintro ⟨h1, h2, h3⟩
      by_cases he : p.1 = a
      · rw [he] at h3
        exact Or.inl h3
      · exact Or.inr ⟨by omega, by push_cast at h2; omega, h3⟩

theorem attrRows_sorted (st : Engine) (a : Int) :
    (attrRows st a).Pairwise (fun p q => p.1 < q.1 ∨ (p.1 = q.1 ∧ p.2 < q.2)) := by
  unfold attrRows
  cases getAt st.attrs (a - 1) with
  | none => exact List.Pairwise.nil
  | some x =>
    simp only
    split
    · rw [List.pairwise_map]
      apply List.Pairwise.imp _ (List.pairwise_lt_range _)
      intro i k hik
      exact Or.inr ⟨rfl, by simp only; omega⟩
    · exact List.Pairwise.nil

theorem rowsFrom_sorted (st : Engine) : ∀ (n : Nat) (a : Int),
    (rowsFrom st n a).Pairwise (fun p q => p.1 < q.1 ∨ (p.1 = q.1 ∧ p.2 < q.2)) := by
  intro n
  induction n with
  | zero => intro a; exact List.Pairwise.nil
  | succ n ih =>
    intro a
    simp only [rowsFrom]
    rw [List.pairwise_append]
    refine ⟨attrRows_sorted st a, ih (a + 1), ?_⟩
    intro p hp q hq
    have h1 := ((attrRows_mem st a p).mp hp).1
    have h2 := ((rowsFrom_mem st n (a + 1) q).mp hq).1
    exact Or.inl (by omega)

theorem denseRows_spec (st : Engine) :
    (∀ a e, (a, e) ∈ denseRows st ↔
      ∃ x, getAt st.attrs (a - 1) = some x ∧ x.scope = GLOBAL_SCOPE
        ∧ 1 ≤ e ∧ e ≤ (x.entries.length : Int))
    ∧ (denseRows st).Pairwise (fun p q => p.1 < q.1 ∨ (p.1 = q.1 ∧ p.2 < q.2)) := by
  refine ⟨?_, rowsFrom_sorted st _ 1⟩
  intro a e
  unfold denseRows
  rw [rowsFrom_mem, attrRows_mem]
  simp only [true_and]
  constructor
  · rintro ⟨_, _, h⟩
    exact h
  · rintro ⟨x, hx, hs, h1, h2⟩
    refine ⟨?_, ?_, x, hx, hs, h1, h2⟩
    · unfold getAt at hx
      by_cases hneg : a - 1 < 0
      · simp [hneg] at hx
      · omega
    · unfold getAt at hx
      by_cases hneg : a - 1 < 0
      · simp [hneg] at hx
      · simp only [hneg, if_false] at hx
        have := (List.getElem?_eq_some_iff.mp hx).1
        omega


/-- C25: in a container in which every global-scope attribute has dense entries (entries
exactly at the indices 0..k-1, k the entry count, all with a positive element count), the
scan of the global entry adapter (`cdfAttrgEntriesFilter`, then `cdfAttrgEntriesNext` until
`cdfAttrEntriesEof`) ends with `SQLITE_OK` from every call and visits the rows of
`denseRows` with the row ids 1, 2, 3, ...; these rows are exactly the pairs
(attribute id, entry id) of a global attribute and one of its k entries, each once, in
ascending order of attribute and then entry, so attributes of variable scope and global
attributes without entries contribute no row. -/
theorem dense_global_scan (st : Engine) (hdg : DenseGlobal st) :
    (cdfAttrgEntriesFilter st).1 = SQLITE_OK
    ∧ (∀ j : Nat, attrScan GLOBAL_SCOPE st ((denseRows st).length + 1 + j)
        = some (numberRows 1 (denseRows st), SQLITE_OK))
    ∧ (∀ a e, (a, e) ∈ denseRows st ↔
        ∃ x, getAt st.attrs (a - 1) = some x ∧ x.scope = GLOBAL_SCOPE
          ∧ 1 ≤ e ∧ e ≤ (x.entries.length : Int))
    ∧ (denseRows st).Pairwise (fun p q => p.1 < q.1 ∨ (p.1 = q.1 ∧ p.2 < q.2)) := by
  refine ⟨?_, fun j => (attrScan_dense_rows st hdg j).2, (denseRows_spec st).1,
    (denseRows_spec st).2⟩
  rw [(attrScan_dense_rows st hdg 0).1]

theorem stDense_dense : DenseGlobal stDense := by
  intro x hx hs
  simp only [stDense, List.mem_cons, List.mem_singleton, List.not_mem_nil, or_false] at hx
  rcases hx with rfl | rfl | rfl | rfl
  · exact absurd hs (by decide)
  · exact ⟨by decide, fun e h0 h1 => by simp at h1; omega⟩
  · refine ⟨by decide, fun e h0 h1 => ?_⟩
    have h2 : e < 2 := h1
    interval_cases e
    · exact ⟨entryAt 0, by simp, rfl⟩
    · exact ⟨entryAt 1, by simp, rfl⟩
  · refine ⟨by decide, fun e h0 h1 => ?_⟩
    have h2 : e < 1 := h1
    interval_cases e
    exact ⟨entryAt 0, by simp, rfl⟩

/-- C25 (witness): in the container with a variable-scope attribute, a global attribute
without entries, a global attribute with two entries and one with one entry, the scan
visits the three rows (attribute 3, entry 1), (attribute 3, entry 2), (attribute 4,
entry 1) with the row ids 1, 2, 3. -/
theorem dense_global_scan_witness :
    attrScan GLOBAL_SCOPE stDense 4
      = some ([⟨1, 3, 1⟩, ⟨2, 3, 2⟩, ⟨3, 4, 1⟩], SQLITE_OK) :=
  (dense_global_scan stDense stDense_dense).2.1 0

end CdfVtab
